import Mathlib

/-!
# XPT2046 touch pipeline: shallow embedding and verified properties

The definitions below transcribe the sample-to-gesture pipeline of

* `src/xpt2046_uinputd.cpp`   (the uinput daemon: `main` loop body with the
  configuration reload, `sanitize_adv`, `load_config`, `uinput_create_touch`),
* `src/xpt2046_calibrator.cpp` (the calibrator / sampler: `main` loop body,
  configuration loading and command line),
* `src/advanced_gui.cpp`      (`scale_raw_to_screen`, `load_config`),
* `src/basic_gui.cpp`         (`parse_idle_cursor_mode`, `idle_cursor_mode_name`).

Conventions of the embedding.

* C++ `int` is `Int`; signed overflow is undefined behaviour in the source and is
  not modelled.  `/` on `int` is truncating division, `Int.tdiv`.
* `float` / `double` values are exact rationals (`ℚ`); `std::llround` is
  rounding to nearest with halves away from zero, the `(int)` cast of a
  floating value is truncation toward zero.  Binary rounding error of the
  floating-point operations is not modelled.
* Local variables of `main` that persist across loop iterations form the state
  records; one loop iteration is one `*_tick` function, which returns the next
  state together with what the iteration wrote to its consumer.
-/

namespace XPT2046

/-! ## Shared helpers -/

/-- `clamp_val(v, lo, hi)`: `(v < lo) ? lo : ((v > hi) ? hi : v)`. -/
def clamp_val (v lo hi : Int) : Int :=
  if v < lo then lo else if v > hi then hi else v

/-- `std::llround` on an exact value: nearest integer, halves away from zero. -/
def llround (q : ℚ) : Int :=
  if 0 ≤ q then ⌊q + 1 / 2⌋ else -⌊-q + 1 / 2⌋

/-- The `(int)` cast of a floating value: truncation toward zero. -/
def trunc_int (q : ℚ) : Int :=
  if 0 ≤ q then ⌊q⌋ else ⌈q⌉

/-- `struct AdvancedParams` with its default member initialisers.  The
calibrator's struct has the three gesture fields in addition to the daemon's
fields; the daemon never reads them. -/
structure AdvancedParams where
  screen_w : Int := 800
  screen_h : Int := 480
  poll_us : Int := 100000
  offset_x : Int := 0
  offset_y : Int := 0
  scale_x : ℚ := 1
  scale_y : ℚ := 1
  deadzone_left : Int := 0
  deadzone_right : Int := 0
  deadzone_top : Int := 0
  deadzone_bottom : Int := 0
  median_window : Int := 3
  iir_alpha : ℚ := 1 / 5
  press_threshold : Int := 120
  release_threshold : Int := 80
  max_delta_px : Int := 0
  tap_max_ms : Int := 250
  tap_max_move_px : Int := 12
  drag_start_px : Int := 18

/-- The calibration locals of `main` (`invert_x`, ..., `max_y`) with the
defaults assigned by `load_config`.  The flags are C `int`s tested for
non-zero. -/
structure Calib where
  invert_x : Int := 0
  invert_y : Int := 0
  swap_xy : Int := 0
  min_x : Int := 0
  max_x : Int := 4095
  min_y : Int := 0
  max_y : Int := 4095

/-! ## Coordinate mapping -/

/-- Swap and invert stage shared by all three programs:
`if (swap_xy) swap(x, y); if (invert_x) x = 4095 - x; if (invert_y) y = 4095 - y;`. -/
def swap_invert (c : Calib) (raw_x raw_y : Int) : Int × Int :=
  let x := if c.swap_xy ≠ 0 then raw_y else raw_x
  let y := if c.swap_xy ≠ 0 then raw_x else raw_y
  let x := if c.invert_x ≠ 0 then 4095 - x else x
  let y := if c.invert_y ≠ 0 then 4095 - y else y
  (x, y)

/-- Offset/scale followed by the deadzone clip of one axis
(`xpt2046_uinputd.cpp` 516-526, `xpt2046_calibrator.cpp` 609-620; the two
programs have the same text).  `dim` is `screen_w` or `screen_h`, `near`/`far`
the two deadzones of the axis. -/
def scale_deadzone (s : Int) (scale : ℚ) (offset dim near far : Int) : Int :=
  let s := llround ((s : ℚ) * scale + (offset : ℚ))
  let min_s := clamp_val near 0 (dim - 1)
  let max_s := clamp_val (dim - 1 - far) 0 (dim - 1)
  let max_s := if max_s < min_s then min_s else max_s
  clamp_val s min_s max_s

/-- The daemon's mapping stage, `xpt2046_uinputd.cpp` lines 503-526. -/
def uinputd_map (c : Calib) (adv : AdvancedParams) (raw_x raw_y : Int) : Int × Int :=
  let (x, y) := swap_invert c raw_x raw_y
  let x := clamp_val x c.min_x c.max_x
  let y := clamp_val y c.min_y c.max_y
  let sx := ((x - c.min_x) * (adv.screen_w - 1)).tdiv (max 1 (c.max_x - c.min_x))
  let sy := ((y - c.min_y) * (adv.screen_h - 1)).tdiv (max 1 (c.max_y - c.min_y))
  let sx := clamp_val sx 0 (adv.screen_w - 1)
  let sy := clamp_val sy 0 (adv.screen_h - 1)
  (scale_deadzone sx adv.scale_x adv.offset_x adv.screen_w adv.deadzone_left adv.deadzone_right,
   scale_deadzone sy adv.scale_y adv.offset_y adv.screen_h adv.deadzone_top adv.deadzone_bottom)

/-- The calibrator's mapping stage, `xpt2046_calibrator.cpp` lines 587-620.
The range clamp is skipped on an axis whose range is inverted; the rescale is
`llround((x - min) * (screen / (double)(max - min)))`. -/
def calibrator_map (c : Calib) (adv : AdvancedParams) (raw_x raw_y : Int) : Int × Int :=
  let (x, y) := swap_invert c raw_x raw_y
  let x := if c.min_x ≤ c.max_x then
      (let x1 := if x < c.min_x then c.min_x else x
       if x1 > c.max_x then c.max_x else x1) else x
  let y := if c.min_y ≤ c.max_y then
      (let y1 := if y < c.min_y then c.min_y else y
       if y1 > c.max_y then c.max_y else y1) else y
  let sx := llround (((x - c.min_x : Int) : ℚ) * ((adv.screen_w : ℚ) / ((c.max_x - c.min_x : Int) : ℚ)))
  let sy := llround (((y - c.min_y : Int) : ℚ) * ((adv.screen_h : ℚ) / ((c.max_y - c.min_y : Int) : ℚ)))
  let sx := clamp_val sx 0 (adv.screen_w - 1)
  let sy := clamp_val sy 0 (adv.screen_h - 1)
  (scale_deadzone sx adv.scale_x adv.offset_x adv.screen_w adv.deadzone_left adv.deadzone_right,
   scale_deadzone sy adv.scale_y adv.offset_y adv.screen_h adv.deadzone_top adv.deadzone_bottom)

/-- `struct Config` of `advanced_gui.cpp`. -/
structure Config where
  min_x : Int := 0
  max_x : Int := 4095
  min_y : Int := 0
  max_y : Int := 4095
  screen_w : Int := 800
  screen_h : Int := 480
  deadzone_left : Int := 0
  deadzone_right : Int := 0
  deadzone_top : Int := 0
  deadzone_bottom : Int := 0

/-- `clamp_i` of `advanced_gui.cpp`. -/
def clamp_i (v lo hi : Int) : Int :=
  if v < lo then lo else if v > hi then hi else v

/-- `scale_raw_to_screen` of `advanced_gui.cpp`, lines 112-132. -/
def scale_raw_to_screen (raw_x raw_y : Int) (cfg : Config)
    (invert_x invert_y swap_xy : Int) : Int × Int :=
  let x := if swap_xy ≠ 0 then raw_y else raw_x
  let y := if swap_xy ≠ 0 then raw_x else raw_y
  let x := if invert_x ≠ 0 then 4095 - x else x
  let y := if invert_y ≠ 0 then 4095 - y else y
  let x := clamp_i x cfg.min_x cfg.max_x
  let y := clamp_i y cfg.min_y cfg.max_y
  let sx := trunc_int (((x - cfg.min_x : Int) : ℚ) * ((cfg.screen_w : ℚ) / ((cfg.max_x - cfg.min_x : Int) : ℚ)))
  let sy := trunc_int (((y - cfg.min_y : Int) : ℚ) * ((cfg.screen_h : ℚ) / ((cfg.max_y - cfg.min_y : Int) : ℚ)))
  let sx := if sx < 0 then 0 else sx
  let sy := if sy < 0 then 0 else sy
  let sx := if sx ≥ cfg.screen_w then cfg.screen_w - 1 else sx
  let sy := if sy ≥ cfg.screen_h then cfg.screen_h - 1 else sy
  (sx, sy)

/-! ## Noise filter (same text in the daemon, 614-655, and the calibrator, 679-710) -/

/-- The filter locals of `main`: `have_filtered`, `filt_x`, `filt_y`, `hist_x`,
`hist_y`, with their initial values. -/
structure FilterState where
  have_filtered : Bool := false
  filt_x : Int := 0
  filt_y : Int := 0
  hist_x : List Int := []
  hist_y : List Int := []
  deriving DecidableEq, Repr

/-- The `median_of` lambda: `0` on the empty window, otherwise the element at
index `size / 2` of the ascending sort. -/
def median_of (v : List Int) : Int :=
  if v.isEmpty then 0 else (v.insertionSort (· ≤ ·)).getD (v.length / 2) 0

/-- One axis of the "clamp step": `d = out - filt; if (d > max_delta) out = filt +
max_delta; else if (d < -max_delta) out = filt - max_delta;`. -/
def delta_clamp (max_delta_px filt out : Int) : Int :=
  if out - filt > max_delta_px then filt + max_delta_px
  else if out - filt < -max_delta_px then filt - max_delta_px
  else out

/-- One axis of the window update: `hist.push_back(v); while ((int)hist.size() > mw)
hist.pop_front();`. -/
def push_window (mw : Int) (hist : List Int) (v : Int) : List Int :=
  (hist ++ [v]).drop ((hist ++ [v]).length - mw.toNat)

/-- One axis of the IIR blend:
`llround((1 - a) * filt + a * out)`. -/
def iir_blend (a : ℚ) (filt out : Int) : Int :=
  llround ((1 - a) * (filt : ℚ) + a * (out : ℚ))

/-- The three filter stages applied to one mapped sample `(sx, sy)` while the
touch is down.  The value written to `out_x`/`out_y` (daemon) at the end of the
stages is the new `filt_x`/`filt_y` in both branches of the IIR stage. -/
def noise_filter (adv : AdvancedParams) (f : FilterState) (sx sy : Int) : FilterState :=
  -- clamp step
  let cl := decide (adv.max_delta_px > 0) && f.have_filtered
  let out_x := if cl then delta_clamp adv.max_delta_px f.filt_x sx else sx
  let out_y := if cl then delta_clamp adv.max_delta_px f.filt_y sy else sy
  -- median filter
  let med := decide (adv.median_window = 3 ∨ adv.median_window = 5)
  let hist_x := if med then push_window adv.median_window f.hist_x out_x else f.hist_x
  let hist_y := if med then push_window adv.median_window f.hist_y out_y else f.hist_y
  let out_x := if med then median_of hist_x else out_x
  let out_y := if med then median_of hist_y else out_y
  -- IIR smoothing
  if adv.iir_alpha > 0 then
    if !f.have_filtered then
      { have_filtered := true, filt_x := out_x, filt_y := out_y, hist_x := hist_x, hist_y := hist_y }
    else
      { have_filtered := true,
        filt_x := iir_blend adv.iir_alpha f.filt_x out_x,
        filt_y := iir_blend adv.iir_alpha f.filt_y out_y,
        hist_x := hist_x, hist_y := hist_y }
  else
    { have_filtered := true, filt_x := out_x, filt_y := out_y, hist_x := hist_x, hist_y := hist_y }

/-- The reset `have_filtered = false; hist_x.clear(); hist_y.clear();` (the
stored `filt_x`/`filt_y` are left as they are). -/
def filter_reset (f : FilterState) : FilterState :=
  { f with have_filtered := false, hist_x := [], hist_y := [] }

/-! ## The uinput daemon, `xpt2046_uinputd.cpp` -/

/-- One set of readings of `read_xpt2046` (`-1` is a failed transfer). -/
structure Sample where
  raw_x : Int
  raw_y : Int
  z1 : Int
  deriving DecidableEq, Repr

/-- The events written with `uinput_emit`; `syn_report` is `uinput_sync`. -/
inductive UEvent where
  | abs_mt_slot (v : Int)
  | abs_mt_tracking_id (v : Int)
  | abs_mt_position_x (v : Int)
  | abs_mt_position_y (v : Int)
  | abs_mt_pressure (v : Int)
  | abs_x (v : Int)
  | abs_y (v : Int)
  | btn_touch (v : Int)
  | btn_tool_finger (v : Int)
  | syn_report
  deriving DecidableEq, Repr

/-- The loop-carried locals of the daemon's `main`, with their initial values
(`last_down` is the function-level `static bool last_down = false`). -/
structure DState where
  touch_down : Bool := false
  tracking_id : Int := 1
  press_streak : Int := 0
  release_streak : Int := 0
  candidate_x : Int := 0
  candidate_y : Int := 0
  have_candidate : Bool := false
  filter : FilterState := {}
  last_down : Bool := false
  deriving DecidableEq, Repr

/-- `pressure = (z1 >= 0) ? z1 : 0`. -/
def pressure_of (z1 : Int) : Int := if z1 ≥ 0 then z1 else 0

/-- `pressure_touch = (adv.press_threshold > 0) ? (pressure >= adv.press_threshold)
: (pressure > 0)`. -/
def pressure_touch (adv : AdvancedParams) (pressure : Int) : Bool :=
  if adv.press_threshold > 0 then decide (pressure ≥ adv.press_threshold) else decide (pressure > 0)

/-- The daemon's "touch state with hysteresis + debounce" block, lines 533-606.
The two arms of `if (adv.press_threshold > 0)` have the same statements and
differ only in the press test (`pressure >= press_threshold` against
`pressure > 0`) and the release test (`pressure <= release_threshold` against
`pressure <= 0`). -/
def uinputd_touch_state (adv : AdvancedParams) (s : DState) (pressure : Int) : DState :=
  let press_hit : Bool :=
    if adv.press_threshold > 0 then decide (pressure ≥ adv.press_threshold) else decide (pressure > 0)
  let release_hit : Bool :=
    if adv.press_threshold > 0 then decide (pressure ≤ adv.release_threshold) else decide (pressure ≤ 0)
  if !s.touch_down then
    if press_hit then
      let streak := s.press_streak + 1
      if streak ≥ 2 then
        let f := filter_reset s.filter
        let f := if s.have_candidate then
            { f with filt_x := s.candidate_x, filt_y := s.candidate_y, have_filtered := true }
          else f
        { s with press_streak := streak, touch_down := true, filter := f, release_streak := 0 }
      else { s with press_streak := streak }
    else { s with press_streak := 0 }
  else
    if release_hit then
      let streak := s.release_streak + 1
      if streak ≥ 2 then
        { s with press_streak := 0, touch_down := false, filter := filter_reset s.filter,
                 have_candidate := false, release_streak := 0 }
      else { s with press_streak := 0, release_streak := streak }
    else { s with press_streak := 0, release_streak := 0 }

/-- The emission block, lines 657-687, run on the state after the filters. -/
def uinputd_emit (s : DState) (out_x out_y pressure : Int) : DState × List UEvent :=
  if s.touch_down then
    let first := !s.last_down
    let evs :=
      [UEvent.abs_mt_slot 0]
      ++ (if first then [UEvent.abs_mt_tracking_id s.tracking_id] else [])
      ++ [UEvent.abs_mt_position_x out_x, UEvent.abs_mt_position_y out_y,
          UEvent.abs_mt_pressure pressure, UEvent.abs_x out_x, UEvent.abs_y out_y]
      ++ (if first then [UEvent.btn_touch 1, UEvent.btn_tool_finger 1] else [])
      ++ [UEvent.syn_report]
    ({ s with tracking_id := if first then s.tracking_id + 1 else s.tracking_id,
              last_down := s.touch_down }, evs)
  else
    let evs := if s.last_down then
        [UEvent.abs_mt_slot 0, UEvent.abs_mt_tracking_id (-1), UEvent.btn_touch 0,
         UEvent.btn_tool_finger 0, UEvent.syn_report]
      else []
    ({ s with last_down := s.touch_down }, evs)

/-- One iteration of the daemon's `while (g_running)` loop from the SPI reads
on (lines 478-689), for a fixed configuration; each `continue` of the source is
an early result.  Returns the next state and the events written this
iteration. -/
def uinputd_tick (c : Calib) (adv : AdvancedParams) (s : DState) (smp : Sample) :
    DState × List UEvent :=
  let pressure := pressure_of smp.z1
  if smp.raw_x < 0 ∨ smp.raw_y < 0 then (s, [])
  else if !s.touch_down && !pressure_touch adv pressure then
    ({ s with press_streak := 0, release_streak := 0, filter := filter_reset s.filter,
              have_candidate := false }, [])
  else
    let m := uinputd_map c adv smp.raw_x smp.raw_y
    let s := { s with candidate_x := m.1, candidate_y := m.2, have_candidate := true }
    let s := uinputd_touch_state adv s pressure
    if !s.touch_down then (s, [])
    else
      let f := noise_filter adv s.filter m.1 m.2
      uinputd_emit { s with filter := f } f.filt_x f.filt_y pressure

/-- The daemon run over a list of samples from a given state: final state and
the event lists of the iterations, in order. -/
def uinputd_run (c : Calib) (adv : AdvancedParams) : DState → List Sample → DState × List (List UEvent)
  | s, [] => (s, [])
  | s, smp :: rest =>
    let r := uinputd_tick c adv s smp
    let r2 := uinputd_run c adv r.1 rest
    (r2.1, r.2 :: r2.2)

/-! ## The calibrator, `xpt2046_calibrator.cpp` -/

/-- One set of readings of the calibrator's loop together with the reading of
`std::chrono::steady_clock::now()` of that iteration, in nanoseconds (the
clock's period in libstdc++).  `z2` is read by the source but only printed. -/
structure CSample where
  raw_x : Int
  raw_y : Int
  z1 : Int
  now : Int
  deriving DecidableEq, Repr

/-- The gesture lines written to standard output. -/
inductive Gesture where
  | tap (x y ms : Int)
  | drag_start (x y : Int)
  deriving DecidableEq, Repr

/-- The loop-carried locals of the calibrator's `main` that the pipeline uses.
The diagnostics counters (`extreme_count`, `same_count`, `last_x`, `last_y`,
`warned_*`) only drive warnings on standard error and are left out. -/
structure CState where
  touch_down : Bool := false
  dragging : Bool := false
  down_start_x : Int := 0
  down_start_y : Int := 0
  down_start_t : Int := 0
  filter : FilterState := {}
  deriving DecidableEq, Repr

/-- What one iteration of the calibrator prints: the gesture lines and the
fields `SX`, `SY`, `Z`, `DOWN` of the `[SPI]` line. -/
structure COutput where
  gestures : List Gesture
  out_x : Int
  out_y : Int
  pressure : Int
  down : Bool
  deriving DecidableEq, Repr

/-- The `dist2` lambda. -/
def dist2 (ax ay bx byy : Int) : Int :=
  (ax - bx) * (ax - bx) + (ay - byy) * (ay - byy)

/-- `duration_cast<milliseconds>(now - down_start_t).count()` on nanosecond
clock readings. -/
def elapsed_ms (down_start_t now : Int) : Int := (now - down_start_t).tdiv 1000000

/-- The calibrator's touch-state block, lines 622-664, on the mapped position
`(sx, sy)`: next state and the gesture lines it prints. -/
def calibrator_touch_state (adv : AdvancedParams) (s : CState) (smp : CSample)
    (pressure sx sy : Int) : CState × List Gesture :=
  if adv.press_threshold > 0 then
    if !s.touch_down then
      if pressure ≥ adv.press_threshold then
        ({ s with touch_down := true, down_start_t := smp.now, down_start_x := sx,
                  down_start_y := sy, dragging := false }, [])
      else ({ s with touch_down := false }, [])
    else
      if pressure ≤ adv.release_threshold then
        let dur := elapsed_ms s.down_start_t smp.now
        let moved2 := dist2 s.down_start_x s.down_start_y sx sy
        let tap_move2 := adv.tap_max_move_px * adv.tap_max_move_px
        let g := if !s.dragging && decide (dur ≤ adv.tap_max_ms) && decide (moved2 ≤ tap_move2)
          then [Gesture.tap sx sy dur] else []
        ({ s with touch_down := false, dragging := false, filter := filter_reset s.filter }, g)
      else (s, [])
  else
    let present : Bool := decide (smp.raw_x ≥ 50 ∧ smp.raw_x ≤ 4045 ∧ smp.raw_y ≥ 50 ∧ smp.raw_y ≤ 4045)
    if !s.touch_down && present then
      ({ s with touch_down := true, down_start_t := smp.now, down_start_x := sx,
                down_start_y := sy, dragging := false }, [])
    else if s.touch_down && !present then
      ({ s with touch_down := false, dragging := false, filter := filter_reset s.filter }, [])
    else (s, [])

/-- The drag block, lines 666-672. -/
def calibrator_drag (adv : AdvancedParams) (s : CState) (sx sy : Int) : CState × List Gesture :=
  if s.touch_down && !s.dragging then
    if dist2 s.down_start_x s.down_start_y sx sy ≥ adv.drag_start_px * adv.drag_start_px then
      ({ s with dragging := true }, [Gesture.drag_start s.down_start_x s.down_start_y])
    else (s, [])
  else (s, [])

/-- One iteration of the calibrator's `while (true)` loop, lines 582-766. -/
def calibrator_tick (c : Calib) (adv : AdvancedParams) (s : CState) (smp : CSample) :
    CState × COutput :=
  let pressure := pressure_of smp.z1
  let m := calibrator_map c adv smp.raw_x smp.raw_y
  let r1 := calibrator_touch_state adv s smp pressure m.1 m.2
  let r2 := calibrator_drag adv r1.1 m.1 m.2
  let s := r2.1
  let f :=
    if s.touch_down then noise_filter adv s.filter m.1 m.2
    else if !s.filter.have_filtered then { s.filter with filt_x := m.1, filt_y := m.2 }
    else s.filter
  ({ s with filter := f },
   { gestures := r1.2 ++ r2.2,
     out_x := clamp_val f.filt_x 0 (adv.screen_w - 1),
     out_y := clamp_val f.filt_y 0 (adv.screen_h - 1),
     pressure := pressure, down := s.touch_down })

/-- The calibrator run over a list of samples: final state and the outputs of
the iterations, in order. -/
def calibrator_run (c : Calib) (adv : AdvancedParams) : CState → List CSample → CState × List COutput
  | s, [] => (s, [])
  | s, smp :: rest =>
    let r := calibrator_tick c adv s smp
    let r2 := calibrator_run c adv r.1 rest
    (r2.1, r.2 :: r2.2)

/-! ## Per-axis view of the filter (used by the proofs)

`noise_filter` treats the two axes alike; the functions below name what it
computes on one axis from `have_filtered`, the stored value and the history of
that axis (`noise_filter_eq` states the correspondence). -/

/-- Value after the clamp step. -/
def axis_in (adv : AdvancedParams) (hf : Bool) (filt v : Int) : Int :=
  if decide (adv.max_delta_px > 0) && hf then delta_clamp adv.max_delta_px filt v else v

/-- History after the median stage. -/
def axis_hist (adv : AdvancedParams) (hf : Bool) (filt : Int) (hist : List Int) (v : Int) :
    List Int :=
  if decide (adv.median_window = 3 ∨ adv.median_window = 5) then
    push_window adv.median_window hist (axis_in adv hf filt v)
  else hist

/-- Value after the median stage. -/
def axis_med (adv : AdvancedParams) (hf : Bool) (filt : Int) (hist : List Int) (v : Int) : Int :=
  if decide (adv.median_window = 3 ∨ adv.median_window = 5) then
    median_of (axis_hist adv hf filt hist v)
  else axis_in adv hf filt v

/-- Stored value after the IIR stage. -/
def axis_out (adv : AdvancedParams) (hf : Bool) (filt : Int) (hist : List Int) (v : Int) : Int :=
  if adv.iir_alpha > 0 then
    if !hf then axis_med adv hf filt hist v
    else iir_blend adv.iir_alpha filt (axis_med adv hf filt hist v)
  else axis_med adv hf filt hist v

/-- Within a contact: when the median stage is enabled the history of an axis
holds at most `median_window` values and, once non-empty, its median is within
`max_delta_px` of the stored filtered value. -/
def AxisInv (adv : AdvancedParams) (filt : Int) (hist : List Int) : Prop :=
  (adv.median_window = 3 ∨ adv.median_window = 5) →
    hist.length ≤ adv.median_window.toNat ∧
    (hist ≠ [] → filt - adv.max_delta_px ≤ median_of hist ∧ median_of hist ≤ filt + adv.max_delta_px)

/-- Filter invariant within a contact. -/
def FilterInv (adv : AdvancedParams) (f : FilterState) : Prop :=
  f.have_filtered = true ∧ AxisInv adv f.filt_x f.hist_x ∧ AxisInv adv f.filt_y f.hist_y

/-- Filter state between contacts. -/
def FilterCleared (f : FilterState) : Prop :=
  f.have_filtered = false ∧ f.hist_x = [] ∧ f.hist_y = []

/-- The filter state the daemon installs on the Up→Down transition
(`have_filtered = false; hist.clear(); filt = candidate; have_filtered = true`). -/
def seeded_filter (x y : Int) : FilterState :=
  { have_filtered := true, filt_x := x, filt_y := y, hist_x := [], hist_y := [] }

/-- Daemon invariant: while Down the filter invariant holds. -/
def DInv (adv : AdvancedParams) (s : DState) : Prop :=
  s.touch_down = true → FilterInv adv s.filter

/-- Calibrator invariant: while Down the filter invariant holds, while Up the
filter is cleared. -/
def CInv (adv : AdvancedParams) (s : CState) : Prop :=
  (s.touch_down = true → FilterInv adv s.filter) ∧
  (s.touch_down = false → FilterCleared s.filter)

/-! ## Trace vocabulary (used by the statements) -/

/-- Every iteration of the calibrator over `xs`, started in `s`, ends with
`touch_down = b`. -/
def calibrator_stays (b : Bool) (c : Calib) (adv : AdvancedParams) : CState → List CSample → Bool
  | _, [] => true
  | s, x :: xs =>
    ((calibrator_tick c adv s x).1.touch_down == b) &&
      calibrator_stays b c adv (calibrator_tick c adv s x).1 xs

/-- Every iteration of the daemon over `xs`, started in `s`, ends with
`touch_down = b`. -/
def uinputd_stays (b : Bool) (c : Calib) (adv : AdvancedParams) : DState → List Sample → Bool
  | _, [] => true
  | s, x :: xs =>
    ((uinputd_tick c adv s x).1.touch_down == b) &&
      uinputd_stays b c adv (uinputd_tick c adv s x).1 xs

/-- The gesture lines of each iteration of a calibrator run. -/
def calibrator_gestures (c : Calib) (adv : AdvancedParams) (s : CState) (xs : List CSample) :
    List (List Gesture) :=
  (calibrator_run c adv s xs).2.map COutput.gestures

/-- The mapped position of sample `x` is at squared distance at least
`drag_start_px²` from `(px, py)`. -/
def drag_reached (c : Calib) (adv : AdvancedParams) (px py : Int) (x : CSample) : Bool :=
  decide (dist2 px py (calibrator_map c adv x.raw_x x.raw_y).1
    (calibrator_map c adv x.raw_x x.raw_y).2 ≥ adv.drag_start_px * adv.drag_start_px)

/-- The position reports among the events of one iteration
(`ABS_MT_POSITION_X/Y`, `ABS_X/Y`), in the order written. -/
def position_events (evs : List UEvent) : List UEvent :=
  evs.filter fun e =>
    match e with
    | UEvent.abs_mt_position_x _ => true
    | UEvent.abs_mt_position_y _ => true
    | UEvent.abs_x _ => true
    | UEvent.abs_y _ => true
    | _ => false

/-- Filter state of a contact that has only seen the position `(cx, cy)`. -/
def ConstInv (cx cy : Int) (f : FilterState) : Prop :=
  f.have_filtered = true ∧ f.filt_x = cx ∧ f.filt_y = cy ∧
    (∀ v ∈ f.hist_x, v = cx) ∧ (∀ v ∈ f.hist_y, v = cy)

/-! ## Configuration sanitising and the daemon's rescale step -/

/-- `clamp_val<float>`, on exact rationals. -/
def clamp_valf (v lo hi : ℚ) : ℚ :=
  if v < lo then lo else if v > hi then hi else v

/-- `sanitize_adv` of `xpt2046_uinputd.cpp`, lines 113-122 (the calibrator applies
the same eight statements inline, lines 320-327).  The bounds `0.01f`, `10.0f`
are taken as the rationals `1/100`, `10`. -/
def sanitize_adv (adv : AdvancedParams) : AdvancedParams :=
  { adv with
    screen_w := clamp_val adv.screen_w 1 4096
    screen_h := clamp_val adv.screen_h 1 4096
    poll_us := clamp_val adv.poll_us 1000 1000000
    scale_x := clamp_valf adv.scale_x (1 / 100) 10
    scale_y := clamp_valf adv.scale_y (1 / 100) 10
    iir_alpha := clamp_valf adv.iir_alpha 0 1
    median_window :=
      if ¬ (adv.median_window = 0 ∨ adv.median_window = 3 ∨ adv.median_window = 5) then 3
      else adv.median_window
    release_threshold :=
      if adv.release_threshold > adv.press_threshold then adv.press_threshold
      else adv.release_threshold }

/-- C++ `a / b` on `int`, undefined when `b` is zero. -/
def c_div (a b : Int) : Option Int :=
  if b = 0 then none else some (a.tdiv b)

/-- The daemon's mapping stage (lines 503-526) with its two integer divisions
checked: `none` stands for a division by zero. -/
def uinputd_map_checked (c : Calib) (adv : AdvancedParams) (raw_x raw_y : Int) :
    Option (Int × Int) :=
  let p := swap_invert c raw_x raw_y
  let x := clamp_val p.1 c.min_x c.max_x
  let y := clamp_val p.2 c.min_y c.max_y
  match c_div ((x - c.min_x) * (adv.screen_w - 1)) (max 1 (c.max_x - c.min_x)),
        c_div ((y - c.min_y) * (adv.screen_h - 1)) (max 1 (c.max_y - c.min_y)) with
  | some sx, some sy =>
    let sx := clamp_val sx 0 (adv.screen_w - 1)
    let sy := clamp_val sy 0 (adv.screen_h - 1)
    some
      (scale_deadzone sx adv.scale_x adv.offset_x adv.screen_w adv.deadzone_left
        adv.deadzone_right,
       scale_deadzone sy adv.scale_y adv.offset_y adv.screen_h adv.deadzone_top
        adv.deadzone_bottom)
  | _, _ => none

/-! ## Touch-state traces -/

/-- The `touch_down` flag after each step of a run of `step` from `s`. -/
def downs_of {σ ι : Type} (step : σ → ι → σ) (down : σ → Bool) : σ → List ι → List Bool
  | _, [] => []
  | s, x :: xs => down (step s x) :: downs_of step down (step s x) xs

/-- `touch_down` after each daemon iteration. -/
def uinputd_downs (c : Calib) (adv : AdvancedParams) (s : DState) (xs : List Sample) : List Bool :=
  downs_of (fun s x => (uinputd_tick c adv s x).1) DState.touch_down s xs

/-- `touch_down` after each calibrator iteration. -/
def calibrator_downs (c : Calib) (adv : AdvancedParams) (s : CState) (xs : List CSample) :
    List Bool :=
  downs_of (fun s x => (calibrator_tick c adv s x).1) CState.touch_down s xs

/-- Number of changes of value along `b :: bs`: the touch-state transitions of a
trace that starts in state `b`. -/
def transitions : Bool → List Bool → Nat
  | _, [] => 0
  | b, x :: xs => (if x = b then 0 else 1) + transitions x xs

/-! ## Screen range of filtered positions -/

/-- Filter state whose stored value and history entries all lie on the screen
of `adv`. -/
def RangeInv (adv : AdvancedParams) (f : FilterState) : Prop :=
  f.have_filtered = true ∧
  (0 ≤ f.filt_x ∧ f.filt_x ≤ adv.screen_w - 1) ∧
  (0 ≤ f.filt_y ∧ f.filt_y ≤ adv.screen_h - 1) ∧
  (∀ v ∈ f.hist_x, 0 ≤ v ∧ v ≤ adv.screen_w - 1) ∧
  (∀ v ∈ f.hist_y, 0 ≤ v ∧ v ≤ adv.screen_h - 1)

/-- A position event carries a value on the screen of `adv`
(`ABS_X`/`ABS_MT_POSITION_X` in `[0, screen_w-1]`, `ABS_Y`/`ABS_MT_POSITION_Y` in
`[0, screen_h-1]`); other events are not constrained. -/
def position_on_screen (adv : AdvancedParams) (e : UEvent) : Prop :=
  match e with
  | UEvent.abs_mt_position_x v => 0 ≤ v ∧ v ≤ adv.screen_w - 1
  | UEvent.abs_x v => 0 ≤ v ∧ v ≤ adv.screen_w - 1
  | UEvent.abs_mt_position_y v => 0 ≤ v ∧ v ≤ adv.screen_h - 1
  | UEvent.abs_y v => 0 ≤ v ∧ v ≤ adv.screen_h - 1
  | _ => True

/-! ## The daemon loop with configuration reload, lines 421-471 -/

/-- The daemon's configuration in force (`invert_x … max_y`, `adv`) together with
its loop-carried state. -/
structure DLoop where
  calib : Calib
  adv : AdvancedParams
  st : DState

/-- What one loop iteration receives.  `reload` is `some (c, adv)` when the
half-second timer has elapsed and `find_config_path` / `stat_mtime` report a new
path or modification time; `(c, adv)` is then what `load_config` followed by
`apply_env_overrides` produce.  `smp` is the SPI reading of the iteration. -/
structure LoopInput where
  reload : Option (Calib × AdvancedParams)
  smp : Sample

/-- The reload block, lines 432-460: sanitise and install the new configuration,
reset debounce and filter state. -/
def uinputd_reload (l : DLoop) (loaded : Calib × AdvancedParams) : DLoop :=
  { calib := loaded.1
    adv := sanitize_adv loaded.2
    st := { l.st with press_streak := 0, release_streak := 0,
                      filter := filter_reset l.st.filter, have_candidate := false } }

/-- The loop state after the auto-reload part of an iteration (lines 422-471):
the reload is attempted only `if (!touch_down)`. -/
def uinputd_after_reload (l : DLoop) (inp : LoopInput) : DLoop :=
  if !l.st.touch_down then
    match inp.reload with
    | some loaded => uinputd_reload l loaded
    | none => l
  else l

/-- One full iteration of `while (g_running)`: auto-reload, then the sample
processing with the configuration then in force. -/
def uinputd_iteration (l : DLoop) (inp : LoopInput) : DLoop × List UEvent :=
  let l1 := uinputd_after_reload l inp
  let r := uinputd_tick l1.calib l1.adv l1.st inp.smp
  ({ l1 with st := r.1 }, r.2)

/-- The loop state after a list of iterations. -/
def uinputd_loop_run : DLoop → List LoopInput → DLoop
  | l, [] => l
  | l, inp :: rest => uinputd_loop_run (uinputd_iteration l inp).1 rest

/-- Every iteration over `inps`, started in `l`, ends Down. -/
def uinputd_loop_stays_down : DLoop → List LoopInput → Bool
  | _, [] => true
  | l, inp :: rest =>
    (uinputd_iteration l inp).1.st.touch_down &&
      uinputd_loop_stays_down (uinputd_iteration l inp).1 rest

/-! ## Configuration files: `parse_int`, `load_config` -/

/-- `isspace` in the C locale. -/
def is_space (ch : Char) : Bool :=
  ch == ' ' || ch.toNat == 9 || ch.toNat == 10 || ch.toNat == 11 || ch.toNat == 12 ||
    ch.toNat == 13

/-- Value of a run of decimal digits. -/
def digits_value (ds : List Char) : Int :=
  ds.foldl (fun acc d => acc * 10 + ((d.toNat : Int) - 48)) 0

/-- `strtol(s, &end, 10)`: skip leading white space, an optional sign, then the
longest run of decimal digits; `none` when no digit is found (`end == s`).  The
result is the mathematical value (saturation at `LONG_MAX` and the narrowing to
`int` are not modelled). -/
def strtol10 (s : List Char) : Option Int :=
  let cs := s.dropWhile is_space
  let neg : Bool :=
    match cs with
    | '-' :: _ => true
    | _ => false
  let cs :=
    match cs with
    | '-' :: r => r
    | '+' :: r => r
    | _ => cs
  let ds := cs.takeWhile Char.isDigit
  if ds.isEmpty then none else some (if neg then -digits_value ds else digits_value ds)

/-- `parse_int(s, out)`: `some out` when it returns `true`. -/
def parse_int (s : List Char) : Option Int := strtol10 s

/-- `std::atoi`: `0` when there is nothing to convert. -/
def atoi (s : List Char) : Int := (strtol10 s).getD 0

/-- The `ltrim`/`rtrim` lambdas together: strip spaces and tabs at both ends. -/
def trim_blanks (s : List Char) : List Char :=
  let blank := fun (ch : Char) => ch == ' ' || ch.toNat == 9
  ((s.dropWhile blank).reverse.dropWhile blank).reverse

/-- A line that `load_config` skips: empty, starting with `#`, or without `=`. -/
def line_skipped (line : String) : Bool :=
  line.toList.isEmpty || line.toList.head? == some '#' || !(line.toList.contains '=')

/-- `line.substr(0, eq)`. -/
def line_key (line : String) : List Char := line.toList.takeWhile (fun ch => ch != '=')

/-- `line.substr(eq + 1)`. -/
def line_val (line : String) : List Char := (line.toList.dropWhile (fun ch => ch != '=')).drop 1

/-- The `if / else if` chain of the daemon's `load_config` (lines 164-187) for one
`key`, `val`: `some` of the updated configuration when a branch is taken, `none`
when none is.  `strtof` stands for the C library function behind `parse_float`
(`none`: nothing converted).  `spi_device_cfg` is not part of the embedding, so
the `spi_device` branch changes nothing. -/
def config_assign (strtof : List Char → Option ℚ) (key : String) (val : List Char)
    (st : Calib × AdvancedParams) : Option (Calib × AdvancedParams) :=
  let iv := parse_int val
  let fv := strtof val
  if key = "invert_x" ∧ iv.isSome then some ({ st.1 with invert_x := iv.getD 0 }, st.2)
  else if key = "invert_y" ∧ iv.isSome then some ({ st.1 with invert_y := iv.getD 0 }, st.2)
  else if key = "swap_xy" ∧ iv.isSome then some ({ st.1 with swap_xy := iv.getD 0 }, st.2)
  else if key = "min_x" ∧ iv.isSome then some ({ st.1 with min_x := iv.getD 0 }, st.2)
  else if key = "max_x" ∧ iv.isSome then some ({ st.1 with max_x := iv.getD 0 }, st.2)
  else if key = "min_y" ∧ iv.isSome then some ({ st.1 with min_y := iv.getD 0 }, st.2)
  else if key = "max_y" ∧ iv.isSome then some ({ st.1 with max_y := iv.getD 0 }, st.2)
  else if key = "spi_device" then some st
  else if key = "screen_w" ∧ iv.isSome then some (st.1, { st.2 with screen_w := iv.getD 0 })
  else if key = "screen_h" ∧ iv.isSome then some (st.1, { st.2 with screen_h := iv.getD 0 })
  else if key = "poll_us" ∧ iv.isSome then some (st.1, { st.2 with poll_us := iv.getD 0 })
  else if key = "offset_x" ∧ iv.isSome then some (st.1, { st.2 with offset_x := iv.getD 0 })
  else if key = "offset_y" ∧ iv.isSome then some (st.1, { st.2 with offset_y := iv.getD 0 })
  else if key = "scale_x" ∧ fv.isSome then some (st.1, { st.2 with scale_x := fv.getD 0 })
  else if key = "scale_y" ∧ fv.isSome then some (st.1, { st.2 with scale_y := fv.getD 0 })
  else if key = "deadzone_left" ∧ iv.isSome then
    some (st.1, { st.2 with deadzone_left := iv.getD 0 })
  else if key = "deadzone_right" ∧ iv.isSome then
    some (st.1, { st.2 with deadzone_right := iv.getD 0 })
  else if key = "deadzone_top" ∧ iv.isSome then
    some (st.1, { st.2 with deadzone_top := iv.getD 0 })
  else if key = "deadzone_bottom" ∧ iv.isSome then
    some (st.1, { st.2 with deadzone_bottom := iv.getD 0 })
  else if key = "median_window" ∧ iv.isSome then
    some (st.1, { st.2 with median_window := iv.getD 0 })
  else if key = "iir_alpha" ∧ fv.isSome then some (st.1, { st.2 with iir_alpha := fv.getD 0 })
  else if key = "press_threshold" ∧ iv.isSome then
    some (st.1, { st.2 with press_threshold := iv.getD 0 })
  else if key = "release_threshold" ∧ iv.isSome then
    some (st.1, { st.2 with release_threshold := iv.getD 0 })
  else if key = "max_delta_px" ∧ iv.isSome then
    some (st.1, { st.2 with max_delta_px := iv.getD 0 })
  else none

/-- One pass of the `while (std::getline(file, line))` body of the daemon's
`load_config`; key and value are not trimmed there. -/
def uinputd_load_line (strtof : List Char → Option ℚ) (st : Calib × AdvancedParams)
    (line : String) : Calib × AdvancedParams :=
  if line_skipped line then st
  else (config_assign strtof (String.mk (line_key line)) (line_val line) st).getD st

/-- The daemon's `load_config`, lines 136-189.  `file` is `none` when
`find_config_path` finds nothing, else the lines of the file. -/
def uinputd_load_config (strtof : List Char → Option ℚ) (file : Option (List String)) :
    Calib × AdvancedParams :=
  match file with
  | none => ({}, {})
  | some lines => lines.foldl (uinputd_load_line strtof) ({}, {})

/-- One pass of the loop body of `load_config` of `advanced_gui.cpp`, lines
63-85: key and value trimmed, the value converted with `atoi` and assigned
without a check. -/
def gui_load_line (cfg : Config) (line : String) : Config :=
  if line_skipped line then cfg
  else
    let key := String.mk (trim_blanks (line_key line))
    let iv := atoi (trim_blanks (line_val line))
    if key = "min_x" then { cfg with min_x := iv }
    else if key = "max_x" then { cfg with max_x := iv }
    else if key = "min_y" then { cfg with min_y := iv }
    else if key = "max_y" then { cfg with max_y := iv }
    else if key = "screen_w" then { cfg with screen_w := iv }
    else if key = "screen_h" then { cfg with screen_h := iv }
    else if key = "deadzone_left" then { cfg with deadzone_left := iv }
    else if key = "deadzone_right" then { cfg with deadzone_right := iv }
    else if key = "deadzone_top" then { cfg with deadzone_top := iv }
    else if key = "deadzone_bottom" then { cfg with deadzone_bottom := iv }
    else cfg

/-- `load_config` of `advanced_gui.cpp`, lines 56-92; `file` is `none` when the
path is empty or the file cannot be opened. -/
def gui_load_config (file : Option (List String)) (cfg : Config) : Config :=
  match file with
  | none => cfg
  | some lines =>
    let cfg := lines.foldl gui_load_line cfg
    let cfg := if cfg.max_x ≤ cfg.min_x then { cfg with max_x := cfg.min_x + 1 } else cfg
    let cfg := if cfg.max_y ≤ cfg.min_y then { cfg with max_y := cfg.min_y + 1 } else cfg
    let cfg := if cfg.screen_w < 1 then { cfg with screen_w := 1 } else cfg
    if cfg.screen_h < 1 then { cfg with screen_h := 1 } else cfg

/-! ## Environment overrides, command line, and the whole load sequence -/

/-- The filter state after the filter stages have processed the mapped positions
`ps` in order, starting from `f`. -/
def noise_filter_run (adv : AdvancedParams) : FilterState → List (Int × Int) → FilterState
  | f, [] => f
  | f, p :: ps => noise_filter_run adv (noise_filter adv f p.1 p.2) ps

/-- The values after the clamp step of each of the positions `ps`, in order:
what the median stage pushes to `hist_x` / `hist_y`. -/
def pushed_values (adv : AdvancedParams) : FilterState → List (Int × Int) → List (Int × Int)
  | _, [] => []
  | f, p :: ps =>
    (axis_in adv f.have_filtered f.filt_x p.1, axis_in adv f.have_filtered f.filt_y p.2) ::
      pushed_values adv (noise_filter adv f p.1 p.2) ps

/-! ## The calibrator's pre-advanced mapping -/

/-- The calibrator's swap/invert/range-clamp/rescale stage,
`xpt2046_calibrator.cpp` lines 587-606: the values of `sx`, `sy` before
offset/scale and the deadzones are applied (`calibrator_map` continues from
them). -/
def calibrator_rescale_stage (c : Calib) (adv : AdvancedParams) (raw_x raw_y : Int) :
    Int × Int :=
  let (x, y) := swap_invert c raw_x raw_y
  let x := if c.min_x ≤ c.max_x then
      (let x1 := if x < c.min_x then c.min_x else x
       if x1 > c.max_x then c.max_x else x1) else x
  let y := if c.min_y ≤ c.max_y then
      (let y1 := if y < c.min_y then c.min_y else y
       if y1 > c.max_y then c.max_y else y1) else y
  let sx := llround (((x - c.min_x : Int) : ℚ) * ((adv.screen_w : ℚ) / ((c.max_x - c.min_x : Int) : ℚ)))
  let sy := llround (((y - c.min_y : Int) : ℚ) * ((adv.screen_h : ℚ) / ((c.max_y - c.min_y : Int) : ℚ)))
  (clamp_val sx 0 (adv.screen_w - 1), clamp_val sy 0 (adv.screen_h - 1))

/-! ## Idle cursor mode, `basic_gui.cpp` lines 99-120 -/

/-- `enum class IdleCursorMode`. -/
inductive IdleCursorMode where
  | ShowRaw
  | FreezeLast
  | Hide
  deriving DecidableEq, Repr

/-- `parse_idle_cursor_mode(const char* s)`; `none` is the null pointer, and
`strcmp(s, t) == 0` is equality of the strings. -/
def parse_idle_cursor_mode (s : Option String) : IdleCursorMode :=
  match s with
  | none => IdleCursorMode.FreezeLast
  | some t =>
    if t = "" then IdleCursorMode.FreezeLast
    else if t = "show" ∨ t = "raw" then IdleCursorMode.ShowRaw
    else if t = "freeze" ∨ t = "last" then IdleCursorMode.FreezeLast
    else if t = "hide" ∨ t = "off" then IdleCursorMode.Hide
    else IdleCursorMode.FreezeLast

/-- `idle_cursor_mode_name(IdleCursorMode m)`. -/
def idle_cursor_mode_name (m : IdleCursorMode) : String :=
  match m with
  | IdleCursorMode.ShowRaw => "show"
  | IdleCursorMode.FreezeLast => "freeze"
  | IdleCursorMode.Hide => "hide"

/-! ## The uinput device and the events of the reloading loop -/

/-- `uinput_create_touch(screen_w, screen_h)`: the `absmax` it writes for `ABS_X`
and `ABS_MT_POSITION_X` is `std::max(0, screen_w - 1)`, for `ABS_Y` and
`ABS_MT_POSITION_Y` it is `std::max(0, screen_h - 1)`. -/
def uinput_absmax (screen_dim : Int) : Int := max 0 (screen_dim - 1)

/-- The events written by each iteration of the loop with auto-reload, in
order. -/
def uinputd_loop_events : DLoop → List LoopInput → List (List UEvent)
  | _, [] => []
  | l, inp :: rest =>
    (uinputd_iteration l inp).2 :: uinputd_loop_events (uinputd_iteration l inp).1 rest

/-- A position event carries a value not above the advertised maximum of its
axis. -/
def position_within_absmax (max_x max_y : Int) : UEvent → Prop
  | UEvent.abs_mt_position_x v => v ≤ max_x
  | UEvent.abs_x v => v ≤ max_x
  | UEvent.abs_mt_position_y v => v ≤ max_y
  | UEvent.abs_y v => v ≤ max_y
  | _ => True

/-- Every configuration reloaded during `inps` has, after `sanitize_adv`, a
screen not larger than `w × h`. -/
def reloads_within (w h : Int) (inps : List LoopInput) : Prop :=
  ∀ inp ∈ inps, ∀ loaded, inp.reload = some loaded →
    (sanitize_adv loaded.2).screen_w ≤ w ∧ (sanitize_adv loaded.2).screen_h ≤ h

/-! ## Theorems -/

/-! ### Mapping -/

theorem clamp_val_bounds (v lo hi : Int) (h : lo ≤ hi) :
    lo ≤ clamp_val v lo hi ∧ clamp_val v lo hi ≤ hi := by
  unfold clamp_val
  split_ifs <;> omega

theorem clamp_val_id (v lo hi : Int) (h1 : lo ≤ v) (h2 : v ≤ hi) : clamp_val v lo hi = v := by
  unfold clamp_val
  split_ifs <;> omega

theorem scale_deadzone_bounds (s : Int) (scale : ℚ) (offset dim near far : Int) (hd : 1 ≤ dim) :
    0 ≤ scale_deadzone s scale offset dim near far ∧
      scale_deadzone s scale offset dim near far ≤ dim - 1 := by
  have h1 := clamp_val_bounds near 0 (dim - 1) (by omega)
  have h2 := clamp_val_bounds (dim - 1 - far) 0 (dim - 1) (by omega)
  unfold scale_deadzone
  simp only
  split_ifs with hlt
  · have h3 := clamp_val_bounds (llround ((s : ℚ) * scale + (offset : ℚ)))
      (clamp_val near 0 (dim - 1)) (clamp_val near 0 (dim - 1)) (le_refl _)
    omega
  · have h3 := clamp_val_bounds (llround ((s : ℚ) * scale + (offset : ℚ)))
      (clamp_val near 0 (dim - 1)) (clamp_val (dim - 1 - far) 0 (dim - 1)) (by omega)
    omega

theorem uinputd_map_bounds (c : Calib) (adv : AdvancedParams) (raw_x raw_y : Int)
    (hw : 1 ≤ adv.screen_w) (hh : 1 ≤ adv.screen_h) :
    (0 ≤ (uinputd_map c adv raw_x raw_y).1 ∧ (uinputd_map c adv raw_x raw_y).1 ≤ adv.screen_w - 1) ∧
    (0 ≤ (uinputd_map c adv raw_x raw_y).2 ∧ (uinputd_map c adv raw_x raw_y).2 ≤ adv.screen_h - 1) := by
  unfold uinputd_map
  exact ⟨scale_deadzone_bounds _ _ _ _ _ _ hw, scale_deadzone_bounds _ _ _ _ _ _ hh⟩

theorem calibrator_map_bounds (c : Calib) (adv : AdvancedParams) (raw_x raw_y : Int)
    (hw : 1 ≤ adv.screen_w) (hh : 1 ≤ adv.screen_h) :
    (0 ≤ (calibrator_map c adv raw_x raw_y).1 ∧ (calibrator_map c adv raw_x raw_y).1 ≤ adv.screen_w - 1) ∧
    (0 ≤ (calibrator_map c adv raw_x raw_y).2 ∧ (calibrator_map c adv raw_x raw_y).2 ≤ adv.screen_h - 1) := by
  unfold calibrator_map
  exact ⟨scale_deadzone_bounds _ _ _ _ _ _ hw, scale_deadzone_bounds _ _ _ _ _ _ hh⟩

theorem scale_raw_to_screen_bounds (raw_x raw_y : Int) (cfg : Config) (ix iy sw : Int)
    (hw : 1 ≤ cfg.screen_w) (hh : 1 ≤ cfg.screen_h) :
    (0 ≤ (scale_raw_to_screen raw_x raw_y cfg ix iy sw).1 ∧
      (scale_raw_to_screen raw_x raw_y cfg ix iy sw).1 ≤ cfg.screen_w - 1) ∧
    (0 ≤ (scale_raw_to_screen raw_x raw_y cfg ix iy sw).2 ∧
      (scale_raw_to_screen raw_x raw_y cfg ix iy sw).2 ≤ cfg.screen_h - 1) := by
  unfold scale_raw_to_screen
  simp only
  refine ⟨?_, ?_⟩ <;> split_ifs <;> omega

/-- C2 (range invariant).  For every daemon configuration with `screen_w ≥ 1`
and `screen_h ≥ 1` (any ranges, flags, offsets, scales, deadzones) and every raw
pair in `[0,4095]²`, the daemon's mapped coordinate lies in
`[0, screen_w-1] × [0, screen_h-1]`; and for every `advanced_gui` configuration
with `screen_w ≥ 1`, `screen_h ≥ 1` the result of `scale_raw_to_screen` lies in
the same rectangle of its own screen. -/
theorem C2_map_range (c : Calib) (adv : AdvancedParams) (cfg : Config)
    (invert_x invert_y swap_xy raw_x raw_y : Int)
    (hw : 1 ≤ adv.screen_w) (hh : 1 ≤ adv.screen_h)
    (hcw : 1 ≤ cfg.screen_w) (hch : 1 ≤ cfg.screen_h)
    (_hx : 0 ≤ raw_x ∧ raw_x ≤ 4095) (_hy : 0 ≤ raw_y ∧ raw_y ≤ 4095) :
    ((0 ≤ (uinputd_map c adv raw_x raw_y).1 ∧ (uinputd_map c adv raw_x raw_y).1 ≤ adv.screen_w - 1) ∧
     (0 ≤ (uinputd_map c adv raw_x raw_y).2 ∧ (uinputd_map c adv raw_x raw_y).2 ≤ adv.screen_h - 1)) ∧
    ((0 ≤ (scale_raw_to_screen raw_x raw_y cfg invert_x invert_y swap_xy).1 ∧
      (scale_raw_to_screen raw_x raw_y cfg invert_x invert_y swap_xy).1 ≤ cfg.screen_w - 1) ∧
     (0 ≤ (scale_raw_to_screen raw_x raw_y cfg invert_x invert_y swap_xy).2 ∧
      (scale_raw_to_screen raw_x raw_y cfg invert_x invert_y swap_xy).2 ≤ cfg.screen_h - 1)) :=
  ⟨uinputd_map_bounds c adv raw_x raw_y hw hh,
   scale_raw_to_screen_bounds raw_x raw_y cfg invert_x invert_y swap_xy hcw hch⟩

/-- Witness of C2: the default daemon and GUI configurations at the raw corner
`(4095, 4095)`. -/
theorem C2_map_range_witness :
    ((0 ≤ (uinputd_map {} {} 4095 4095).1 ∧ (uinputd_map {} {} 4095 4095).1 ≤ (800 : Int) - 1) ∧
     (0 ≤ (uinputd_map {} {} 4095 4095).2 ∧ (uinputd_map {} {} 4095 4095).2 ≤ (480 : Int) - 1)) ∧
    ((0 ≤ (scale_raw_to_screen 4095 4095 {} 0 0 0).1 ∧
      (scale_raw_to_screen 4095 4095 {} 0 0 0).1 ≤ (800 : Int) - 1) ∧
     (0 ≤ (scale_raw_to_screen 4095 4095 {} 0 0 0).2 ∧
      (scale_raw_to_screen 4095 4095 {} 0 0 0).2 ≤ (480 : Int) - 1)) :=
  C2_map_range {} {} {} 0 0 0 4095 4095 (by decide) (by decide) (by decide) (by decide)
    (by decide) (by decide)

/-! ### Daemon touch state -/

theorem uinputd_emit_fields (s : DState) (ox oy p : Int) :
    (uinputd_emit s ox oy p).1.touch_down = s.touch_down ∧
    (uinputd_emit s ox oy p).1.press_streak = s.press_streak ∧
    (uinputd_emit s ox oy p).1.release_streak = s.release_streak ∧
    (uinputd_emit s ox oy p).1.filter = s.filter := by
  unfold uinputd_emit
  split_ifs <;> simp

theorem uinputd_tick_up (c : Calib) (adv : AdvancedParams) (s : DState) (a : Sample)
    (hthr : 0 < adv.press_threshold) (hup : s.touch_down = false)
    (ha : 0 ≤ a.raw_x ∧ 0 ≤ a.raw_y) :
    ((uinputd_tick c adv s a).1.touch_down = true ↔
      (adv.press_threshold ≤ pressure_of a.z1 ∧ 1 ≤ s.press_streak)) ∧
    (uinputd_tick c adv s a).1.press_streak =
      (if adv.press_threshold ≤ pressure_of a.z1 then s.press_streak + 1 else 0) := by
  have hv : ¬ (a.raw_x < 0 ∨ a.raw_y < 0) := by omega
  by_cases hp : adv.press_threshold ≤ pressure_of a.z1
  · by_cases h2 : 1 ≤ s.press_streak
    · have h2' : s.press_streak + 1 ≥ 2 := by omega
      simp [uinputd_tick, pressure_touch, uinputd_touch_state, uinputd_emit_fields, hthr, hup, hv, hp, h2, h2']
    · have h2' : ¬ (s.press_streak + 1 ≥ 2) := by omega
      simp [uinputd_tick, pressure_touch, uinputd_touch_state, hthr, hup, hv, hp, h2, h2']
  · simp [uinputd_tick, pressure_touch, hthr, hup, hv, hp]

theorem uinputd_tick_down (c : Calib) (adv : AdvancedParams) (s : DState) (a : Sample)
    (hthr : 0 < adv.press_threshold) (hdown : s.touch_down = true)
    (ha : 0 ≤ a.raw_x ∧ 0 ≤ a.raw_y) :
    ((uinputd_tick c adv s a).1.touch_down = false ↔
      (pressure_of a.z1 ≤ adv.release_threshold ∧ 1 ≤ s.release_streak)) ∧
    (uinputd_tick c adv s a).1.release_streak =
      (if pressure_of a.z1 ≤ adv.release_threshold then
        (if 1 ≤ s.release_streak then 0 else s.release_streak + 1) else 0) := by
  have hv : ¬ (a.raw_x < 0 ∨ a.raw_y < 0) := by omega
  by_cases hp : pressure_of a.z1 ≤ adv.release_threshold
  · by_cases h2 : 1 ≤ s.release_streak
    · have h2' : s.release_streak + 1 ≥ 2 := by omega
      simp [uinputd_tick, pressure_touch, uinputd_touch_state, hthr, hdown, hv, hp, h2, h2']
    · have h2' : ¬ (s.release_streak + 1 ≥ 2) := by omega
      simp [uinputd_tick, pressure_touch, uinputd_touch_state, uinputd_emit_fields, hthr, hdown, hv, hp, h2, h2']
  · simp [uinputd_tick, pressure_touch, uinputd_touch_state, uinputd_emit_fields, hthr, hdown, hv, hp]

theorem uinputd_touch_state_streaks_nonneg (adv : AdvancedParams) (s : DState) (p : Int)
    (h : 0 ≤ s.press_streak ∧ 0 ≤ s.release_streak) :
    0 ≤ (uinputd_touch_state adv s p).press_streak ∧
      0 ≤ (uinputd_touch_state adv s p).release_streak := by
  unfold uinputd_touch_state
  simp only
  split_ifs <;> simp <;> omega

/-- The debounce counters never become negative. -/
theorem uinputd_tick_streaks_nonneg (c : Calib) (adv : AdvancedParams) (s : DState) (a : Sample)
    (h : 0 ≤ s.press_streak ∧ 0 ≤ s.release_streak) :
    0 ≤ (uinputd_tick c adv s a).1.press_streak ∧ 0 ≤ (uinputd_tick c adv s a).1.release_streak := by
  unfold uinputd_tick
  simp only
  by_cases hv : a.raw_x < 0 ∨ a.raw_y < 0
  · rw [if_pos hv]; exact h
  · rw [if_neg hv]
    split_ifs <;>
      first
      | exact uinputd_touch_state_streaks_nonneg adv _ _ h
      | (rw [(uinputd_emit_fields _ _ _ _).2.1, (uinputd_emit_fields _ _ _ _).2.2.1]
         exact uinputd_touch_state_streaks_nonneg adv _ _ h)
      | simp

theorem uinputd_run_streaks_nonneg (c : Calib) (adv : AdvancedParams) (smps : List Sample) :
    ∀ s : DState, (0 ≤ s.press_streak ∧ 0 ≤ s.release_streak) →
      0 ≤ (uinputd_run c adv s smps).1.press_streak ∧
      0 ≤ (uinputd_run c adv s smps).1.release_streak := by
  induction smps with
  | nil => intro s h; simpa [uinputd_run] using h
  | cons a rest ih =>
    intro s h
    simp only [uinputd_run]
    exact ih _ (uinputd_tick_streaks_nonneg c adv s a h)


/-- Every iteration that ends with `touch_down = false` writes no event at all:
the "End touch contact" arm of the emission block is never reached. -/
theorem uinputd_tick_up_silent (c : Calib) (adv : AdvancedParams) (s : DState) (a : Sample)
    (h : (uinputd_tick c adv s a).1.touch_down = false) : (uinputd_tick c adv s a).2 = [] := by
  unfold uinputd_tick at h ⊢
  simp only at h ⊢
  split_ifs at h ⊢ <;> first
    | rfl
    | (rw [(uinputd_emit_fields _ _ _ _).1] at h; simp_all)

/-- C1 (end-of-contact report), evaluated on a full contact with the default
configuration: two samples at pressure 200 (the contact is reported on the
second), then two samples at pressure 0.  The fourth iteration takes
`touch_down` from `true` to `false` and writes no event: no
`ABS_MT_TRACKING_ID = -1`, no `BTN_TOUCH = 0`, no `BTN_TOOL_FINGER = 0`, no
sync.  Afterwards `last_down` is still `true` while `touch_down` is `false`. -/
theorem C1_release_tick_writes_no_report :
    (uinputd_run {} {} {} [⟨2000, 2000, 200⟩, ⟨2000, 2000, 200⟩, ⟨2000, 2000, 0⟩]).1.touch_down = true ∧
    (uinputd_run {} {} {}
        [⟨2000, 2000, 200⟩, ⟨2000, 2000, 200⟩, ⟨2000, 2000, 0⟩, ⟨2000, 2000, 0⟩]).1.touch_down = false ∧
    (uinputd_run {} {} {}
        [⟨2000, 2000, 200⟩, ⟨2000, 2000, 200⟩, ⟨2000, 2000, 0⟩, ⟨2000, 2000, 0⟩]).1.last_down = true ∧
    (uinputd_run {} {} {}
        [⟨2000, 2000, 200⟩, ⟨2000, 2000, 200⟩, ⟨2000, 2000, 0⟩, ⟨2000, 2000, 0⟩]).2
      = [[],
         [UEvent.abs_mt_slot 0, UEvent.abs_mt_tracking_id 1, UEvent.abs_mt_position_x 390,
          UEvent.abs_mt_position_y 233, UEvent.abs_mt_pressure 200, UEvent.abs_x 390,
          UEvent.abs_y 233, UEvent.btn_touch 1, UEvent.btn_tool_finger 1, UEvent.syn_report],
         [UEvent.abs_mt_slot 0, UEvent.abs_mt_position_x 390, UEvent.abs_mt_position_y 233,
          UEvent.abs_mt_pressure 0, UEvent.abs_x 390, UEvent.abs_y 233, UEvent.syn_report],
         []] := by
  decide!

/-- C3 (press debounce).  Daemon, `press_threshold > 0`, fixed configuration,
two consecutive successfully read samples `a` then `b`, the state being Up
before `a` and still Up before `b`: `touch_down` becomes true on `b` if and only
if both `a` and `b` have pressure `≥ press_threshold`.  In particular, when `a`
qualifies and `b` is below the threshold the state stays Up and `press_streak`
is reset to `0`. -/
theorem C3_press_debounce (c : Calib) (adv : AdvancedParams) (s : DState) (a b : Sample)
    (hthr : 0 < adv.press_threshold)
    (hup : s.touch_down = false) (hstreak : 0 ≤ s.press_streak)
    (ha : 0 ≤ a.raw_x ∧ 0 ≤ a.raw_y) (hb : 0 ≤ b.raw_x ∧ 0 ≤ b.raw_y)
    (hup1 : (uinputd_tick c adv s a).1.touch_down = false) :
    ((uinputd_tick c adv (uinputd_tick c adv s a).1 b).1.touch_down = true ↔
      (adv.press_threshold ≤ pressure_of a.z1 ∧ adv.press_threshold ≤ pressure_of b.z1)) ∧
    (adv.press_threshold ≤ pressure_of a.z1 → pressure_of b.z1 < adv.press_threshold →
      (uinputd_tick c adv (uinputd_tick c adv s a).1 b).1.touch_down = false ∧
      (uinputd_tick c adv (uinputd_tick c adv s a).1 b).1.press_streak = 0) := by
  obtain ⟨ha1, ha2⟩ := uinputd_tick_up c adv s a hthr hup ha
  obtain ⟨hb1, hb2⟩ := uinputd_tick_up c adv (uinputd_tick c adv s a).1 b hthr hup1 hb
  have hnot : ¬ (adv.press_threshold ≤ pressure_of a.z1 ∧ 1 ≤ s.press_streak) := by
    intro h
    have := ha1.2 h
    rw [hup1] at this
    exact Bool.false_ne_true this
  refine ⟨?_, ?_⟩
  · rw [hb1, ha2]
    constructor
    · rintro ⟨hpb, hs⟩
      by_cases hpa : adv.press_threshold ≤ pressure_of a.z1
      · exact ⟨hpa, hpb⟩
      · rw [if_neg hpa] at hs; omega
    · rintro ⟨hpa, hpb⟩
      rw [if_pos hpa]
      exact ⟨hpb, by omega⟩
  · intro _ hpb
    have hnb : ¬ adv.press_threshold ≤ pressure_of b.z1 := by omega
    refine ⟨?_, ?_⟩
    · cases hres : (uinputd_tick c adv (uinputd_tick c adv s a).1 b).1.touch_down with
      | false => rfl
      | true => exact absurd (hb1.1 hres).1 hnb
    · rw [hb2, if_neg hnb]

/-- Witness of C3 on the default configuration from the initial state: a
qualifying sample followed by a second qualifying sample. -/
theorem C3_press_debounce_witness :
    ((uinputd_tick {} {} (uinputd_tick {} {} {} ⟨2000, 2000, 200⟩).1 ⟨2000, 2000, 200⟩).1.touch_down = true ↔
      ((120 : Int) ≤ pressure_of 200 ∧ (120 : Int) ≤ pressure_of 200)) ∧
    ((120 : Int) ≤ pressure_of 200 → pressure_of 200 < (120 : Int) →
      (uinputd_tick {} {} (uinputd_tick {} {} {} ⟨2000, 2000, 200⟩).1 ⟨2000, 2000, 200⟩).1.touch_down = false ∧
      (uinputd_tick {} {} (uinputd_tick {} {} {} ⟨2000, 2000, 200⟩).1 ⟨2000, 2000, 200⟩).1.press_streak = 0) :=
  C3_press_debounce {} {} {} ⟨2000, 2000, 200⟩ ⟨2000, 2000, 200⟩
    (by decide) (by decide) (by decide) (by decide) (by decide) (by decide!)

/-- C4 (release debounce).  Daemon, `press_threshold > 0`, fixed configuration,
two consecutive successfully read samples `a` then `b`, the state being Down
before `a` and still Down before `b`: `touch_down` becomes false on `b` if and
only if both `a` and `b` have pressure `≤ release_threshold`.  A sample `b` with
pressure `> release_threshold` keeps the state Down and resets `release_streak`
to `0`. -/
theorem C4_release_debounce (c : Calib) (adv : AdvancedParams) (s : DState) (a b : Sample)
    (hthr : 0 < adv.press_threshold)
    (hdown : s.touch_down = true) (hstreak : 0 ≤ s.release_streak)
    (ha : 0 ≤ a.raw_x ∧ 0 ≤ a.raw_y) (hb : 0 ≤ b.raw_x ∧ 0 ≤ b.raw_y)
    (hdown1 : (uinputd_tick c adv s a).1.touch_down = true) :
    ((uinputd_tick c adv (uinputd_tick c adv s a).1 b).1.touch_down = false ↔
      (pressure_of a.z1 ≤ adv.release_threshold ∧ pressure_of b.z1 ≤ adv.release_threshold)) ∧
    (adv.release_threshold < pressure_of b.z1 →
      (uinputd_tick c adv (uinputd_tick c adv s a).1 b).1.touch_down = true ∧
      (uinputd_tick c adv (uinputd_tick c adv s a).1 b).1.release_streak = 0) := by
  obtain ⟨ha1, ha2⟩ := uinputd_tick_down c adv s a hthr hdown ha
  obtain ⟨hb1, hb2⟩ := uinputd_tick_down c adv (uinputd_tick c adv s a).1 b hthr hdown1 hb
  have hnot : ¬ (pressure_of a.z1 ≤ adv.release_threshold ∧ 1 ≤ s.release_streak) := by
    intro h
    have := ha1.2 h
    rw [hdown1] at this
    exact Bool.noConfusion this
  refine ⟨?_, ?_⟩
  · rw [hb1, ha2]
    constructor
    · rintro ⟨hpb, hs⟩
      by_cases hpa : pressure_of a.z1 ≤ adv.release_threshold
      · exact ⟨hpa, hpb⟩
      · rw [if_neg hpa] at hs; omega
    · rintro ⟨hpa, hpb⟩
      rw [if_pos hpa]
      have h1 : ¬ 1 ≤ s.release_streak := fun h => hnot ⟨hpa, h⟩
      rw [if_neg h1]
      exact ⟨hpb, by omega⟩
  · intro hpb
    have hnb : ¬ pressure_of b.z1 ≤ adv.release_threshold := by omega
    refine ⟨?_, ?_⟩
    · cases hres : (uinputd_tick c adv (uinputd_tick c adv s a).1 b).1.touch_down with
      | true => rfl
      | false => exact absurd (hb1.1 hres).1 hnb
    · rw [hb2, if_neg hnb]

/-- Witness of C4 on the default configuration: a contact is established by
two samples at pressure 200; two samples at pressure 0 then end it. -/
theorem C4_release_debounce_witness :
    ((uinputd_tick {} {}
        (uinputd_tick {} {} (uinputd_run {} {} {} [⟨2000, 2000, 200⟩, ⟨2000, 2000, 200⟩]).1
          ⟨2000, 2000, 0⟩).1 ⟨2000, 2000, 0⟩).1.touch_down = false ↔
      (pressure_of 0 ≤ (80 : Int) ∧ pressure_of 0 ≤ (80 : Int))) ∧
    ((80 : Int) < pressure_of 0 →
      (uinputd_tick {} {}
        (uinputd_tick {} {} (uinputd_run {} {} {} [⟨2000, 2000, 200⟩, ⟨2000, 2000, 200⟩]).1
          ⟨2000, 2000, 0⟩).1 ⟨2000, 2000, 0⟩).1.touch_down = true ∧
      (uinputd_tick {} {}
        (uinputd_tick {} {} (uinputd_run {} {} {} [⟨2000, 2000, 200⟩, ⟨2000, 2000, 200⟩]).1
          ⟨2000, 2000, 0⟩).1 ⟨2000, 2000, 0⟩).1.release_streak = 0) :=
  C4_release_debounce {} {} (uinputd_run {} {} {} [⟨2000, 2000, 200⟩, ⟨2000, 2000, 200⟩]).1
    ⟨2000, 2000, 0⟩ ⟨2000, 2000, 0⟩
    (by decide) (by decide!) (by decide!) (by decide) (by decide) (by decide!)

/-! ### Median and filter stages -/

theorem sorted_getD_le_iff (x : Int) :
    ∀ (s : List Int), s.Sorted (· ≤ ·) → ∀ k, k < s.length →
      (s.getD k 0 ≤ x ↔ k < s.countP (fun y => decide (y ≤ x))) := by
  intro s
  induction s with
  | nil => intro _ k hk; simp at hk
  | cons a t ih =>
    intro hs k hk
    have hat : ∀ b ∈ t, a ≤ b := List.rel_of_sorted_cons hs
    have hts : t.Sorted (· ≤ ·) := List.Sorted.of_cons hs
    by_cases hax : a ≤ x
    · cases k with
      | zero => simp [hax]
      | succ k =>
        have hk' : k < t.length := by simpa using hk
        simpa [List.countP_cons, hax] using ih hts k hk'
    · have hnone : t.countP (fun y => decide (y ≤ x)) = 0 := by
        rw [List.countP_eq_zero]
        intro b hb
        have := hat b hb
        simp; omega
      cases k with
      | zero => simp [List.countP_cons, hax, hnone]
      | succ k =>
        have hk' : k < t.length := by simpa using hk
        have := (ih hts k hk')
        simp [List.countP_cons, hax, hnone] at this ⊢
        omega

theorem median_of_le_iff (v : List Int) (hv : v ≠ []) (x : Int) :
    median_of v ≤ x ↔ v.length / 2 < v.countP (fun y => decide (y ≤ x)) := by
  have hlen : 0 < v.length := List.length_pos.mpr hv
  have hk : v.length / 2 < (v.insertionSort (· ≤ ·)).length := by
    rw [List.length_insertionSort]; omega
  have hperm := List.perm_insertionSort (· ≤ ·) v
  unfold median_of
  have hemp : v.isEmpty = false := by
    cases v with
    | nil => exact absurd rfl hv
    | cons _ _ => rfl
  rw [hemp]
  simp only [Bool.false_eq_true, if_false]
  rw [sorted_getD_le_iff x _ (List.sorted_insertionSort (· ≤ ·) v) _ hk, hperm.countP_eq]

theorem le_median_of_iff (v : List Int) (hv : v ≠ []) (x : Int) :
    x ≤ median_of v ↔ v.countP (fun y => decide (y < x)) ≤ v.length / 2 := by
  have h := median_of_le_iff v hv (x - 1)
  have hc : v.countP (fun y => decide (y ≤ x - 1)) = v.countP (fun y => decide (y < x)) := by
    apply List.countP_congr
    intro y _
    simp
    omega
  rw [hc] at h
  constructor
  · intro hx
    by_contra hcon
    have := h.2 (by omega)
    omega
  · intro hx
    by_contra hcon
    have := h.1 (by omega)
    omega

theorem median_of_singleton (e : Int) : median_of [e] = e := by
  simp [median_of]

theorem median_of_append_between (h : List Int) (hne : h ≠ []) (e : Int) :
    min (median_of h) e ≤ median_of (h ++ [e]) ∧ median_of (h ++ [e]) ≤ max (median_of h) e := by
  have hne' : h ++ [e] ≠ [] := by simp
  constructor
  · rw [le_median_of_iff _ hne']
    have h1 := (le_median_of_iff h hne (min (median_of h) e)).1 (min_le_left _ _)
    have he : ¬ e < min (median_of h) e := not_lt.mpr (min_le_right _ _)
    simp only [List.countP_append, List.countP_cons, List.countP_nil, List.length_append,
      List.length_singleton, he, decide_False, Bool.false_eq_true, if_false]
    omega
  · rw [median_of_le_iff _ hne']
    have h1 := (median_of_le_iff h hne (max (median_of h) e)).1 (le_max_left _ _)
    have he : e ≤ max (median_of h) e := le_max_right _ _
    simp only [List.countP_append, List.countP_cons, List.countP_nil, List.length_append,
      List.length_singleton, he, decide_True, if_true]
    omega

theorem median_of_shift_between (a : Int) (t : List Int) (e : Int) :
    min (median_of (a :: t)) e ≤ median_of (t ++ [e]) ∧
      median_of (t ++ [e]) ≤ max (median_of (a :: t)) e := by
  have hne : a :: t ≠ [] := by simp
  have hne' : t ++ [e] ≠ [] := by simp
  constructor
  · rw [le_median_of_iff _ hne']
    have h1 := (le_median_of_iff _ hne (min (median_of (a :: t)) e)).1 (min_le_left _ _)
    have he : ¬ e < min (median_of (a :: t)) e := not_lt.mpr (min_le_right _ _)
    simp only [List.countP_append, List.countP_cons, List.countP_nil, List.length_append,
      List.length_singleton, List.length_cons, List.length_nil, he, decide_False, Bool.false_eq_true, if_false] at h1 ⊢
    split_ifs at h1 <;> omega
  · rw [median_of_le_iff _ hne']
    have h1 := (median_of_le_iff _ hne (max (median_of (a :: t)) e)).1 (le_max_left _ _)
    have he : e ≤ max (median_of (a :: t)) e := le_max_right _ _
    simp only [List.countP_append, List.countP_cons, List.countP_nil, List.length_append,
      List.length_singleton, List.length_cons, List.length_nil, he, decide_True, if_true] at h1 ⊢
    split_ifs at h1 <;> omega

theorem push_window_length_eq (mw : Int) (h : List Int) (e : Int) :
    (push_window mw h e).length = (h.length + 1) - (h.length + 1 - mw.toNat) := by
  simp [push_window]

theorem push_window_length (mw : Int) (h : List Int) (e : Int) (hw : 1 ≤ mw) :
    (push_window mw h e).length ≤ mw.toNat ∧ push_window mw h e ≠ [] := by
  have h1 : 1 ≤ mw.toNat := by omega
  have hlen := push_window_length_eq mw h e
  constructor
  · omega
  · intro hcon
    rw [hcon] at hlen
    simp at hlen
    omega

theorem push_window_nil (mw : Int) (e : Int) (hw : 1 ≤ mw) : push_window mw [] e = [e] := by
  have h1 : 1 ≤ mw.toNat := by omega
  have h2 : ([] ++ [e] : List Int).length - mw.toNat = 0 := by
    simp only [List.nil_append, List.length_singleton]; omega
  unfold push_window
  rw [h2]
  rfl

theorem median_of_push_window_between (mw : Int) (h : List Int) (e : Int)
    (hne : h ≠ []) (hl : h.length ≤ mw.toNat) :
    min (median_of h) e ≤ median_of (push_window mw h e) ∧
      median_of (push_window mw h e) ≤ max (median_of h) e := by
  by_cases hlt : h.length < mw.toNat
  · have h2 : (h ++ [e]).length - mw.toNat = 0 := by
      simp only [List.length_append, List.length_singleton]; omega
    have : push_window mw h e = h ++ [e] := by
      unfold push_window
      rw [h2]
      rfl
    rw [this]
    exact median_of_append_between h hne e
  · cases h with
    | nil => exact absurd rfl hne
    | cons a t =>
      have h2 : ((a :: t) ++ [e]).length - mw.toNat = 1 := by
        simp only [List.length_append, List.length_singleton, List.length_cons, List.length_nil] at hl hlt ⊢
        omega
      have : push_window mw (a :: t) e = t ++ [e] := by
        unfold push_window
        rw [h2]
        rfl
      rw [this]
      exact median_of_shift_between a t e

theorem llround_between (L U : Int) (q : ℚ) (hL : (L : ℚ) ≤ q) (hU : q ≤ (U : ℚ)) :
    L ≤ llround q ∧ llround q ≤ U := by
  unfold llround
  split_ifs with h0
  · constructor
    · rw [Int.le_floor]; linarith
    · have : ⌊q + 1 / 2⌋ < U + 1 := by
        rw [Int.floor_lt]; push_cast; linarith
      omega
  · constructor
    · have : ⌊-q + 1 / 2⌋ < -L + 1 := by
        rw [Int.floor_lt]; push_cast; linarith
      omega
    · have : -U ≤ ⌊-q + 1 / 2⌋ := by
        rw [Int.le_floor]; push_cast; linarith
      omega

theorem llround_intCast (z : Int) : llround (z : ℚ) = z := by
  have := llround_between z z (z : ℚ) le_rfl le_rfl
  omega

theorem iir_blend_between (a : ℚ) (p o : Int) (h0 : 0 ≤ a) (h1 : a ≤ 1) :
    min p o ≤ iir_blend a p o ∧ iir_blend a p o ≤ max p o := by
  unfold iir_blend
  apply llround_between
  · rcases le_total p o with hpo | hpo
    · rw [min_eq_left hpo]
      have : (p : ℚ) ≤ o := by exact_mod_cast hpo
      nlinarith
    · rw [min_eq_right hpo]
      have : (o : ℚ) ≤ p := by exact_mod_cast hpo
      nlinarith
  · rcases le_total p o with hpo | hpo
    · rw [max_eq_right hpo]
      have : (p : ℚ) ≤ o := by exact_mod_cast hpo
      nlinarith
    · rw [max_eq_left hpo]
      have : (o : ℚ) ≤ p := by exact_mod_cast hpo
      nlinarith

theorem iir_blend_self (a : ℚ) (p : Int) : iir_blend a p p = p := by
  unfold iir_blend
  have : (1 - a) * (p : ℚ) + a * (p : ℚ) = (p : ℚ) := by ring
  rw [this, llround_intCast]

theorem delta_clamp_bounds (d filt v : Int) (hd : 0 ≤ d) :
    filt - d ≤ delta_clamp d filt v ∧ delta_clamp d filt v ≤ filt + d := by
  unfold delta_clamp
  split_ifs <;> omega

theorem noise_filter_eq (adv : AdvancedParams) (f : FilterState) (sx sy : Int) :
    noise_filter adv f sx sy =
      { have_filtered := true,
        filt_x := axis_out adv f.have_filtered f.filt_x f.hist_x sx,
        filt_y := axis_out adv f.have_filtered f.filt_y f.hist_y sy,
        hist_x := axis_hist adv f.have_filtered f.filt_x f.hist_x sx,
        hist_y := axis_hist adv f.have_filtered f.filt_y f.hist_y sy } := by
  unfold noise_filter axis_out axis_med axis_hist axis_in
  simp only
  split_ifs <;> rfl

theorem axis_med_bounds (adv : AdvancedParams) (filt : Int) (hist : List Int) (v : Int)
    (hd : 0 < adv.max_delta_px) (hinv : AxisInv adv filt hist) :
    filt - adv.max_delta_px ≤ axis_med adv true filt hist v ∧
      axis_med adv true filt hist v ≤ filt + adv.max_delta_px := by
  have hin : axis_in adv true filt v = delta_clamp adv.max_delta_px filt v := by
    simp [axis_in, hd]
  have he := delta_clamp_bounds adv.max_delta_px filt v (le_of_lt hd)
  unfold axis_med axis_hist
  by_cases hmed : adv.median_window = 3 ∨ adv.median_window = 5
  · simp only [hmed, decide_True, if_true]
    rw [hin]
    obtain ⟨hlen, hmedb⟩ := hinv hmed
    have hw : 1 ≤ adv.median_window := by omega
    by_cases hne : hist = []
    · rw [hne, push_window_nil _ _ hw, median_of_singleton]
      exact he
    · have hb := median_of_push_window_between adv.median_window hist
        (delta_clamp adv.max_delta_px filt v) hne hlen
      have hm := hmedb hne
      have h1 := le_min hm.1 he.1
      have h2 := max_le hm.2 he.2
      exact ⟨le_trans h1 hb.1, le_trans hb.2 h2⟩
  · simp only [hmed, decide_False, Bool.false_eq_true, if_false]
    rw [hin]
    exact he

theorem axis_hist_inv (adv : AdvancedParams) (hf : Bool) (filt filt2 : Int) (hist : List Int)
    (v : Int)
    (hb : (adv.median_window = 3 ∨ adv.median_window = 5) →
      filt2 - adv.max_delta_px ≤ axis_med adv hf filt hist v ∧
        axis_med adv hf filt hist v ≤ filt2 + adv.max_delta_px) :
    AxisInv adv filt2 (axis_hist adv hf filt hist v) := by
  intro hmed
  have hw : 1 ≤ adv.median_window := by omega
  have hmedv := hb hmed
  unfold axis_med at hmedv
  simp only [hmed, decide_True, if_true] at hmedv
  refine ⟨?_, fun _ => hmedv⟩
  unfold axis_hist
  simp only [hmed, decide_True, if_true]
  exact (push_window_length _ _ _ hw).1

/-- One filter step on an initialised axis: the stored value moves by at most
`max_delta_px` and the invariant is kept. -/
theorem axis_step (adv : AdvancedParams) (filt : Int) (hist : List Int) (v : Int)
    (hd : 0 < adv.max_delta_px) (ha : adv.iir_alpha ≤ 1) (hinv : AxisInv adv filt hist) :
    (filt - adv.max_delta_px ≤ axis_out adv true filt hist v ∧
      axis_out adv true filt hist v ≤ filt + adv.max_delta_px) ∧
    AxisInv adv (axis_out adv true filt hist v) (axis_hist adv true filt hist v) := by
  have hm := axis_med_bounds adv filt hist v hd hinv
  by_cases hpos : adv.iir_alpha > 0
  · have hout : axis_out adv true filt hist v =
        iir_blend adv.iir_alpha filt (axis_med adv true filt hist v) := by
      simp [axis_out, hpos]
    have hb := iir_blend_between adv.iir_alpha filt (axis_med adv true filt hist v)
      (le_of_lt hpos) ha
    rw [hout]
    have hmin : min filt (axis_med adv true filt hist v) ≤ filt := min_le_left _ _
    have hmin2 : min filt (axis_med adv true filt hist v) ≤ axis_med adv true filt hist v :=
      min_le_right _ _
    have hmax : filt ≤ max filt (axis_med adv true filt hist v) := le_max_left _ _
    have hmax2 : axis_med adv true filt hist v ≤ max filt (axis_med adv true filt hist v) :=
      le_max_right _ _
    have hmin3 : filt - adv.max_delta_px ≤ min filt (axis_med adv true filt hist v) :=
      le_min (by omega) hm.1
    have hmax3 : max filt (axis_med adv true filt hist v) ≤ filt + adv.max_delta_px :=
      max_le (by omega) hm.2
    refine ⟨⟨by omega, by omega⟩, axis_hist_inv adv true filt _ hist v (fun _ => ?_)⟩
    rcases le_total filt (axis_med adv true filt hist v) with hle | hle
    · rw [min_eq_left hle, max_eq_right hle] at hb
      constructor <;> omega
    · rw [min_eq_right hle, max_eq_left hle] at hb
      constructor <;> omega
  · have hout : axis_out adv true filt hist v = axis_med adv true filt hist v := by
      simp [axis_out, hpos]
    rw [hout]
    refine ⟨hm, axis_hist_inv adv true filt _ hist v (fun _ => ?_)⟩
    constructor <;> omega

/-- First filter step of a contact on a cleared axis: the stored value is the
input and the invariant is established. -/
theorem axis_first (adv : AdvancedParams) (filt v : Int) (hd : 0 ≤ adv.max_delta_px) :
    axis_out adv false filt [] v = v ∧
    AxisInv adv v (axis_hist adv false filt [] v) := by
  have hin : axis_in adv false filt v = v := by simp [axis_in]
  have hmed : axis_med adv false filt [] v = v := by
    unfold axis_med axis_hist
    by_cases hm : adv.median_window = 3 ∨ adv.median_window = 5
    · have hw : 1 ≤ adv.median_window := by omega
      simp only [hm, decide_True, if_true]
      rw [hin, push_window_nil _ _ hw, median_of_singleton]
    · simp only [hm, decide_False, Bool.false_eq_true, if_false]
      exact hin
  have hout : axis_out adv false filt [] v = v := by
    unfold axis_out
    split_ifs <;> simp_all
  refine ⟨hout, axis_hist_inv adv false filt v [] v (fun _ => ?_)⟩
  rw [hmed]
  constructor <;> omega

theorem noise_filter_step (adv : AdvancedParams) (f : FilterState) (sx sy : Int)
    (hd : 0 < adv.max_delta_px) (ha : adv.iir_alpha ≤ 1) (hinv : FilterInv adv f) :
    FilterInv adv (noise_filter adv f sx sy) ∧
    (f.filt_x - adv.max_delta_px ≤ (noise_filter adv f sx sy).filt_x ∧
      (noise_filter adv f sx sy).filt_x ≤ f.filt_x + adv.max_delta_px) ∧
    (f.filt_y - adv.max_delta_px ≤ (noise_filter adv f sx sy).filt_y ∧
      (noise_filter adv f sx sy).filt_y ≤ f.filt_y + adv.max_delta_px) := by
  obtain ⟨hf, hx, hy⟩ := hinv
  rw [noise_filter_eq, hf]
  have sx' := axis_step adv f.filt_x f.hist_x sx hd ha hx
  have sy' := axis_step adv f.filt_y f.hist_y sy hd ha hy
  exact ⟨⟨rfl, sx'.2, sy'.2⟩, sx'.1, sy'.1⟩

theorem noise_filter_first (adv : AdvancedParams) (f : FilterState) (sx sy : Int)
    (hd : 0 ≤ adv.max_delta_px) (hc : FilterCleared f) :
    FilterInv adv (noise_filter adv f sx sy) ∧
    (noise_filter adv f sx sy).filt_x = sx ∧ (noise_filter adv f sx sy).filt_y = sy := by
  obtain ⟨hf, hx, hy⟩ := hc
  rw [noise_filter_eq, hf, hx, hy]
  have fx := axis_first adv f.filt_x sx hd
  have fy := axis_first adv f.filt_y sy hd
  refine ⟨⟨rfl, ?_, ?_⟩, fx.1, fy.1⟩
  · show AxisInv adv (axis_out adv false f.filt_x [] sx) _
    rw [fx.1]; exact fx.2
  · show AxisInv adv (axis_out adv false f.filt_y [] sy) _
    rw [fy.1]; exact fy.2

/-! ### How one iteration acts on the filter -/

theorem uinputd_touch_state_down (adv : AdvancedParams) (s : DState) (p : Int)
    (hc : s.have_candidate = true)
    (h : (uinputd_touch_state adv s p).touch_down = true) :
    (s.touch_down = true ∧ (uinputd_touch_state adv s p).filter = s.filter) ∨
    (s.touch_down = false ∧
      (uinputd_touch_state adv s p).filter = seeded_filter s.candidate_x s.candidate_y) := by
  unfold uinputd_touch_state at h ⊢
  simp only at h ⊢
  cases htd : s.touch_down
  · right
    simp only [htd, hc] at h ⊢
    split_ifs at h ⊢ <;> simp_all [seeded_filter, filter_reset]
  · left
    simp only [htd] at h ⊢
    split_ifs at h ⊢ <;> simp_all

/-- A daemon iteration that ends Down either skipped the sample (failed read), or
ran the filter on the stored state (contact continuing), or ran it on the
freshly seeded state (contact starting). -/
theorem uinputd_tick_down_cases (c : Calib) (adv : AdvancedParams) (s : DState) (a : Sample)
    (h : (uinputd_tick c adv s a).1.touch_down = true) :
    ((a.raw_x < 0 ∨ a.raw_y < 0) ∧ (uinputd_tick c adv s a).1 = s) ∨
    (s.touch_down = true ∧ (uinputd_tick c adv s a).1.filter =
      noise_filter adv s.filter (uinputd_map c adv a.raw_x a.raw_y).1
        (uinputd_map c adv a.raw_x a.raw_y).2) ∨
    (s.touch_down = false ∧ (uinputd_tick c adv s a).1.filter =
      noise_filter adv (seeded_filter (uinputd_map c adv a.raw_x a.raw_y).1
          (uinputd_map c adv a.raw_x a.raw_y).2)
        (uinputd_map c adv a.raw_x a.raw_y).1 (uinputd_map c adv a.raw_x a.raw_y).2) := by
  by_cases hv : a.raw_x < 0 ∨ a.raw_y < 0
  · left
    exact ⟨hv, by simp [uinputd_tick, hv]⟩
  · right
    unfold uinputd_tick at h ⊢
    simp only [hv, if_false] at h ⊢
    split_ifs at h ⊢ with h1 h2
    · simp_all
    · simp_all
    · rw [(uinputd_emit_fields _ _ _ _).2.2.2]
      have h2' : (uinputd_touch_state adv
          { s with candidate_x := (uinputd_map c adv a.raw_x a.raw_y).1,
                   candidate_y := (uinputd_map c adv a.raw_x a.raw_y).2,
                   have_candidate := true } (pressure_of a.z1)).touch_down = true := by
        simpa using h2
      rcases uinputd_touch_state_down adv _ _ rfl h2' with ⟨hd, hf⟩ | ⟨hd, hf⟩
      · left
        refine ⟨hd, ?_⟩
        simp only at hf ⊢
        rw [hf]
      · right
        refine ⟨hd, ?_⟩
        simp only at hf ⊢
        rw [hf]

theorem seeded_filter_inv (adv : AdvancedParams) (x y : Int) : FilterInv adv (seeded_filter x y) := by
  refine ⟨rfl, ?_, ?_⟩ <;> intro _ <;> simp [seeded_filter]

theorem uinputd_tick_inv (c : Calib) (adv : AdvancedParams) (s : DState) (a : Sample)
    (hd : 0 < adv.max_delta_px) (ha : adv.iir_alpha ≤ 1) (hinv : DInv adv s) :
    DInv adv (uinputd_tick c adv s a).1 := by
  intro h
  rcases uinputd_tick_down_cases c adv s a h with ⟨_, he⟩ | ⟨hdn, hf⟩ | ⟨_, hf⟩
  · rw [he] at h ⊢
    exact hinv h
  · rw [hf]
    exact (noise_filter_step adv _ _ _ hd ha (hinv hdn)).1
  · rw [hf]
    exact (noise_filter_step adv _ _ _ hd ha (seeded_filter_inv adv _ _)).1

theorem uinputd_run_inv (c : Calib) (adv : AdvancedParams) (smps : List Sample)
    (hd : 0 < adv.max_delta_px) (ha : adv.iir_alpha ≤ 1) :
    ∀ s : DState, DInv adv s → DInv adv (uinputd_run c adv s smps).1 := by
  induction smps with
  | nil => intro s h; simpa [uinputd_run] using h
  | cons a rest ih =>
    intro s h
    simp only [uinputd_run]
    exact ih _ (uinputd_tick_inv c adv s a hd ha h)

theorem uinputd_tick_delta (c : Calib) (adv : AdvancedParams) (s : DState) (a : Sample)
    (hd : 0 < adv.max_delta_px) (ha : adv.iir_alpha ≤ 1) (hinv : DInv adv s)
    (h1 : s.touch_down = true) (h2 : (uinputd_tick c adv s a).1.touch_down = true) :
    |(uinputd_tick c adv s a).1.filter.filt_x - s.filter.filt_x| ≤ adv.max_delta_px ∧
    |(uinputd_tick c adv s a).1.filter.filt_y - s.filter.filt_y| ≤ adv.max_delta_px := by
  rcases uinputd_tick_down_cases c adv s a h2 with ⟨_, he⟩ | ⟨_, hf⟩ | ⟨hup, _⟩
  · rw [he]
    simp only [sub_self, abs_zero]
    omega
  · rw [hf]
    obtain ⟨_, hx, hy⟩ := noise_filter_step adv s.filter
      (uinputd_map c adv a.raw_x a.raw_y).1 (uinputd_map c adv a.raw_x a.raw_y).2 hd ha (hinv h1)
    rw [abs_le, abs_le]
    constructor <;> constructor <;> omega
  · rw [h1] at hup
    exact absurd hup (by decide)

theorem calibrator_drag_fields (adv : AdvancedParams) (s : CState) (sx sy : Int) :
    (calibrator_drag adv s sx sy).1.touch_down = s.touch_down ∧
    (calibrator_drag adv s sx sy).1.filter = s.filter ∧
    (calibrator_drag adv s sx sy).1.down_start_x = s.down_start_x ∧
    (calibrator_drag adv s sx sy).1.down_start_y = s.down_start_y ∧
    (calibrator_drag adv s sx sy).1.down_start_t = s.down_start_t := by
  unfold calibrator_drag
  split_ifs <;> simp

theorem calibrator_touch_state_filter (adv : AdvancedParams) (s : CState) (smp : CSample)
    (p sx sy : Int) :
    ((calibrator_touch_state adv s smp p sx sy).1.touch_down = true →
      (calibrator_touch_state adv s smp p sx sy).1.filter = s.filter) ∧
    ((calibrator_touch_state adv s smp p sx sy).1.touch_down = false →
      (s.touch_down = false ∧ (calibrator_touch_state adv s smp p sx sy).1.filter = s.filter) ∨
      (s.touch_down = true ∧
        (calibrator_touch_state adv s smp p sx sy).1.filter = filter_reset s.filter)) := by
  unfold calibrator_touch_state
  simp only
  cases htd : s.touch_down <;> split_ifs <;> simp_all

/-- What a calibrator iteration leaves in the filter state. -/
theorem calibrator_tick_filter (c : Calib) (adv : AdvancedParams) (s : CState) (smp : CSample) :
    ((calibrator_tick c adv s smp).1.touch_down = true →
      (calibrator_tick c adv s smp).1.filter =
        noise_filter adv s.filter (calibrator_map c adv smp.raw_x smp.raw_y).1
          (calibrator_map c adv smp.raw_x smp.raw_y).2) ∧
    ((calibrator_tick c adv s smp).1.touch_down = false →
      (s.touch_down = false ∧ (calibrator_tick c adv s smp).1.filter =
        (if !s.filter.have_filtered then
          { s.filter with filt_x := (calibrator_map c adv smp.raw_x smp.raw_y).1,
                          filt_y := (calibrator_map c adv smp.raw_x smp.raw_y).2 }
         else s.filter)) ∨
      (s.touch_down = true ∧ (calibrator_tick c adv s smp).1.filter =
        { filter_reset s.filter with filt_x := (calibrator_map c adv smp.raw_x smp.raw_y).1,
                                     filt_y := (calibrator_map c adv smp.raw_x smp.raw_y).2 })) := by
  have hd := calibrator_drag_fields adv
    (calibrator_touch_state adv s smp (pressure_of smp.z1)
      (calibrator_map c adv smp.raw_x smp.raw_y).1 (calibrator_map c adv smp.raw_x smp.raw_y).2).1
    (calibrator_map c adv smp.raw_x smp.raw_y).1 (calibrator_map c adv smp.raw_x smp.raw_y).2
  have ht := calibrator_touch_state_filter adv s smp (pressure_of smp.z1)
    (calibrator_map c adv smp.raw_x smp.raw_y).1 (calibrator_map c adv smp.raw_x smp.raw_y).2
  unfold calibrator_tick
  simp only [hd.1, hd.2.1]
  constructor
  · intro h
    rw [if_pos h, ht.1 h]
  · intro h
    have hn : ¬ ((calibrator_touch_state adv s smp (pressure_of smp.z1)
      (calibrator_map c adv smp.raw_x smp.raw_y).1
      (calibrator_map c adv smp.raw_x smp.raw_y).2).1.touch_down = true) := by
      rw [h]; decide
    rw [if_neg hn]
    rcases ht.2 h with ⟨h1, h2⟩ | ⟨h1, h2⟩
    · left
      exact ⟨h1, by rw [h2]⟩
    · right
      refine ⟨h1, ?_⟩
      rw [h2]
      simp [filter_reset]

theorem calibrator_tick_inv (c : Calib) (adv : AdvancedParams) (s : CState) (smp : CSample)
    (hd : 0 < adv.max_delta_px) (ha : adv.iir_alpha ≤ 1) (hinv : CInv adv s) :
    CInv adv (calibrator_tick c adv s smp).1 := by
  obtain ⟨hdown, hup⟩ := calibrator_tick_filter c adv s smp
  constructor
  · intro h
    rw [hdown h]
    cases htd : s.touch_down
    · exact (noise_filter_first adv _ _ _ (le_of_lt hd) (hinv.2 htd)).1
    · exact (noise_filter_step adv _ _ _ hd ha (hinv.1 htd)).1
  · intro h
    rcases hup h with ⟨h1, h2⟩ | ⟨_, h2⟩
    · rw [h2]
      obtain ⟨hf, hx, hy⟩ := hinv.2 h1
      simp only [hf, Bool.not_false, if_true]
      exact ⟨rfl, hx, hy⟩
    · rw [h2]
      exact ⟨rfl, rfl, rfl⟩

theorem calibrator_run_inv (c : Calib) (adv : AdvancedParams) (smps : List CSample)
    (hd : 0 < adv.max_delta_px) (ha : adv.iir_alpha ≤ 1) :
    ∀ s : CState, CInv adv s → CInv adv (calibrator_run c adv s smps).1 := by
  induction smps with
  | nil => intro s h; simpa [calibrator_run] using h
  | cons a rest ih =>
    intro s h
    simp only [calibrator_run]
    exact ih _ (calibrator_tick_inv c adv s a hd ha h)

theorem calibrator_tick_delta (c : Calib) (adv : AdvancedParams) (s : CState) (smp : CSample)
    (hd : 0 < adv.max_delta_px) (ha : adv.iir_alpha ≤ 1) (hinv : CInv adv s)
    (h1 : s.touch_down = true) (h2 : (calibrator_tick c adv s smp).1.touch_down = true) :
    |(calibrator_tick c adv s smp).1.filter.filt_x - s.filter.filt_x| ≤ adv.max_delta_px ∧
    |(calibrator_tick c adv s smp).1.filter.filt_y - s.filter.filt_y| ≤ adv.max_delta_px := by
  rw [(calibrator_tick_filter c adv s smp).1 h2]
  obtain ⟨_, hx, hy⟩ := noise_filter_step adv s.filter
    (calibrator_map c adv smp.raw_x smp.raw_y).1 (calibrator_map c adv smp.raw_x smp.raw_y).2
    hd ha (hinv.1 h1)
  rw [abs_le, abs_le]
  constructor <;> constructor <;> omega

/-- C5 (delta clamp bound).  With `max_delta_px = d > 0`, any `median_window`
and `iir_alpha ∈ [0,1]`, for every run of samples from an Up state (the
calibrator's filter being cleared there, as start-up and every release leave
it): whenever the state is Down before an iteration and Down after it (two
consecutive ticks of one contact, the filter being initialised), the stored
filtered value changes by at most `d` on each axis,
`|filt_x(t) - filt_x(t-1)| ≤ d` and `|filt_y(t) - filt_y(t-1)| ≤ d`.  Holds for the
daemon and for the calibrator, also while the median window is filling. -/
theorem C5_delta_clamp_bound (c : Calib) (adv : AdvancedParams)
    (s0 : DState) (pre : List Sample) (b : Sample)
    (t0 : CState) (cpre : List CSample) (cb : CSample)
    (hd : 0 < adv.max_delta_px) (ha : 0 ≤ adv.iir_alpha ∧ adv.iir_alpha ≤ 1)
    (hs0 : s0.touch_down = false)
    (hs1 : (uinputd_run c adv s0 pre).1.touch_down = true)
    (hs2 : (uinputd_tick c adv (uinputd_run c adv s0 pre).1 b).1.touch_down = true)
    (ht0 : t0.touch_down = false ∧ FilterCleared t0.filter)
    (ht1 : (calibrator_run c adv t0 cpre).1.touch_down = true)
    (ht2 : (calibrator_tick c adv (calibrator_run c adv t0 cpre).1 cb).1.touch_down = true) :
    (|(uinputd_tick c adv (uinputd_run c adv s0 pre).1 b).1.filter.filt_x
        - (uinputd_run c adv s0 pre).1.filter.filt_x| ≤ adv.max_delta_px ∧
     |(uinputd_tick c adv (uinputd_run c adv s0 pre).1 b).1.filter.filt_y
        - (uinputd_run c adv s0 pre).1.filter.filt_y| ≤ adv.max_delta_px) ∧
    (|(calibrator_tick c adv (calibrator_run c adv t0 cpre).1 cb).1.filter.filt_x
        - (calibrator_run c adv t0 cpre).1.filter.filt_x| ≤ adv.max_delta_px ∧
     |(calibrator_tick c adv (calibrator_run c adv t0 cpre).1 cb).1.filter.filt_y
        - (calibrator_run c adv t0 cpre).1.filter.filt_y| ≤ adv.max_delta_px) := by
  have hD0 : DInv adv s0 := fun h => absurd (hs0 ▸ h) (by decide)
  have hC0 : CInv adv t0 := ⟨fun h => absurd (ht0.1 ▸ h) (by decide), fun _ => ht0.2⟩
  exact ⟨uinputd_tick_delta c adv _ b hd ha.2 (uinputd_run_inv c adv pre hd ha.2 s0 hD0) hs1 hs2,
    calibrator_tick_delta c adv _ cb hd ha.2 (calibrator_run_inv c adv cpre hd ha.2 t0 hC0) ht1 ht2⟩

/-- Witness of C5: `max_delta_px = 10` with the default median window 3 and
`iir_alpha = 1/5`; a contact at raw `(2000, 2000)` followed by a sample at raw
`(4000, 4000)`, in the daemon and in the calibrator. -/
theorem C5_delta_clamp_bound_witness :
    (|(uinputd_tick {} { max_delta_px := 10 }
          (uinputd_run {} { max_delta_px := 10 } {} [⟨2000, 2000, 200⟩, ⟨2000, 2000, 200⟩]).1
          ⟨4000, 4000, 200⟩).1.filter.filt_x
        - (uinputd_run {} { max_delta_px := 10 } {}
            [⟨2000, 2000, 200⟩, ⟨2000, 2000, 200⟩]).1.filter.filt_x| ≤ (10 : Int) ∧
     |(uinputd_tick {} { max_delta_px := 10 }
          (uinputd_run {} { max_delta_px := 10 } {} [⟨2000, 2000, 200⟩, ⟨2000, 2000, 200⟩]).1
          ⟨4000, 4000, 200⟩).1.filter.filt_y
        - (uinputd_run {} { max_delta_px := 10 } {}
            [⟨2000, 2000, 200⟩, ⟨2000, 2000, 200⟩]).1.filter.filt_y| ≤ (10 : Int)) ∧
    (|(calibrator_tick {} { max_delta_px := 10 }
          (calibrator_run {} { max_delta_px := 10 } {} [⟨2000, 2000, 200, 0⟩]).1
          ⟨4000, 4000, 200, 5000000⟩).1.filter.filt_x
        - (calibrator_run {} { max_delta_px := 10 } {} [⟨2000, 2000, 200, 0⟩]).1.filter.filt_x|
        ≤ (10 : Int) ∧
     |(calibrator_tick {} { max_delta_px := 10 }
          (calibrator_run {} { max_delta_px := 10 } {} [⟨2000, 2000, 200, 0⟩]).1
          ⟨4000, 4000, 200, 5000000⟩).1.filter.filt_y
        - (calibrator_run {} { max_delta_px := 10 } {} [⟨2000, 2000, 200, 0⟩]).1.filter.filt_y|
        ≤ (10 : Int)) :=
  C5_delta_clamp_bound {} { max_delta_px := 10 } {} [⟨2000, 2000, 200⟩, ⟨2000, 2000, 200⟩]
    ⟨4000, 4000, 200⟩ {} [⟨2000, 2000, 200, 0⟩] ⟨4000, 4000, 200, 5000000⟩
    (by decide) (by decide!) (by decide) (by decide!) (by decide!)
    ⟨by decide, by decide, by decide, by decide⟩ (by decide!) (by decide!)

/-! ### Calibrator gestures -/

/-- On the pressure-threshold path a release within the tap limits prints exactly
one `TAP` line carrying the release position and the duration. -/
theorem calibrator_threshold_release_tap (c : Calib) (adv : AdvancedParams) (s : CState)
    (smp : CSample)
    (hthr : 0 < adv.press_threshold) (hdown : s.touch_down = true) (hdrag : s.dragging = false)
    (hrel : pressure_of smp.z1 ≤ adv.release_threshold)
    (hdur : elapsed_ms s.down_start_t smp.now ≤ adv.tap_max_ms)
    (hmove : dist2 s.down_start_x s.down_start_y (calibrator_map c adv smp.raw_x smp.raw_y).1
      (calibrator_map c adv smp.raw_x smp.raw_y).2 ≤ adv.tap_max_move_px * adv.tap_max_move_px) :
    (calibrator_tick c adv s smp).2.gestures =
      [Gesture.tap (calibrator_map c adv smp.raw_x smp.raw_y).1
        (calibrator_map c adv smp.raw_x smp.raw_y).2 (elapsed_ms s.down_start_t smp.now)] ∧
    (calibrator_tick c adv s smp).1.touch_down = false := by
  simp [calibrator_tick, calibrator_touch_state, calibrator_drag, hthr, hdown, hdrag, hrel, hdur,
    hmove]

/-- On the coordinate-band path (`press_threshold <= 0`) the touch-state block
prints no gesture at all, whatever the state and the sample. -/
theorem calibrator_band_no_tap (adv : AdvancedParams) (s : CState) (smp : CSample)
    (p sx sy : Int) (hthr : ¬ 0 < adv.press_threshold) :
    (calibrator_touch_state adv s smp p sx sy).2 = [] := by
  unfold calibrator_touch_state
  simp only [gt_iff_lt, hthr, if_false]
  split_ifs <;> rfl

/-- C6 (tap on release), evaluated.  (1) Pressure-threshold path, the
specification's scenario with the default configuration: press at mapped
`(100,100)`, `t = 0`, release at mapped `(103,101)`, `t = 120 ms`: the release
iteration prints `TAP 103 101 120` and no `DRAG_START` is printed.  (2)
Coordinate-band path (`press_threshold = 0`): press at mapped `(12,234)`,
`t = 0`, release at mapped `(8,234)`, `t = 120 ms`; the contact is no drag, the
elapsed time `120 ≤ 250` and the squared distance `16 ≤ 12²` satisfy the tap
conditions, and no `TAP` is printed. -/
theorem C6_band_release_prints_no_tap :
    calibrator_gestures {} {} {} [⟨512, 853, 200, 0⟩, ⟨527, 862, 0, 120000000⟩]
      = [[], [Gesture.tap 103 101 120]] ∧
    (calibrator_run {} { press_threshold := 0, release_threshold := 0 } {}
        [⟨60, 2000, 50, 0⟩, ⟨40, 2000, 50, 120000000⟩]).2
      = [⟨[], 12, 234, 50, true⟩, ⟨[], 8, 234, 50, false⟩] ∧
    (calibrator_run {} { press_threshold := 0, release_threshold := 0 } {}
        [⟨60, 2000, 50, 0⟩]).1.dragging = false ∧
    elapsed_ms 0 120000000 ≤ (250 : Int) ∧
    dist2 12 234 8 234 ≤ (12 : Int) * 12 := by
  decide!

theorem calibrator_touch_state_stay (adv : AdvancedParams) (s : CState) (smp : CSample)
    (p sx sy : Int) (hdown : s.touch_down = true)
    (h : (calibrator_touch_state adv s smp p sx sy).1.touch_down = true) :
    calibrator_touch_state adv s smp p sx sy = (s, []) := by
  unfold calibrator_touch_state at h ⊢
  simp only [hdown] at h ⊢
  split_ifs at h ⊢ <;> simp_all

theorem calibrator_touch_state_press (adv : AdvancedParams) (s : CState) (smp : CSample)
    (p sx sy : Int) (hup : s.touch_down = false)
    (h : (calibrator_touch_state adv s smp p sx sy).1.touch_down = true) :
    calibrator_touch_state adv s smp p sx sy =
      ({ s with touch_down := true, down_start_t := smp.now, down_start_x := sx,
                down_start_y := sy, dragging := false }, []) := by
  unfold calibrator_touch_state at h ⊢
  simp only [hup] at h ⊢
  split_ifs at h ⊢ <;> simp_all

theorem calibrator_tick_touch_down (c : Calib) (adv : AdvancedParams) (s : CState)
    (x : CSample) :
    (calibrator_tick c adv s x).1.touch_down =
      (calibrator_touch_state adv s x (pressure_of x.z1)
        (calibrator_map c adv x.raw_x x.raw_y).1
        (calibrator_map c adv x.raw_x x.raw_y).2).1.touch_down := by
  unfold calibrator_tick
  simp only
  exact (calibrator_drag_fields _ _ _ _).1

/-- An iteration inside a contact (Down before and after): the only possible
gesture line is `DRAG_START` with the stored press position, printed when the
contact is not yet a drag and the distance is reached; the press position is
kept. -/
theorem calibrator_tick_inside (c : Calib) (adv : AdvancedParams) (s : CState) (x : CSample)
    (hdown : s.touch_down = true) (h : (calibrator_tick c adv s x).1.touch_down = true) :
    (calibrator_tick c adv s x).2.gestures =
      (if !s.dragging && drag_reached c adv s.down_start_x s.down_start_y x
        then [Gesture.drag_start s.down_start_x s.down_start_y] else []) ∧
    (calibrator_tick c adv s x).1.dragging =
      (s.dragging || drag_reached c adv s.down_start_x s.down_start_y x) ∧
    (calibrator_tick c adv s x).1.down_start_x = s.down_start_x ∧
    (calibrator_tick c adv s x).1.down_start_y = s.down_start_y := by
  rw [calibrator_tick_touch_down] at h
  have hst := calibrator_touch_state_stay adv s x _ _ _ hdown h
  unfold calibrator_tick
  simp only [hst]
  unfold calibrator_drag drag_reached
  simp only [hdown, Bool.true_and]
  cases hdr : s.dragging <;> split_ifs <;> first
    | (simp_all; done)
    | (simp_all; linarith)

/-- The first iteration of a contact (Up before, Down after): the press position
becomes the mapped position of this sample. -/
theorem calibrator_tick_press (c : Calib) (adv : AdvancedParams) (s : CState) (x : CSample)
    (hup : s.touch_down = false) (h : (calibrator_tick c adv s x).1.touch_down = true) :
    (calibrator_tick c adv s x).2.gestures =
      (if drag_reached c adv (calibrator_map c adv x.raw_x x.raw_y).1
          (calibrator_map c adv x.raw_x x.raw_y).2 x
        then [Gesture.drag_start (calibrator_map c adv x.raw_x x.raw_y).1
          (calibrator_map c adv x.raw_x x.raw_y).2] else []) ∧
    (calibrator_tick c adv s x).1.dragging =
      drag_reached c adv (calibrator_map c adv x.raw_x x.raw_y).1
        (calibrator_map c adv x.raw_x x.raw_y).2 x ∧
    (calibrator_tick c adv s x).1.down_start_x = (calibrator_map c adv x.raw_x x.raw_y).1 ∧
    (calibrator_tick c adv s x).1.down_start_y = (calibrator_map c adv x.raw_x x.raw_y).2 := by
  rw [calibrator_tick_touch_down] at h
  have hst := calibrator_touch_state_press adv s x _ _ _ hup h
  unfold calibrator_tick
  simp only [hst]
  unfold calibrator_drag drag_reached
  simp only [Bool.not_false, Bool.and_self, if_true]
  split_ifs <;> first
    | (simp_all; done)
    | (simp_all; linarith)

/-- The release iteration (Down before, Up after): no `DRAG_START`; a `TAP`
only for a contact that is not a drag. -/
theorem calibrator_tick_release (c : Calib) (adv : AdvancedParams) (s : CState) (x : CSample)
    (hdown : s.touch_down = true) (h : (calibrator_tick c adv s x).1.touch_down = false) :
    (calibrator_tick c adv s x).2.gestures = [] ∨
    (s.dragging = false ∧ ∃ t, (calibrator_tick c adv s x).2.gestures =
      [Gesture.tap (calibrator_map c adv x.raw_x x.raw_y).1
        (calibrator_map c adv x.raw_x x.raw_y).2 t]) := by
  rw [calibrator_tick_touch_down] at h
  unfold calibrator_tick
  simp only
  unfold calibrator_drag
  simp only [h, Bool.false_and, Bool.false_eq_true, if_false, List.append_nil]
  unfold calibrator_touch_state at h ⊢
  simp only [hdown] at h ⊢
  cases hdr : s.dragging <;> split_ifs at h ⊢ <;> simp_all

theorem calibrator_gestures_nil (c : Calib) (adv : AdvancedParams) (s : CState) :
    calibrator_gestures c adv s [] = [] := rfl

theorem calibrator_gestures_cons (c : Calib) (adv : AdvancedParams) (s : CState) (x : CSample)
    (xs : List CSample) :
    calibrator_gestures c adv s (x :: xs) =
      (calibrator_tick c adv s x).2.gestures ::
        calibrator_gestures c adv (calibrator_tick c adv s x).1 xs := rfl

theorem calibrator_run_append (c : Calib) (adv : AdvancedParams) (xs ys : List CSample) :
    ∀ s : CState,
      (calibrator_run c adv s (xs ++ ys)).1 =
        (calibrator_run c adv (calibrator_run c adv s xs).1 ys).1 ∧
      calibrator_gestures c adv s (xs ++ ys) =
        calibrator_gestures c adv s xs ++
          calibrator_gestures c adv (calibrator_run c adv s xs).1 ys := by
  induction xs with
  | nil => intro s; exact ⟨rfl, rfl⟩
  | cons x rest ih =>
    intro s
    obtain ⟨h1, h2⟩ := ih (calibrator_tick c adv s x).1
    refine ⟨h1, ?_⟩
    rw [List.cons_append, calibrator_gestures_cons, calibrator_gestures_cons, h2]
    rfl

theorem calibrator_stays_cons (b : Bool) (c : Calib) (adv : AdvancedParams) (s : CState)
    (x : CSample) (xs : List CSample) :
    calibrator_stays b c adv s (x :: xs) = true ↔
      ((calibrator_tick c adv s x).1.touch_down = b ∧
        calibrator_stays b c adv (calibrator_tick c adv s x).1 xs = true) := by
  simp [calibrator_stays]

/-- Along the Down iterations of a contact the state stays Down and the press
position is not written. -/
theorem calibrator_contact_state (c : Calib) (adv : AdvancedParams) (xs : List CSample) :
    ∀ s : CState, s.touch_down = true → calibrator_stays true c adv s xs = true →
      (calibrator_run c adv s xs).1.touch_down = true ∧
      (calibrator_run c adv s xs).1.down_start_x = s.down_start_x ∧
      (calibrator_run c adv s xs).1.down_start_y = s.down_start_y := by
  induction xs with
  | nil => intro s hd _; exact ⟨hd, rfl, rfl⟩
  | cons x rest ih =>
    intro s hd hst
    obtain ⟨h1, h2⟩ := (calibrator_stays_cons true c adv s x rest).1 hst
    obtain ⟨_, _, hx, hy⟩ := calibrator_tick_inside c adv s x hd h1
    obtain ⟨r1, r2, r3⟩ := ih _ h1 h2
    exact ⟨r1, r2.trans hx, r3.trans hy⟩

/-- Along the Down iterations of a contact every gesture line is a `DRAG_START`
with the press position, there is at most one (none when the contact already is
a drag), and if the contact ends without the drag flag none was printed. -/
theorem calibrator_contact_events (c : Calib) (adv : AdvancedParams) (xs : List CSample) :
    ∀ s : CState, s.touch_down = true → calibrator_stays true c adv s xs = true →
      (∀ g ∈ (calibrator_gestures c adv s xs).flatten,
        g = Gesture.drag_start s.down_start_x s.down_start_y) ∧
      (calibrator_gestures c adv s xs).flatten.length ≤ (if s.dragging then 0 else 1) ∧
      ((calibrator_run c adv s xs).1.dragging = false →
        (calibrator_gestures c adv s xs).flatten = [] ∧ s.dragging = false) := by
  induction xs with
  | nil =>
    intro s _ _
    refine ⟨by simp [calibrator_gestures_nil], by simp [calibrator_gestures_nil], ?_⟩
    intro h
    exact ⟨by simp [calibrator_gestures_nil], h⟩
  | cons x rest ih =>
    intro s hd hst
    obtain ⟨h1, h2⟩ := (calibrator_stays_cons true c adv s x rest).1 hst
    obtain ⟨hg, hdr, hx, hy⟩ := calibrator_tick_inside c adv s x hd h1
    obtain ⟨r1, r2, r3⟩ := ih _ h1 h2
    rw [hx, hy] at r1
    rw [hdr] at r2 r3
    rw [calibrator_gestures_cons, List.flatten_cons, hg]
    have hrun : (calibrator_run c adv s (x :: rest)).1 =
        (calibrator_run c adv (calibrator_tick c adv s x).1 rest).1 := rfl
    rw [hrun]
    cases hsd : s.dragging <;>
      cases hreach : drag_reached c adv s.down_start_x s.down_start_y x <;>
      simp only [hsd, hreach, Bool.not_false, Bool.not_true, Bool.and_true, Bool.and_false,
        Bool.false_and, Bool.true_and, Bool.or_false, Bool.or_true, Bool.false_or, Bool.true_or,
        Bool.false_eq_true, if_false, if_true, List.nil_append, List.cons_append,
        List.length_cons, List.mem_cons] at r2 r3 ⊢
    · exact ⟨r1, r2, fun h => ⟨(r3 h).1, trivial⟩⟩
    · refine ⟨?_, by omega, fun h => absurd (r3 h).2 (by decide)⟩
      rintro g (hg | hg)
      · exact hg
      · exact r1 g hg
    · exact ⟨r1, r2, fun h => absurd (r3 h).2 (by decide)⟩
    · exact ⟨r1, r2, fun h => absurd (r3 h).2 (by decide)⟩

/-- C8 (no tap after drag).  Calibrator, one complete contact: `s0` is Up,
sample `a` takes it Down, the samples `ms` keep it Down, sample `r` takes it Up.
The gesture lines printed by these iterations do not contain both a
`DRAG_START` and a `TAP`. -/
theorem C8_no_drag_and_tap (c : Calib) (adv : AdvancedParams) (s0 : CState) (a : CSample)
    (ms : List CSample) (r : CSample)
    (hup : s0.touch_down = false)
    (hcontact : calibrator_stays true c adv s0 (a :: ms) = true)
    (hrel : (calibrator_tick c adv (calibrator_run c adv s0 (a :: ms)).1 r).1.touch_down = false) :
    ¬ ((∃ px py, Gesture.drag_start px py ∈
          (calibrator_gestures c adv s0 ((a :: ms) ++ [r])).flatten) ∧
       (∃ tx ty t, Gesture.tap tx ty t ∈
          (calibrator_gestures c adv s0 ((a :: ms) ++ [r])).flatten)) := by
  obtain ⟨h1, h2⟩ := (calibrator_stays_cons true c adv s0 a ms).1 hcontact
  obtain ⟨hg, hdr, _, _⟩ := calibrator_tick_press c adv s0 a hup h1
  obtain ⟨e1, _, e3⟩ := calibrator_contact_events c adv ms _ h1 h2
  obtain ⟨st1, _, _⟩ := calibrator_contact_state c adv ms _ h1 h2
  have hrun : (calibrator_run c adv s0 (a :: ms)).1 =
      (calibrator_run c adv (calibrator_tick c adv s0 a).1 ms).1 := rfl
  rw [hrun] at hrel
  have hrelg := calibrator_tick_release c adv _ r st1 hrel
  rw [(calibrator_run_append c adv (a :: ms) [r] s0).2, hrun, calibrator_gestures_cons,
    calibrator_gestures_cons, calibrator_gestures_nil, hg]
  simp only [List.flatten_append, List.flatten_cons, List.flatten_nil, List.append_nil,
    List.mem_append]
  rintro ⟨⟨px, py, hdrag⟩, ⟨tx, ty, t, htap⟩⟩
  -- a TAP can only come from the release iteration, of a contact that is no drag
  have htap_rel : Gesture.tap tx ty t ∈
      (calibrator_tick c adv (calibrator_run c adv (calibrator_tick c adv s0 a).1 ms).1 r).2.gestures := by
    rcases htap with (htap | htap) | htap
    · split_ifs at htap <;> simp at htap
    · have := e1 _ htap
      simp at this
    · exact htap
  rcases hrelg with hnil | ⟨hnd, t', hgt⟩
  · rw [hnil] at htap_rel
    simp at htap_rel
  · obtain ⟨hj, hd0⟩ := e3 hnd
    rw [hdr] at hd0
    rcases hdrag with (hdrag | hdrag) | hdrag
    · rw [hd0] at hdrag
      simp at hdrag
    · rw [hj] at hdrag
      simp at hdrag
    · rw [hgt] at hdrag
      simp at hdrag

/-- Witness of C8: the specification's drag scenario followed by a release within
the tap time; the only gesture line of the contact is the `DRAG_START`. -/
theorem C8_no_drag_and_tap_witness :
    calibrator_gestures {} {} {}
        ([⟨512, 853, 200, 0⟩, ⟨665, 853, 200, 50000000⟩] ++ [⟨665, 853, 0, 100000000⟩])
      = [[], [Gesture.drag_start 100 100], []] ∧
    ¬ ((∃ px py, Gesture.drag_start px py ∈
          (calibrator_gestures {} {} {}
            ([⟨512, 853, 200, 0⟩, ⟨665, 853, 200, 50000000⟩] ++
              [⟨665, 853, 0, 100000000⟩])).flatten) ∧
       (∃ tx ty t, Gesture.tap tx ty t ∈
          (calibrator_gestures {} {} {}
            ([⟨512, 853, 200, 0⟩, ⟨665, 853, 200, 50000000⟩] ++
              [⟨665, 853, 0, 100000000⟩])).flatten)) :=
  ⟨by decide!,
   C8_no_drag_and_tap {} {} {} ⟨512, 853, 200, 0⟩ [⟨665, 853, 200, 50000000⟩]
     ⟨665, 853, 0, 100000000⟩ (by decide) (by decide!) (by decide!)⟩

/-! ### Filter reset and constant input -/

theorem median_of_const (v : List Int) (cst : Int) (hne : v ≠ []) (hall : ∀ y ∈ v, y = cst) :
    median_of v = cst := by
  have hlen : 0 < v.length := List.length_pos.mpr hne
  apply le_antisymm
  · rw [median_of_le_iff v hne]
    have : v.countP (fun y => decide (y ≤ cst)) = v.length := by
      rw [List.countP_eq_length]
      intro y hy
      simp [hall y hy]
    rw [this]
    omega
  · rw [le_median_of_iff v hne]
    have : v.countP (fun y => decide (y < cst)) = 0 := by
      rw [List.countP_eq_zero]
      intro y hy
      simp [hall y hy]
    rw [this]
    omega

theorem push_window_mem (mw : Int) (h : List Int) (e v : Int) (hv : v ∈ push_window mw h e) :
    v ∈ h ∨ v = e := by
  unfold push_window at hv
  have := List.mem_of_mem_drop hv
  simpa using this

theorem delta_clamp_self (d v : Int) (hd : 0 < d) : delta_clamp d v v = v := by
  unfold delta_clamp
  split_ifs <;> omega

theorem axis_in_self (adv : AdvancedParams) (hf : Bool) (v : Int) : axis_in adv hf v v = v := by
  unfold axis_in
  split_ifs with h
  · simp only [Bool.and_eq_true, decide_eq_true_eq] at h
    exact delta_clamp_self _ _ h.1
  · rfl

/-- One axis fed its own constant: the stored value stays the constant and the
history holds nothing else. -/
theorem axis_const (adv : AdvancedParams) (hf : Bool) (hist : List Int) (cst : Int)
    (hall : ∀ y ∈ hist, y = cst) :
    axis_out adv hf cst hist cst = cst ∧ ∀ y ∈ axis_hist adv hf cst hist cst, y = cst := by
  have hh : ∀ y ∈ axis_hist adv hf cst hist cst, y = cst := by
    intro y hy
    unfold axis_hist at hy
    split_ifs at hy
    · rw [axis_in_self] at hy
      rcases push_window_mem _ _ _ _ hy with h | h
      · exact hall y h
      · exact h
    · exact hall y hy
  have hm : axis_med adv hf cst hist cst = cst := by
    unfold axis_med
    split_ifs with hmed
    · simp only [decide_eq_true_eq] at hmed
      have hw : 1 ≤ adv.median_window := by omega
      apply median_of_const _ _ _ hh
      unfold axis_hist
      simp only [hmed, decide_True, if_true]
      exact (push_window_length _ _ _ hw).2
    · exact axis_in_self adv hf cst
  refine ⟨?_, hh⟩
  unfold axis_out
  rw [hm]
  split_ifs
  · rfl
  · exact iir_blend_self _ _
  · rfl

theorem noise_filter_const (adv : AdvancedParams) (f : FilterState) (cx cy : Int)
    (h : ConstInv cx cy f) : ConstInv cx cy (noise_filter adv f cx cy) := by
  obtain ⟨_, hx, hy, hhx, hhy⟩ := h
  rw [noise_filter_eq, hx, hy]
  have ax := axis_const adv f.have_filtered f.hist_x cx hhx
  have ay := axis_const adv f.have_filtered f.hist_y cy hhy
  exact ⟨rfl, ax.1, ay.1, ax.2, ay.2⟩

theorem seeded_filter_const (cx cy : Int) : ConstInv cx cy (seeded_filter cx cy) := by
  refine ⟨rfl, rfl, rfl, ?_, ?_⟩ <;> intro v hv <;> simp [seeded_filter] at hv

theorem axis_first_out (adv : AdvancedParams) (filt v : Int) :
    axis_out adv false filt [] v = v ∧ ∀ y ∈ axis_hist adv false filt [] v, y = v := by
  have hin : axis_in adv false filt v = v := by simp [axis_in]
  have hh : ∀ y ∈ axis_hist adv false filt [] v, y = v := by
    intro y hy
    unfold axis_hist at hy
    split_ifs at hy
    · rw [hin] at hy
      rcases push_window_mem _ _ _ _ hy with h | h
      · simp at h
      · exact h
    · simp at hy
  have hmed : axis_med adv false filt [] v = v := by
    unfold axis_med axis_hist
    by_cases hm : adv.median_window = 3 ∨ adv.median_window = 5
    · have hw : 1 ≤ adv.median_window := by omega
      simp only [hm, decide_True, if_true]
      rw [hin, push_window_nil _ _ hw, median_of_singleton]
    · simp only [hm, decide_False, Bool.false_eq_true, if_false]
      exact hin
  refine ⟨?_, hh⟩
  unfold axis_out
  split_ifs <;> simp_all

/-- The first filter step on a cleared filter stores the mapped input itself. -/
theorem noise_filter_cleared (adv : AdvancedParams) (f : FilterState) (sx sy : Int)
    (hc : FilterCleared f) : ConstInv sx sy (noise_filter adv f sx sy) := by
  obtain ⟨hf, hx, hy⟩ := hc
  rw [noise_filter_eq, hf, hx, hy]
  have ax := axis_first_out adv f.filt_x sx
  have ay := axis_first_out adv f.filt_y sy
  exact ⟨rfl, ax.1, ay.1, ax.2, ay.2⟩

theorem uinputd_emit_positions (s : DState) (ox oy p : Int) (h : s.touch_down = true) :
    position_events (uinputd_emit s ox oy p).2 =
      [UEvent.abs_mt_position_x ox, UEvent.abs_mt_position_y oy, UEvent.abs_x ox,
        UEvent.abs_y oy] := by
  unfold uinputd_emit
  simp only [h, if_true]
  cases s.last_down <;> simp [position_events]

/-- A daemon iteration on a successfully read sample that ends Down reports the
stored filtered position. -/
theorem uinputd_tick_positions (c : Calib) (adv : AdvancedParams) (s : DState) (a : Sample)
    (hv : ¬ (a.raw_x < 0 ∨ a.raw_y < 0))
    (h : (uinputd_tick c adv s a).1.touch_down = true) :
    position_events (uinputd_tick c adv s a).2 =
      [UEvent.abs_mt_position_x (uinputd_tick c adv s a).1.filter.filt_x,
        UEvent.abs_mt_position_y (uinputd_tick c adv s a).1.filter.filt_y,
        UEvent.abs_x (uinputd_tick c adv s a).1.filter.filt_x,
        UEvent.abs_y (uinputd_tick c adv s a).1.filter.filt_y] := by
  unfold uinputd_tick at h ⊢
  simp only [hv, if_false] at h ⊢
  split_ifs at h ⊢ with h1 h2
  · simp_all
  · simp_all
  · rw [(uinputd_emit_fields _ _ _ _).2.2.2]
    apply uinputd_emit_positions
    simpa using h2

theorem uinputd_touch_state_release (adv : AdvancedParams) (s : DState) (p : Int)
    (hd : s.touch_down = true) (h : (uinputd_touch_state adv s p).touch_down = false) :
    (uinputd_touch_state adv s p).filter = filter_reset s.filter := by
  unfold uinputd_touch_state at h ⊢
  simp only [hd] at h ⊢
  split_ifs at h ⊢ <;> simp_all

/-- The daemon iteration that ends a contact leaves the filter cleared. -/
theorem uinputd_tick_release_cleared (c : Calib) (adv : AdvancedParams) (s : DState)
    (a : Sample) (hd : s.touch_down = true)
    (h : (uinputd_tick c adv s a).1.touch_down = false) :
    FilterCleared (uinputd_tick c adv s a).1.filter := by
  unfold uinputd_tick at h ⊢
  simp only at h ⊢
  split_ifs at h ⊢ with h0 h1 h2
  · simp_all
  · simp_all
  · have h2' : (uinputd_touch_state adv
        { s with candidate_x := (uinputd_map c adv a.raw_x a.raw_y).1,
                 candidate_y := (uinputd_map c adv a.raw_x a.raw_y).2,
                 have_candidate := true } (pressure_of a.z1)).touch_down = false := by
      simpa using h2
    show FilterCleared (uinputd_touch_state adv _ _).filter
    rw [uinputd_touch_state_release adv _ _ (by exact hd) h2']
    exact ⟨rfl, rfl, rfl⟩
  · rw [(uinputd_emit_fields _ _ _ _).1] at h
    simp_all

theorem uinputd_stays_cons (b : Bool) (c : Calib) (adv : AdvancedParams) (s : DState)
    (x : Sample) (xs : List Sample) :
    uinputd_stays b c adv s (x :: xs) = true ↔
      ((uinputd_tick c adv s x).1.touch_down = b ∧
        uinputd_stays b c adv (uinputd_tick c adv s x).1 xs = true) := by
  simp [uinputd_stays]

theorem uinputd_stays_run (b : Bool) (c : Calib) (adv : AdvancedParams) (xs : List Sample) :
    ∀ s : DState, s.touch_down = b → uinputd_stays b c adv s xs = true →
      (uinputd_run c adv s xs).1.touch_down = b := by
  induction xs with
  | nil => intro s h _; exact h
  | cons x rest ih =>
    intro s _ hst
    obtain ⟨h1, h2⟩ := (uinputd_stays_cons b c adv s x rest).1 hst
    exact ih _ h1 h2

/-- The first iteration of a daemon contact (Up before, Down after) stores and
reports the mapped position of its own sample, whatever the filter held. -/
theorem uinputd_tick_press (c : Calib) (adv : AdvancedParams) (s : DState) (a : Sample)
    (hup : s.touch_down = false) (h : (uinputd_tick c adv s a).1.touch_down = true) :
    ConstInv (uinputd_map c adv a.raw_x a.raw_y).1 (uinputd_map c adv a.raw_x a.raw_y).2
      (uinputd_tick c adv s a).1.filter ∧
    position_events (uinputd_tick c adv s a).2 =
      [UEvent.abs_mt_position_x (uinputd_map c adv a.raw_x a.raw_y).1,
        UEvent.abs_mt_position_y (uinputd_map c adv a.raw_x a.raw_y).2,
        UEvent.abs_x (uinputd_map c adv a.raw_x a.raw_y).1,
        UEvent.abs_y (uinputd_map c adv a.raw_x a.raw_y).2] := by
  have hv : ¬ (a.raw_x < 0 ∨ a.raw_y < 0) := by
    intro hv
    have : (uinputd_tick c adv s a).1 = s := by simp [uinputd_tick, hv]
    rw [this, hup] at h
    exact Bool.false_ne_true h
  have hpos := uinputd_tick_positions c adv s a hv h
  rcases uinputd_tick_down_cases c adv s a h with ⟨hv', _⟩ | ⟨hdn, _⟩ | ⟨_, hf⟩
  · exact absurd hv' hv
  · rw [hup] at hdn
    exact absurd hdn (by decide)
  · have hc := noise_filter_const adv _ _ _ (seeded_filter_const
      (uinputd_map c adv a.raw_x a.raw_y).1 (uinputd_map c adv a.raw_x a.raw_y).2)
    rw [← hf] at hc
    refine ⟨hc, ?_⟩
    rw [hpos, hc.2.1, hc.2.2.1]

theorem calibrator_stays_up_cleared (c : Calib) (adv : AdvancedParams) (xs : List CSample) :
    ∀ s : CState, s.touch_down = false → FilterCleared s.filter →
      calibrator_stays false c adv s xs = true →
      (calibrator_run c adv s xs).1.touch_down = false ∧
      FilterCleared (calibrator_run c adv s xs).1.filter := by
  induction xs with
  | nil => intro s h hc _; exact ⟨h, hc⟩
  | cons x rest ih =>
    intro s hup hc hst
    obtain ⟨h1, h2⟩ := (calibrator_stays_cons false c adv s x rest).1 hst
    apply ih _ h1 _ h2
    rcases (calibrator_tick_filter c adv s x).2 h1 with ⟨_, hf⟩ | ⟨hd, _⟩
    · rw [hf]
      obtain ⟨a1, a2, a3⟩ := hc
      simp only [a1, Bool.not_false, if_true]
      exact ⟨rfl, a2, a3⟩
    · rw [hup] at hd
      exact absurd hd (by decide)

theorem calibrator_tick_out (c : Calib) (adv : AdvancedParams) (s : CState) (x : CSample) :
    (calibrator_tick c adv s x).2.out_x =
      clamp_val (calibrator_tick c adv s x).1.filter.filt_x 0 (adv.screen_w - 1) ∧
    (calibrator_tick c adv s x).2.out_y =
      clamp_val (calibrator_tick c adv s x).1.filter.filt_y 0 (adv.screen_h - 1) :=
  ⟨rfl, rfl⟩

/-- C9 (reset on release).  Daemon and calibrator, any configuration (the
calibrator's with `screen_w, screen_h ≥ 1`, as its load-time clamp ensures):
from an arbitrary Down state, the releasing iteration leaves both histories
empty and `have_filtered = false`; after any number of further Up iterations,
the iteration that starts the next contact stores and outputs exactly the mapped
position of its own sample (daemon: the position events written; calibrator:
`SX`, `SY`), whatever the earlier state held. -/
theorem C9_reset_on_release (c : Calib) (adv : AdvancedParams)
    (s : DState) (r : Sample) (ups : List Sample) (p : Sample)
    (t : CState) (cr : CSample) (cups : List CSample) (cp : CSample)
    (hw : 1 ≤ adv.screen_w) (hh : 1 ≤ adv.screen_h)
    (hs : s.touch_down = true)
    (hr : (uinputd_tick c adv s r).1.touch_down = false)
    (hups : uinputd_stays false c adv (uinputd_tick c adv s r).1 ups = true)
    (hp : (uinputd_tick c adv
      (uinputd_run c adv (uinputd_tick c adv s r).1 ups).1 p).1.touch_down = true)
    (ht : t.touch_down = true)
    (hcr : (calibrator_tick c adv t cr).1.touch_down = false)
    (hcups : calibrator_stays false c adv (calibrator_tick c adv t cr).1 cups = true)
    (hcp : (calibrator_tick c adv
      (calibrator_run c adv (calibrator_tick c adv t cr).1 cups).1 cp).1.touch_down = true) :
    (FilterCleared (uinputd_tick c adv s r).1.filter ∧
     position_events (uinputd_tick c adv
        (uinputd_run c adv (uinputd_tick c adv s r).1 ups).1 p).2 =
      [UEvent.abs_mt_position_x (uinputd_map c adv p.raw_x p.raw_y).1,
        UEvent.abs_mt_position_y (uinputd_map c adv p.raw_x p.raw_y).2,
        UEvent.abs_x (uinputd_map c adv p.raw_x p.raw_y).1,
        UEvent.abs_y (uinputd_map c adv p.raw_x p.raw_y).2]) ∧
    (FilterCleared (calibrator_tick c adv t cr).1.filter ∧
     (calibrator_tick c adv
        (calibrator_run c adv (calibrator_tick c adv t cr).1 cups).1 cp).2.out_x =
      (calibrator_map c adv cp.raw_x cp.raw_y).1 ∧
     (calibrator_tick c adv
        (calibrator_run c adv (calibrator_tick c adv t cr).1 cups).1 cp).2.out_y =
      (calibrator_map c adv cp.raw_x cp.raw_y).2) := by
  have hD := uinputd_tick_release_cleared c adv s r hs hr
  have hSup := uinputd_stays_run false c adv ups _ hr hups
  have hpress := uinputd_tick_press c adv _ p hSup hp
  have hC : FilterCleared (calibrator_tick c adv t cr).1.filter := by
    rcases (calibrator_tick_filter c adv t cr).2 hcr with ⟨hu, _⟩ | ⟨_, hf⟩
    · rw [ht] at hu
      exact absurd hu (by decide)
    · rw [hf]
      exact ⟨rfl, rfl, rfl⟩
  obtain ⟨_, hTc⟩ := calibrator_stays_up_cleared c adv cups _ hcr hC hcups
  have hfilt := (calibrator_tick_filter c adv _ cp).1 hcp
  have hconst := noise_filter_cleared adv _ (calibrator_map c adv cp.raw_x cp.raw_y).1
    (calibrator_map c adv cp.raw_x cp.raw_y).2 hTc
  rw [← hfilt] at hconst
  obtain ⟨⟨bx1, bx2⟩, ⟨by1, by2⟩⟩ := calibrator_map_bounds c adv cp.raw_x cp.raw_y hw hh
  have hout := calibrator_tick_out c adv
    (calibrator_run c adv (calibrator_tick c adv t cr).1 cups).1 cp
  refine ⟨⟨hD, hpress.2⟩, hC, ?_, ?_⟩
  · rw [hout.1, hconst.2.1]
    exact clamp_val_id _ _ _ bx1 bx2
  · rw [hout.2, hconst.2.2.1]
    exact clamp_val_id _ _ _ by1 by2

/-- Witness of C9 on the default configuration.  Daemon: a contact at raw
`(2000,2000)` is released by two samples at pressure 0, an idle sample follows,
and a new contact starts at raw `(3000,1000)`.  Calibrator: a contact at raw
`(2000,2000)`, release, an idle sample, a new contact at raw `(3000,1000)`. -/
theorem C9_reset_on_release_witness :
    (FilterCleared (uinputd_tick {} {}
        (uinputd_run {} {} {} [⟨2000, 2000, 200⟩, ⟨2000, 2000, 200⟩, ⟨2000, 2000, 0⟩]).1
        ⟨2000, 2000, 0⟩).1.filter ∧
     position_events (uinputd_tick {} {}
        (uinputd_run {} {} (uinputd_tick {} {}
          (uinputd_run {} {} {} [⟨2000, 2000, 200⟩, ⟨2000, 2000, 200⟩, ⟨2000, 2000, 0⟩]).1
          ⟨2000, 2000, 0⟩).1 [⟨100, 100, 0⟩, ⟨3000, 1000, 200⟩]).1 ⟨3000, 1000, 200⟩).2 =
      [UEvent.abs_mt_position_x (uinputd_map {} {} 3000 1000).1,
        UEvent.abs_mt_position_y (uinputd_map {} {} 3000 1000).2,
        UEvent.abs_x (uinputd_map {} {} 3000 1000).1,
        UEvent.abs_y (uinputd_map {} {} 3000 1000).2]) ∧
    (FilterCleared (calibrator_tick {} {}
        (calibrator_run {} {} {} [⟨2000, 2000, 200, 0⟩]).1 ⟨2000, 2000, 0, 1000000000⟩).1.filter ∧
     (calibrator_tick {} {}
        (calibrator_run {} {} (calibrator_tick {} {}
          (calibrator_run {} {} {} [⟨2000, 2000, 200, 0⟩]).1 ⟨2000, 2000, 0, 1000000000⟩).1
          [⟨0, 0, 0, 2000000000⟩]).1 ⟨3000, 1000, 200, 3000000000⟩).2.out_x =
      (calibrator_map {} {} 3000 1000).1 ∧
     (calibrator_tick {} {}
        (calibrator_run {} {} (calibrator_tick {} {}
          (calibrator_run {} {} {} [⟨2000, 2000, 200, 0⟩]).1 ⟨2000, 2000, 0, 1000000000⟩).1
          [⟨0, 0, 0, 2000000000⟩]).1 ⟨3000, 1000, 200, 3000000000⟩).2.out_y =
      (calibrator_map {} {} 3000 1000).2) :=
  C9_reset_on_release {} {}
    (uinputd_run {} {} {} [⟨2000, 2000, 200⟩, ⟨2000, 2000, 200⟩, ⟨2000, 2000, 0⟩]).1
    ⟨2000, 2000, 0⟩ [⟨100, 100, 0⟩, ⟨3000, 1000, 200⟩] ⟨3000, 1000, 200⟩
    (calibrator_run {} {} {} [⟨2000, 2000, 200, 0⟩]).1 ⟨2000, 2000, 0, 1000000000⟩
    [⟨0, 0, 0, 2000000000⟩] ⟨3000, 1000, 200, 3000000000⟩
    (by decide) (by decide) (by decide!) (by decide!) (by decide!) (by decide!)
    (by decide!) (by decide!) (by decide!) (by decide!)

theorem uinputd_const_run (c : Calib) (adv : AdvancedParams) (cx cy : Int) (xs : List Sample) :
    ∀ s : DState, (s.touch_down = true → ConstInv cx cy s.filter) →
      (∀ x ∈ xs, 0 ≤ x.raw_x ∧ 0 ≤ x.raw_y) →
      (∀ x ∈ xs, uinputd_map c adv x.raw_x x.raw_y = (cx, cy)) →
      uinputd_stays true c adv s xs = true →
      ∀ evs ∈ (uinputd_run c adv s xs).2,
        position_events evs =
          [UEvent.abs_mt_position_x cx, UEvent.abs_mt_position_y cy, UEvent.abs_x cx,
            UEvent.abs_y cy] := by
  induction xs with
  | nil => intro s _ _ _ _ evs hev; simp [uinputd_run] at hev
  | cons x rest ih =>
    intro s hinv hvalid hmap hst evs hev
    obtain ⟨h1, h2⟩ := (uinputd_stays_cons true c adv s x rest).1 hst
    have hv : ¬ (x.raw_x < 0 ∨ x.raw_y < 0) := by
      have := hvalid x (List.mem_cons_self _ _)
      omega
    have hm := hmap x (List.mem_cons_self _ _)
    have hconst : ConstInv cx cy (uinputd_tick c adv s x).1.filter := by
      rcases uinputd_tick_down_cases c adv s x h1 with ⟨hv', _⟩ | ⟨hdn, hf⟩ | ⟨_, hf⟩
      · exact absurd hv' hv
      · rw [hf, hm]
        exact noise_filter_const adv _ _ _ (hinv hdn)
      · rw [hf, hm]
        exact noise_filter_const adv _ _ _ (seeded_filter_const cx cy)
    simp only [uinputd_run, List.mem_cons] at hev
    rcases hev with hev | hev
    · rw [hev, uinputd_tick_positions c adv s x hv h1, hconst.2.1, hconst.2.2.1]
    · exact ih _ (fun _ => hconst) (fun y hy => hvalid y (List.mem_cons_of_mem _ hy))
        (fun y hy => hmap y (List.mem_cons_of_mem _ hy)) h2 evs hev

theorem calibrator_const_run (c : Calib) (adv : AdvancedParams) (kx ky : Int)
    (hw : 1 ≤ adv.screen_w) (hh : 1 ≤ adv.screen_h) (xs : List CSample) :
    ∀ s : CState,
      ((s.touch_down = true → ConstInv kx ky s.filter) ∧
        (s.touch_down = false → FilterCleared s.filter)) →
      (∀ x ∈ xs, calibrator_map c adv x.raw_x x.raw_y = (kx, ky)) →
      calibrator_stays true c adv s xs = true →
      ∀ o ∈ (calibrator_run c adv s xs).2, o.out_x = kx ∧ o.out_y = ky := by
  induction xs with
  | nil => intro s _ _ _ o ho; simp [calibrator_run] at ho
  | cons x rest ih =>
    intro s hinv hmap hst o ho
    obtain ⟨h1, h2⟩ := (calibrator_stays_cons true c adv s x rest).1 hst
    have hm := hmap x (List.mem_cons_self _ _)
    have hf := (calibrator_tick_filter c adv s x).1 h1
    rw [hm] at hf
    have hconst : ConstInv kx ky (calibrator_tick c adv s x).1.filter := by
      rw [hf]
      cases htd : s.touch_down
      · exact noise_filter_cleared adv _ _ _ (hinv.2 htd)
      · exact noise_filter_const adv _ _ _ (hinv.1 htd)
    simp only [calibrator_run, List.mem_cons] at ho
    rcases ho with ho | ho
    · obtain ⟨⟨bx1, bx2⟩, ⟨by1, by2⟩⟩ := calibrator_map_bounds c adv x.raw_x x.raw_y hw hh
      rw [hm] at bx1 bx2 by1 by2
      have hout := calibrator_tick_out c adv s x
      rw [ho, hout.1, hout.2, hconst.2.1, hconst.2.2.1]
      exact ⟨clamp_val_id _ _ _ bx1 bx2, clamp_val_id _ _ _ by1 by2⟩
    · refine ih _ ⟨fun _ => hconst, fun hup => ?_⟩
        (fun y hy => hmap y (List.mem_cons_of_mem _ hy)) h2 o ho
      rw [h1] at hup
      exact absurd hup (by decide)

/-- C10 (constant input).  For every configuration (any `median_window`, in
particular 3 and 5, any `max_delta_px`, any `iir_alpha`): when every sample of a
contact maps to the same position, every iteration of the contact, from the
first on, outputs exactly that position.  Daemon: `s0` Up, the successfully read
samples `xs` all map to `(cx, cy)` and each ends Down; every iteration's position
events are `(cx, cy)`.  Calibrator (with `screen_w, screen_h ≥ 1`): `t0` Up with
the filter cleared, the samples `cxs` all map to `(kx, ky)` and each ends Down;
every iteration prints `SX = kx`, `SY = ky`. -/
theorem C10_constant_input (c : Calib) (adv : AdvancedParams)
    (s0 : DState) (xs : List Sample) (cx cy : Int)
    (t0 : CState) (cxs : List CSample) (kx ky : Int)
    (hw : 1 ≤ adv.screen_w) (hh : 1 ≤ adv.screen_h)
    (hup : s0.touch_down = false)
    (hvalid : ∀ x ∈ xs, 0 ≤ x.raw_x ∧ 0 ≤ x.raw_y)
    (hmap : ∀ x ∈ xs, uinputd_map c adv x.raw_x x.raw_y = (cx, cy))
    (hcontact : uinputd_stays true c adv s0 xs = true)
    (htup : t0.touch_down = false ∧ FilterCleared t0.filter)
    (hcmap : ∀ x ∈ cxs, calibrator_map c adv x.raw_x x.raw_y = (kx, ky))
    (hccontact : calibrator_stays true c adv t0 cxs = true) :
    (∀ evs ∈ (uinputd_run c adv s0 xs).2,
      position_events evs =
        [UEvent.abs_mt_position_x cx, UEvent.abs_mt_position_y cy, UEvent.abs_x cx,
          UEvent.abs_y cy]) ∧
    (∀ o ∈ (calibrator_run c adv t0 cxs).2, o.out_x = kx ∧ o.out_y = ky) := by
  refine ⟨uinputd_const_run c adv cx cy xs s0 (fun h => ?_) hvalid hmap hcontact,
    calibrator_const_run c adv kx ky hw hh cxs t0 ⟨fun h => ?_, fun _ => htup.2⟩ hcmap hccontact⟩
  · rw [hup] at h
    exact absurd h (by decide)
  · rw [htup.1] at h
    exact absurd h (by decide)

/-- Witness of C10: median window 3, `iir_alpha = 1/5`, `max_delta_px = 5`; four
iterations of a contact at raw `(2000,2000)`, which the daemon maps to
`(390,233)` and the calibrator to `(391,234)`. -/
theorem C10_constant_input_witness :
    (∀ evs ∈ (uinputd_run {} { max_delta_px := 5 }
        (uinputd_run {} { max_delta_px := 5 } {} [⟨2000, 2000, 200⟩]).1
        [⟨2000, 2000, 200⟩, ⟨2000, 2000, 200⟩, ⟨2000, 2000, 200⟩, ⟨2000, 2000, 200⟩]).2,
      position_events evs =
        [UEvent.abs_mt_position_x 390, UEvent.abs_mt_position_y 233, UEvent.abs_x 390,
          UEvent.abs_y 233]) ∧
    (∀ o ∈ (calibrator_run {} { max_delta_px := 5 } {}
        [⟨2000, 2000, 200, 0⟩, ⟨2000, 2000, 200, 100000000⟩, ⟨2000, 2000, 200, 200000000⟩,
          ⟨2000, 2000, 200, 300000000⟩]).2, o.out_x = 391 ∧ o.out_y = 234) :=
  C10_constant_input {} { max_delta_px := 5 }
    (uinputd_run {} { max_delta_px := 5 } {} [⟨2000, 2000, 200⟩]).1
    [⟨2000, 2000, 200⟩, ⟨2000, 2000, 200⟩, ⟨2000, 2000, 200⟩, ⟨2000, 2000, 200⟩] 390 233
    {} [⟨2000, 2000, 200, 0⟩, ⟨2000, 2000, 200, 100000000⟩, ⟨2000, 2000, 200, 200000000⟩,
      ⟨2000, 2000, 200, 300000000⟩] 391 234
    (by decide) (by decide) (by decide!) (by decide!) (by decide!) (by decide!)
    ⟨by decide, by decide, by decide, by decide⟩ (by decide!) (by decide!)

/-! ### Swap, sanitising, deadzones, rescale -/

/-- C11 (swap composition).  For every configuration and every raw pair,
mapping with `swap_xy = 1` applied to `(rx, ry)` equals mapping with
`swap_xy = 0` applied to `(ry, rx)`, all other fields (invert flags included)
unchanged: for the daemon's mapping stage and for `scale_raw_to_screen` of
`advanced_gui`. -/
theorem C11_swap_composition (c : Calib) (adv : AdvancedParams) (cfg : Config)
    (invert_x invert_y rx ry : Int) :
    uinputd_map { c with swap_xy := 1 } adv rx ry = uinputd_map { c with swap_xy := 0 } adv ry rx ∧
    scale_raw_to_screen rx ry cfg invert_x invert_y 1 =
      scale_raw_to_screen ry rx cfg invert_x invert_y 0 := by
  constructor
  · simp [uinputd_map, swap_invert]
  · simp [scale_raw_to_screen]

/-- C13 (sanitize_adv).  For every `AdvancedParams` value `a`, `sanitize_adv a`
has `1 ≤ screen_w ≤ 4096`, `1 ≤ screen_h ≤ 4096`, `1000 ≤ poll_us ≤ 1000000`,
`median_window ∈ {0,3,5}`, `release_threshold ≤ press_threshold`, with
`press_threshold` unchanged and `release_threshold` lowered to
`press_threshold` when it was larger and unchanged otherwise. -/
theorem C13_sanitize_adv (a : AdvancedParams) :
    (1 ≤ (sanitize_adv a).screen_w ∧ (sanitize_adv a).screen_w ≤ 4096) ∧
    (1 ≤ (sanitize_adv a).screen_h ∧ (sanitize_adv a).screen_h ≤ 4096) ∧
    (1000 ≤ (sanitize_adv a).poll_us ∧ (sanitize_adv a).poll_us ≤ 1000000) ∧
    ((sanitize_adv a).median_window = 0 ∨ (sanitize_adv a).median_window = 3 ∨
      (sanitize_adv a).median_window = 5) ∧
    (sanitize_adv a).release_threshold ≤ (sanitize_adv a).press_threshold ∧
    (sanitize_adv a).press_threshold = a.press_threshold ∧
    (a.release_threshold > a.press_threshold →
      (sanitize_adv a).release_threshold = a.press_threshold) ∧
    (¬ a.release_threshold > a.press_threshold →
      (sanitize_adv a).release_threshold = a.release_threshold) := by
  have h1 := clamp_val_bounds a.screen_w 1 4096 (by decide)
  have h2 := clamp_val_bounds a.screen_h 1 4096 (by decide)
  have h3 := clamp_val_bounds a.poll_us 1000 1000000 (by decide)
  refine ⟨h1, h2, h3, ?_, ?_, rfl, ?_, ?_⟩
  · simp only [sanitize_adv]
    split_ifs with h
    · exact h
    · right; left; rfl
  · simp only [sanitize_adv]
    split_ifs <;> omega
  · intro h
    simp only [sanitize_adv, h, if_true]
  · intro h
    simp only [sanitize_adv, h, if_false]

theorem sanitize_adv_alpha (a : AdvancedParams) :
    0 ≤ (sanitize_adv a).iir_alpha ∧ (sanitize_adv a).iir_alpha ≤ 1 := by
  simp only [sanitize_adv, clamp_valf]
  split_ifs <;> constructor <;> linarith

theorem scale_deadzone_margins (s : Int) (scale : ℚ) (offset dim near far : Int)
    (hn : 0 ≤ near) (hf : 0 ≤ far) (hsum : near + far ≤ dim - 1) :
    near ≤ scale_deadzone s scale offset dim near far ∧
      scale_deadzone s scale offset dim near far ≤ dim - 1 - far := by
  have h1 : clamp_val near 0 (dim - 1) = near := clamp_val_id _ _ _ hn (by omega)
  have h2 : clamp_val (dim - 1 - far) 0 (dim - 1) = dim - 1 - far :=
    clamp_val_id _ _ _ (by omega) (by omega)
  unfold scale_deadzone
  simp only [h1, h2]
  have h3 : ¬ (dim - 1 - far < near) := by omega
  rw [if_neg h3]
  exact clamp_val_bounds _ _ _ (by omega)

/-- Counterexample to C16 as stated: default 800×480 screen with
`deadzone_left = deadzone_right = 500` (both non-negative); raw `(0,0)` maps to
`sx = 500`, which is not `≤ screen_w - 1 - deadzone_right = 299`. -/
theorem C16_counterexample :
    (1 : Int) ≤ ({ deadzone_left := 500, deadzone_right := 500 } : AdvancedParams).screen_w ∧
    (0 : Int) ≤ ({ deadzone_left := 500, deadzone_right := 500 } : AdvancedParams).deadzone_left ∧
    (0 : Int) ≤ ({ deadzone_left := 500, deadzone_right := 500 } : AdvancedParams).deadzone_right ∧
    (uinputd_map {} { deadzone_left := 500, deadzone_right := 500 } 0 0).1 = 500 ∧
    ¬ ((500 : Int) ≤ (uinputd_map {} { deadzone_left := 500, deadzone_right := 500 } 0 0).1 ∧
       (uinputd_map {} { deadzone_left := 500, deadzone_right := 500 } 0 0).1
         ≤ (800 : Int) - 1 - 500) := by
  decide!

/-- C16 (deadzones), amended.  For every configuration with `screen_w ≥ 1`,
`screen_h ≥ 1`, non-negative deadzones and non-overlapping margins
(`deadzone_left + deadzone_right ≤ screen_w - 1`,
`deadzone_top + deadzone_bottom ≤ screen_h - 1`), the mapped coordinate of the
daemon and of the calibrator satisfies `deadzone_left ≤ sx ≤ screen_w - 1 -
deadzone_right` and `deadzone_top ≤ sy ≤ screen_h - 1 - deadzone_bottom`. -/
theorem C16_deadzone_margins (c : Calib) (adv : AdvancedParams) (raw_x raw_y : Int)
    (hl : 0 ≤ adv.deadzone_left) (hr : 0 ≤ adv.deadzone_right)
    (ht : 0 ≤ adv.deadzone_top) (hb : 0 ≤ adv.deadzone_bottom)
    (hx : adv.deadzone_left + adv.deadzone_right ≤ adv.screen_w - 1)
    (hy : adv.deadzone_top + adv.deadzone_bottom ≤ adv.screen_h - 1) :
    ((adv.deadzone_left ≤ (uinputd_map c adv raw_x raw_y).1 ∧
        (uinputd_map c adv raw_x raw_y).1 ≤ adv.screen_w - 1 - adv.deadzone_right) ∧
     (adv.deadzone_top ≤ (uinputd_map c adv raw_x raw_y).2 ∧
        (uinputd_map c adv raw_x raw_y).2 ≤ adv.screen_h - 1 - adv.deadzone_bottom)) ∧
    ((adv.deadzone_left ≤ (calibrator_map c adv raw_x raw_y).1 ∧
        (calibrator_map c adv raw_x raw_y).1 ≤ adv.screen_w - 1 - adv.deadzone_right) ∧
     (adv.deadzone_top ≤ (calibrator_map c adv raw_x raw_y).2 ∧
        (calibrator_map c adv raw_x raw_y).2 ≤ adv.screen_h - 1 - adv.deadzone_bottom)) := by
  unfold uinputd_map calibrator_map
  exact ⟨⟨scale_deadzone_margins _ _ _ _ _ _ hl hr hx, scale_deadzone_margins _ _ _ _ _ _ ht hb hy⟩,
    ⟨scale_deadzone_margins _ _ _ _ _ _ hl hr hx, scale_deadzone_margins _ _ _ _ _ _ ht hb hy⟩⟩

/-- Witness of the amended C16: 800×480 screen, deadzones 10/20/5/15, raw
`(0, 4095)`. -/
theorem C16_deadzone_margins_witness :
    (((10 : Int) ≤ (uinputd_map {}
          { deadzone_left := 10, deadzone_right := 20, deadzone_top := 5, deadzone_bottom := 15 }
          0 4095).1 ∧
        (uinputd_map {}
          { deadzone_left := 10, deadzone_right := 20, deadzone_top := 5, deadzone_bottom := 15 }
          0 4095).1 ≤ (800 : Int) - 1 - 20) ∧
     ((5 : Int) ≤ (uinputd_map {}
          { deadzone_left := 10, deadzone_right := 20, deadzone_top := 5, deadzone_bottom := 15 }
          0 4095).2 ∧
        (uinputd_map {}
          { deadzone_left := 10, deadzone_right := 20, deadzone_top := 5, deadzone_bottom := 15 }
          0 4095).2 ≤ (480 : Int) - 1 - 15)) ∧
    (((10 : Int) ≤ (calibrator_map {}
          { deadzone_left := 10, deadzone_right := 20, deadzone_top := 5, deadzone_bottom := 15 }
          0 4095).1 ∧
        (calibrator_map {}
          { deadzone_left := 10, deadzone_right := 20, deadzone_top := 5, deadzone_bottom := 15 }
          0 4095).1 ≤ (800 : Int) - 1 - 20) ∧
     ((5 : Int) ≤ (calibrator_map {}
          { deadzone_left := 10, deadzone_right := 20, deadzone_top := 5, deadzone_bottom := 15 }
          0 4095).2 ∧
        (calibrator_map {}
          { deadzone_left := 10, deadzone_right := 20, deadzone_top := 5, deadzone_bottom := 15 }
          0 4095).2 ≤ (480 : Int) - 1 - 15)) :=
  C16_deadzone_margins {}
    { deadzone_left := 10, deadzone_right := 20, deadzone_top := 5, deadzone_bottom := 15 }
    0 4095 (by decide) (by decide) (by decide) (by decide) (by decide) (by decide)

/-- C20 (guarded division).  For every configuration whatsoever (also with
`max_x ≤ min_x` or `max_y ≤ min_y`) and every raw sample, the divisors
`max(1, max - min)` of the daemon's rescale are `≥ 1`, so neither division is a
division by zero: the checked mapping always returns a value, the one
`uinputd_map` computes. -/
theorem C20_rescale_divisor_positive (c : Calib) (adv : AdvancedParams) (raw_x raw_y : Int) :
    1 ≤ max 1 (c.max_x - c.min_x) ∧ 1 ≤ max 1 (c.max_y - c.min_y) ∧
    uinputd_map_checked c adv raw_x raw_y = some (uinputd_map c adv raw_x raw_y) := by
  have hx : max 1 (c.max_x - c.min_x) ≠ 0 := by
    have := le_max_left 1 (c.max_x - c.min_x); omega
  have hy : max 1 (c.max_y - c.min_y) ≠ 0 := by
    have := le_max_left 1 (c.max_y - c.min_y); omega
  refine ⟨le_max_left _ _, le_max_left _ _, ?_⟩
  simp only [uinputd_map_checked, c_div, hx, hy, if_false]
  rfl

/-! ### Hysteresis under constant pressure -/

/-- If one touch state is never left on the inputs of a run, the run has at most
one transition, and none when it starts in that state. -/
theorem transitions_absorbing {σ ι : Type} (step : σ → ι → σ) (down : σ → Bool) (b : Bool)
    (xs : List ι) (habs : ∀ s, ∀ x ∈ xs, down s = b → down (step s x) = b) :
    ∀ s : σ, (down s = b → transitions (down s) (downs_of step down s xs) = 0) ∧
      transitions (down s) (downs_of step down s xs) ≤ 1 := by
  induction xs with
  | nil => intro s; simp [downs_of, transitions]
  | cons x rest ih =>
    intro s
    have ih' := ih (fun s y hy => habs s y (List.mem_cons_of_mem _ hy)) (step s x)
    have hx := habs s x (List.mem_cons_self _ _)
    simp only [downs_of, transitions]
    constructor
    · intro hb
      have h1 := hx hb
      rw [h1, hb, if_pos rfl, zero_add]
      rw [h1] at ih'
      exact ih'.1 rfl
    · by_cases hsame : down (step s x) = down s
      · rw [if_pos hsame, zero_add]
        exact ih'.2
      · rw [if_neg hsame]
        have hb : down (step s x) = b := by
          cases h1 : down (step s x) <;> cases h2 : down s <;> cases b <;> simp_all
        have := ih'.1 hb
        omega

theorem uinputd_tick_invalid (c : Calib) (adv : AdvancedParams) (s : DState) (a : Sample)
    (hv : a.raw_x < 0 ∨ a.raw_y < 0) : (uinputd_tick c adv s a).1 = s := by
  simp [uinputd_tick, hv]

/-- With `release_threshold < pressure` the daemon never leaves Down. -/
theorem uinputd_down_absorbing (c : Calib) (adv : AdvancedParams) (s : DState) (a : Sample)
    (hthr : 0 < adv.press_threshold) (hp : adv.release_threshold < pressure_of a.z1)
    (hd : s.touch_down = true) : (uinputd_tick c adv s a).1.touch_down = true := by
  by_cases hv : a.raw_x < 0 ∨ a.raw_y < 0
  · rw [uinputd_tick_invalid c adv s a hv]; exact hd
  · have h := (uinputd_tick_down c adv s a hthr hd (by omega)).1
    cases hres : (uinputd_tick c adv s a).1.touch_down
    · have := (h.1 hres).1
      omega
    · rfl

/-- With `pressure < press_threshold` the daemon never leaves Up. -/
theorem uinputd_up_absorbing (c : Calib) (adv : AdvancedParams) (s : DState) (a : Sample)
    (hthr : 0 < adv.press_threshold) (hp : pressure_of a.z1 < adv.press_threshold)
    (hu : s.touch_down = false) : (uinputd_tick c adv s a).1.touch_down = false := by
  by_cases hv : a.raw_x < 0 ∨ a.raw_y < 0
  · rw [uinputd_tick_invalid c adv s a hv]; exact hu
  · have h := (uinputd_tick_up c adv s a hthr hu (by omega)).1
    cases hres : (uinputd_tick c adv s a).1.touch_down
    · rfl
    · have := (h.1 hres).1
      omega

theorem calibrator_down_absorbing (c : Calib) (adv : AdvancedParams) (s : CState) (a : CSample)
    (hthr : 0 < adv.press_threshold) (hp : adv.release_threshold < pressure_of a.z1)
    (hd : s.touch_down = true) : (calibrator_tick c adv s a).1.touch_down = true := by
  rw [calibrator_tick_touch_down]
  have hn : ¬ pressure_of a.z1 ≤ adv.release_threshold := by omega
  simp [calibrator_touch_state, hthr, hd, hn]

theorem calibrator_up_absorbing (c : Calib) (adv : AdvancedParams) (s : CState) (a : CSample)
    (hthr : 0 < adv.press_threshold) (hp : pressure_of a.z1 < adv.press_threshold)
    (hu : s.touch_down = false) : (calibrator_tick c adv s a).1.touch_down = false := by
  rw [calibrator_tick_touch_down]
  have hn : ¬ pressure_of a.z1 ≥ adv.press_threshold := by omega
  simp [calibrator_touch_state, hthr, hu, hn]

/-- Counterexample to C17 as stated: `press_threshold = release_threshold = 100`
(so `release_threshold ≤ press_threshold`, `press_threshold > 0`) and the
constant pressure 100.  From the initial state the daemon goes Up, Down, Down,
Up, Up, Down over six samples (three transitions) and the calibrator Down, Up,
Down over three samples (three transitions). -/
theorem C17_counterexample :
    ({ press_threshold := 100, release_threshold := 100 } : AdvancedParams).release_threshold
      ≤ ({ press_threshold := 100, release_threshold := 100 } : AdvancedParams).press_threshold ∧
    0 < ({ press_threshold := 100, release_threshold := 100 } : AdvancedParams).press_threshold ∧
    uinputd_downs {} { press_threshold := 100, release_threshold := 100 } {}
        [⟨2000, 2000, 100⟩, ⟨2000, 2000, 100⟩, ⟨2000, 2000, 100⟩, ⟨2000, 2000, 100⟩,
          ⟨2000, 2000, 100⟩, ⟨2000, 2000, 100⟩]
      = [false, true, true, false, false, true] ∧
    ¬ (transitions false
        (uinputd_downs {} { press_threshold := 100, release_threshold := 100 } {}
          [⟨2000, 2000, 100⟩, ⟨2000, 2000, 100⟩, ⟨2000, 2000, 100⟩, ⟨2000, 2000, 100⟩,
            ⟨2000, 2000, 100⟩, ⟨2000, 2000, 100⟩]) ≤ 1) ∧
    calibrator_downs {} { press_threshold := 100, release_threshold := 100 } {}
        [⟨2000, 2000, 100, 0⟩, ⟨2000, 2000, 100, 1⟩, ⟨2000, 2000, 100, 2⟩]
      = [true, false, true] ∧
    ¬ (transitions false
        (calibrator_downs {} { press_threshold := 100, release_threshold := 100 } {}
          [⟨2000, 2000, 100, 0⟩, ⟨2000, 2000, 100, 1⟩, ⟨2000, 2000, 100, 2⟩]) ≤ 1) := by
  decide!

/-- C17 (hysteresis), amended.  For every configuration with
`release_threshold < press_threshold` (strictly) and `press_threshold > 0`, a
stream of samples whose pressure reading is constant causes at most one
touch-state transition, from any starting state, in the daemon and in the
calibrator. -/
theorem C17_constant_pressure_one_transition (c : Calib) (adv : AdvancedParams) (z : Int)
    (s : DState) (xs : List Sample) (t : CState) (cxs : List CSample)
    (hthr : 0 < adv.press_threshold) (hhyst : adv.release_threshold < adv.press_threshold)
    (hconst : ∀ x ∈ xs, x.z1 = z) (hcconst : ∀ x ∈ cxs, x.z1 = z) :
    transitions s.touch_down (uinputd_downs c adv s xs) ≤ 1 ∧
    transitions t.touch_down (calibrator_downs c adv t cxs) ≤ 1 := by
  by_cases hp : adv.press_threshold ≤ pressure_of z
  · constructor
    · refine (transitions_absorbing _ DState.touch_down true xs (fun s x hx hd => ?_) s).2
      exact uinputd_down_absorbing c adv s x hthr (by rw [hconst x hx]; omega) hd
    · refine (transitions_absorbing _ CState.touch_down true cxs (fun s x hx hd => ?_) t).2
      exact calibrator_down_absorbing c adv s x hthr (by rw [hcconst x hx]; omega) hd
  · constructor
    · refine (transitions_absorbing _ DState.touch_down false xs (fun s x hx hd => ?_) s).2
      exact uinputd_up_absorbing c adv s x hthr (by rw [hconst x hx]; omega) hd
    · refine (transitions_absorbing _ CState.touch_down false cxs (fun s x hx hd => ?_) t).2
      exact calibrator_up_absorbing c adv s x hthr (by rw [hcconst x hx]; omega) hd

/-- Witness of the amended C17: default thresholds 120/80 and the constant
pressure 200: the daemon and the calibrator each go Down once and stay there. -/
theorem C17_constant_pressure_one_transition_witness :
    transitions ({} : DState).touch_down
        (uinputd_downs {} {} {} [⟨2000, 2000, 200⟩, ⟨2000, 2000, 200⟩, ⟨2000, 2000, 200⟩]) ≤ 1 ∧
    transitions ({} : CState).touch_down
        (calibrator_downs {} {} {}
          [⟨2000, 2000, 200, 0⟩, ⟨2000, 2000, 200, 1⟩, ⟨2000, 2000, 200, 2⟩]) ≤ 1 :=
  C17_constant_pressure_one_transition {} {} 200 {}
    [⟨2000, 2000, 200⟩, ⟨2000, 2000, 200⟩, ⟨2000, 2000, 200⟩] {}
    [⟨2000, 2000, 200, 0⟩, ⟨2000, 2000, 200, 1⟩, ⟨2000, 2000, 200, 2⟩]
    (by decide) (by decide) (by decide) (by decide)

theorem sanitize_adv_screen_alpha (a : AdvancedParams) :
    1 ≤ (sanitize_adv a).screen_w ∧ 1 ≤ (sanitize_adv a).screen_h ∧
      (sanitize_adv a).iir_alpha ≤ 1 :=
  ⟨(clamp_val_bounds a.screen_w 1 4096 (by decide)).1,
   (clamp_val_bounds a.screen_h 1 4096 (by decide)).1, (sanitize_adv_alpha a).2⟩

/-! ### Emitted positions stay on the screen -/

theorem median_of_bounds (v : List Int) (lo hi : Int) (hne : v ≠ [])
    (hall : ∀ y ∈ v, lo ≤ y ∧ y ≤ hi) : lo ≤ median_of v ∧ median_of v ≤ hi := by
  have hlen : 0 < v.length := List.length_pos.mpr hne
  constructor
  · rw [le_median_of_iff v hne]
    have : v.countP (fun y => decide (y < lo)) = 0 := by
      rw [List.countP_eq_zero]
      intro y hy
      have := (hall y hy).1
      simp; omega
    rw [this]
    omega
  · rw [median_of_le_iff v hne]
    have : v.countP (fun y => decide (y ≤ hi)) = v.length := by
      rw [List.countP_eq_length]
      intro y hy
      simp [(hall y hy).2]
    rw [this]
    omega

theorem delta_clamp_between (d filt v lo hi : Int) (hd : 0 < d)
    (hf : lo ≤ filt ∧ filt ≤ hi) (hv : lo ≤ v ∧ v ≤ hi) :
    lo ≤ delta_clamp d filt v ∧ delta_clamp d filt v ≤ hi := by
  unfold delta_clamp
  split_ifs <;> omega

/-- One filter step on one axis keeps everything inside an interval that
contains the stored value, the history and the input. -/
theorem axis_range (adv : AdvancedParams) (filt : Int) (hist : List Int) (v lo hi : Int)
    (ha : adv.iir_alpha ≤ 1)
    (hf : lo ≤ filt ∧ filt ≤ hi) (hh : ∀ y ∈ hist, lo ≤ y ∧ y ≤ hi) (hv : lo ≤ v ∧ v ≤ hi) :
    (lo ≤ axis_out adv true filt hist v ∧ axis_out adv true filt hist v ≤ hi) ∧
    ∀ y ∈ axis_hist adv true filt hist v, lo ≤ y ∧ y ≤ hi := by
  have hin : lo ≤ axis_in adv true filt v ∧ axis_in adv true filt v ≤ hi := by
    unfold axis_in
    split_ifs with h
    · simp only [Bool.and_true, decide_eq_true_eq] at h
      exact delta_clamp_between _ _ _ _ _ h hf hv
    · exact hv
  have hhist : ∀ y ∈ axis_hist adv true filt hist v, lo ≤ y ∧ y ≤ hi := by
    intro y hy
    unfold axis_hist at hy
    split_ifs at hy
    · rcases push_window_mem _ _ _ _ hy with h | h
      · exact hh y h
      · rw [h]; exact hin
    · exact hh y hy
  have hmed : lo ≤ axis_med adv true filt hist v ∧ axis_med adv true filt hist v ≤ hi := by
    unfold axis_med
    split_ifs with hm
    · simp only [decide_eq_true_eq] at hm
      have hw : 1 ≤ adv.median_window := by omega
      apply median_of_bounds _ _ _ _ hhist
      unfold axis_hist
      simp only [hm, decide_True, if_true]
      exact (push_window_length _ _ _ hw).2
    · exact hin
  refine ⟨?_, hhist⟩
  unfold axis_out
  split_ifs with hpos hnf
  · simp at hnf
  · have hb := iir_blend_between adv.iir_alpha filt (axis_med adv true filt hist v)
      (le_of_lt hpos) ha
    have h1 : lo ≤ min filt (axis_med adv true filt hist v) := le_min hf.1 hmed.1
    have h2 : max filt (axis_med adv true filt hist v) ≤ hi := max_le hf.2 hmed.2
    exact ⟨le_trans h1 hb.1, le_trans hb.2 h2⟩
  · exact hmed

theorem noise_filter_range (adv : AdvancedParams) (f : FilterState) (sx sy : Int)
    (ha : adv.iir_alpha ≤ 1) (hinv : RangeInv adv f)
    (hx : 0 ≤ sx ∧ sx ≤ adv.screen_w - 1) (hy : 0 ≤ sy ∧ sy ≤ adv.screen_h - 1) :
    RangeInv adv (noise_filter adv f sx sy) := by
  obtain ⟨hf, fx, fy, hhx, hhy⟩ := hinv
  rw [noise_filter_eq, hf]
  have ax := axis_range adv f.filt_x f.hist_x sx 0 (adv.screen_w - 1) ha fx hhx hx
  have ay := axis_range adv f.filt_y f.hist_y sy 0 (adv.screen_h - 1) ha fy hhy hy
  exact ⟨rfl, ax.1, ay.1, ax.2, ay.2⟩

theorem seeded_filter_range (adv : AdvancedParams) (x y : Int)
    (hx : 0 ≤ x ∧ x ≤ adv.screen_w - 1) (hy : 0 ≤ y ∧ y ≤ adv.screen_h - 1) :
    RangeInv adv (seeded_filter x y) := by
  refine ⟨rfl, hx, hy, ?_, ?_⟩ <;> intro v hv <;> simp [seeded_filter] at hv

/-- While the daemon is Down its filter state stays on the screen. -/
theorem uinputd_tick_range (c : Calib) (adv : AdvancedParams) (s : DState) (a : Sample)
    (hw : 1 ≤ adv.screen_w) (hh : 1 ≤ adv.screen_h) (ha : adv.iir_alpha ≤ 1)
    (hinv : s.touch_down = true → RangeInv adv s.filter) :
    (uinputd_tick c adv s a).1.touch_down = true →
      RangeInv adv (uinputd_tick c adv s a).1.filter := by
  intro h
  obtain ⟨mx, my⟩ := uinputd_map_bounds c adv a.raw_x a.raw_y hw hh
  rcases uinputd_tick_down_cases c adv s a h with ⟨_, he⟩ | ⟨hdn, hf⟩ | ⟨_, hf⟩
  · rw [he] at h ⊢
    exact hinv h
  · rw [hf]
    exact noise_filter_range adv _ _ _ ha (hinv hdn) mx my
  · rw [hf]
    exact noise_filter_range adv _ _ _ ha (seeded_filter_range adv _ _ mx my) mx my

theorem position_events_mem (evs : List UEvent) (e : UEvent) (he : e ∈ evs) :
    e ∈ position_events evs ∨
      (∀ v, e ≠ UEvent.abs_mt_position_x v) ∧ (∀ v, e ≠ UEvent.abs_mt_position_y v) ∧
      (∀ v, e ≠ UEvent.abs_x v) ∧ (∀ v, e ≠ UEvent.abs_y v) := by
  unfold position_events
  cases e <;> simp [he]

/-- Every event of a daemon iteration that started with the invariant carries an
on-screen position. -/
theorem uinputd_tick_events_on_screen (c : Calib) (adv : AdvancedParams) (s : DState)
    (a : Sample) (hw : 1 ≤ adv.screen_w) (hh : 1 ≤ adv.screen_h) (ha : adv.iir_alpha ≤ 1)
    (hinv : s.touch_down = true → RangeInv adv s.filter) :
    ∀ e ∈ (uinputd_tick c adv s a).2, position_on_screen adv e := by
  intro e he
  by_cases hv : a.raw_x < 0 ∨ a.raw_y < 0
  · have : (uinputd_tick c adv s a).2 = [] := by simp [uinputd_tick, hv]
    rw [this] at he
    simp at he
  · cases hres : (uinputd_tick c adv s a).1.touch_down
    · rw [uinputd_tick_up_silent c adv s a hres] at he
      simp at he
    · obtain ⟨_, fx, fy, _, _⟩ := uinputd_tick_range c adv s a hw hh ha hinv hres
      have hpos := uinputd_tick_positions c adv s a hv hres
      rcases position_events_mem _ e he with hm | ⟨n1, n2, n3, n4⟩
      · rw [hpos] at hm
        simp only [List.mem_cons, List.mem_singleton, List.not_mem_nil, or_false] at hm
        rcases hm with h | h | h | h <;> rw [h] <;> simp only [position_on_screen]
        · exact fx
        · exact fy
        · exact fx
        · exact fy
      · cases e <;> simp_all [position_on_screen]

theorem uinputd_run_events_on_screen (c : Calib) (adv : AdvancedParams) (xs : List Sample)
    (hw : 1 ≤ adv.screen_w) (hh : 1 ≤ adv.screen_h) (ha : adv.iir_alpha ≤ 1) :
    ∀ s : DState, (s.touch_down = true → RangeInv adv s.filter) →
      ∀ evs ∈ (uinputd_run c adv s xs).2, ∀ e ∈ evs, position_on_screen adv e := by
  induction xs with
  | nil => intro s _ evs hev; simp [uinputd_run] at hev
  | cons x rest ih =>
    intro s hinv evs hev
    simp only [uinputd_run, List.mem_cons] at hev
    rcases hev with hev | hev
    · rw [hev]
      exact uinputd_tick_events_on_screen c adv s x hw hh ha hinv
    · exact ih _ (uinputd_tick_range c adv s x hw hh ha hinv) evs hev

/-- C15 (emitted positions on screen).  For every sanitized configuration
(`sanitize_adv adv0`, any calibration `c`) and every sequence of samples
processed from an Up state, every `ABS_X` / `ABS_MT_POSITION_X` value the daemon
writes lies in `[0, screen_w - 1]` and every `ABS_Y` / `ABS_MT_POSITION_Y` value
in `[0, screen_h - 1]`: the delta clamp, median and IIR stages keep the filtered
value within the range of the mapped inputs. -/
theorem C15_emitted_positions_on_screen (c : Calib) (adv0 : AdvancedParams) (s0 : DState)
    (xs : List Sample) (hup : s0.touch_down = false) :
    ∀ evs ∈ (uinputd_run c (sanitize_adv adv0) s0 xs).2,
      ∀ e ∈ evs, position_on_screen (sanitize_adv adv0) e := by
  have hs := sanitize_adv_screen_alpha adv0
  exact uinputd_run_events_on_screen c (sanitize_adv adv0) xs hs.1 hs.2.1 hs.2.2 s0
    (fun h => absurd (hup ▸ h) (by decide))

/-- Witness of C15: default configuration, a contact that jumps to the raw corner
`(4095, 4095)`. -/
theorem C15_emitted_positions_on_screen_witness :
    ({} : DState).touch_down = false ∧
    (∀ evs ∈ (uinputd_run {} (sanitize_adv {}) {}
        [⟨2000, 2000, 200⟩, ⟨2000, 2000, 200⟩, ⟨4095, 4095, 200⟩]).2,
      ∀ e ∈ evs, position_on_screen (sanitize_adv {}) e) :=
  ⟨by decide, C15_emitted_positions_on_screen {} {} {}
    [⟨2000, 2000, 200⟩, ⟨2000, 2000, 200⟩, ⟨4095, 4095, 200⟩] (by decide)⟩

/-! ### Configuration reload -/

theorem uinputd_after_reload_down (l : DLoop) (inp : LoopInput) (hd : l.st.touch_down = true) :
    uinputd_after_reload l inp = l := by
  simp [uinputd_after_reload, hd]

theorem uinputd_iteration_down (l : DLoop) (inp : LoopInput) (hd : l.st.touch_down = true) :
    (uinputd_iteration l inp).1.calib = l.calib ∧ (uinputd_iteration l inp).1.adv = l.adv := by
  simp [uinputd_iteration, uinputd_after_reload_down l inp hd]

theorem uinputd_loop_contact (inps : List LoopInput) :
    ∀ l : DLoop, l.st.touch_down = true → uinputd_loop_stays_down l inps = true →
      (uinputd_loop_run l inps).st.touch_down = true ∧
      (uinputd_loop_run l inps).calib = l.calib ∧ (uinputd_loop_run l inps).adv = l.adv := by
  induction inps with
  | nil => intro l hd _; exact ⟨hd, rfl, rfl⟩
  | cons inp rest ih =>
    intro l hd hst
    simp only [uinputd_loop_stays_down, Bool.and_eq_true] at hst
    obtain ⟨h1, h2, h3⟩ := ih _ hst.1 hst.2
    obtain ⟨e1, e2⟩ := uinputd_iteration_down l inp hd
    exact ⟨h1, h2.trans e1, h3.trans e2⟩

/-- C14 (reload only while Up).  Daemon loop with auto-reload.  (1) An iteration
that begins with `touch_down = true` processes its sample with the
configuration already in force and leaves it in force, whatever reload is
pending.  (2) Hence over a contact (the state Down at `l` and after each
iteration of `ms`) the configuration in force stays that of `l`, also through
the following iteration `r` (the release).  (3) A reload leaves
`press_streak = 0`, `release_streak = 0`, both histories empty and
`have_filtered = false`, and installs the sanitised loaded configuration. -/
theorem C14_reload_only_while_up (l : DLoop) (inp : LoopInput) (ms : List LoopInput)
    (r : LoopInput) (k : DLoop) (loaded : Calib × AdvancedParams)
    (hdown : l.st.touch_down = true)
    (hcontact : uinputd_loop_stays_down l ms = true) :
    (uinputd_after_reload l inp = l ∧
      (uinputd_iteration l inp).1.calib = l.calib ∧ (uinputd_iteration l inp).1.adv = l.adv ∧
      uinputd_iteration l inp =
        ({ l with st := (uinputd_tick l.calib l.adv l.st inp.smp).1 },
          (uinputd_tick l.calib l.adv l.st inp.smp).2)) ∧
    ((uinputd_loop_run l ms).calib = l.calib ∧ (uinputd_loop_run l ms).adv = l.adv ∧
      (uinputd_iteration (uinputd_loop_run l ms) r).1.calib = l.calib ∧
      (uinputd_iteration (uinputd_loop_run l ms) r).1.adv = l.adv) ∧
    ((uinputd_reload k loaded).st.press_streak = 0 ∧
      (uinputd_reload k loaded).st.release_streak = 0 ∧
      (uinputd_reload k loaded).st.filter.hist_x = [] ∧
      (uinputd_reload k loaded).st.filter.hist_y = [] ∧
      (uinputd_reload k loaded).st.filter.have_filtered = false ∧
      (uinputd_reload k loaded).calib = loaded.1 ∧
      (uinputd_reload k loaded).adv = sanitize_adv loaded.2) := by
  obtain ⟨c1, c2, c3⟩ := uinputd_loop_contact ms l hdown hcontact
  obtain ⟨d1, d2⟩ := uinputd_iteration_down (uinputd_loop_run l ms) r c1
  refine ⟨⟨uinputd_after_reload_down l inp hdown, (uinputd_iteration_down l inp hdown).1,
    (uinputd_iteration_down l inp hdown).2, ?_⟩, ⟨c2, c3, d1.trans c2, d2.trans c3⟩,
    ⟨rfl, rfl, rfl, rfl, rfl, rfl, rfl⟩⟩
  simp [uinputd_iteration, uinputd_after_reload_down l inp hdown]

theorem C14_reload_only_while_up_witness :
    (uinputd_after_reload ⟨{}, {}, (uinputd_run {} {} {} [⟨2000, 2000, 200⟩, ⟨2000, 2000, 200⟩]).1⟩
        ⟨some ({}, { screen_w := 480 }), ⟨2000, 2000, 200⟩⟩ =
      ⟨{}, {}, (uinputd_run {} {} {} [⟨2000, 2000, 200⟩, ⟨2000, 2000, 200⟩]).1⟩ ∧
      (uinputd_iteration
          ⟨{}, {}, (uinputd_run {} {} {} [⟨2000, 2000, 200⟩, ⟨2000, 2000, 200⟩]).1⟩
          ⟨some ({}, { screen_w := 480 }), ⟨2000, 2000, 200⟩⟩).1.calib = {} ∧
      (uinputd_iteration
          ⟨{}, {}, (uinputd_run {} {} {} [⟨2000, 2000, 200⟩, ⟨2000, 2000, 200⟩]).1⟩
          ⟨some ({}, { screen_w := 480 }), ⟨2000, 2000, 200⟩⟩).1.adv = {} ∧
      uinputd_iteration
          ⟨{}, {}, (uinputd_run {} {} {} [⟨2000, 2000, 200⟩, ⟨2000, 2000, 200⟩]).1⟩
          ⟨some ({}, { screen_w := 480 }), ⟨2000, 2000, 200⟩⟩ =
        ({ (⟨{}, {}, (uinputd_run {} {} {} [⟨2000, 2000, 200⟩, ⟨2000, 2000, 200⟩]).1⟩ : DLoop) with
            st := (uinputd_tick {} {}
              (uinputd_run {} {} {} [⟨2000, 2000, 200⟩, ⟨2000, 2000, 200⟩]).1
              ⟨2000, 2000, 200⟩).1 },
          (uinputd_tick {} {}
            (uinputd_run {} {} {} [⟨2000, 2000, 200⟩, ⟨2000, 2000, 200⟩]).1
            ⟨2000, 2000, 200⟩).2)) ∧
    ((uinputd_loop_run
          ⟨{}, {}, (uinputd_run {} {} {} [⟨2000, 2000, 200⟩, ⟨2000, 2000, 200⟩]).1⟩
          [⟨some ({}, { screen_w := 480 }), ⟨2000, 2000, 200⟩⟩, ⟨none, ⟨2010, 2000, 200⟩⟩]).calib =
        {} ∧
      (uinputd_loop_run
          ⟨{}, {}, (uinputd_run {} {} {} [⟨2000, 2000, 200⟩, ⟨2000, 2000, 200⟩]).1⟩
          [⟨some ({}, { screen_w := 480 }), ⟨2000, 2000, 200⟩⟩, ⟨none, ⟨2010, 2000, 200⟩⟩]).adv =
        {} ∧
      (uinputd_iteration
          (uinputd_loop_run
            ⟨{}, {}, (uinputd_run {} {} {} [⟨2000, 2000, 200⟩, ⟨2000, 2000, 200⟩]).1⟩
            [⟨some ({}, { screen_w := 480 }), ⟨2000, 2000, 200⟩⟩,
              ⟨none, ⟨2010, 2000, 200⟩⟩])
          ⟨some ({}, { screen_w := 480 }), ⟨2000, 2000, 0⟩⟩).1.calib = {} ∧
      (uinputd_iteration
          (uinputd_loop_run
            ⟨{}, {}, (uinputd_run {} {} {} [⟨2000, 2000, 200⟩, ⟨2000, 2000, 200⟩]).1⟩
            [⟨some ({}, { screen_w := 480 }), ⟨2000, 2000, 200⟩⟩,
              ⟨none, ⟨2010, 2000, 200⟩⟩])
          ⟨some ({}, { screen_w := 480 }), ⟨2000, 2000, 0⟩⟩).1.adv = {}) ∧
    ((uinputd_reload ⟨{}, {}, {}⟩ ({}, { screen_w := 480 })).st.press_streak = 0 ∧
      (uinputd_reload ⟨{}, {}, {}⟩ ({}, { screen_w := 480 })).st.release_streak = 0 ∧
      (uinputd_reload ⟨{}, {}, {}⟩ ({}, { screen_w := 480 })).st.filter.hist_x = [] ∧
      (uinputd_reload ⟨{}, {}, {}⟩ ({}, { screen_w := 480 })).st.filter.hist_y = [] ∧
      (uinputd_reload ⟨{}, {}, {}⟩ ({}, { screen_w := 480 })).st.filter.have_filtered = false ∧
      (uinputd_reload ⟨{}, {}, {}⟩ ({}, { screen_w := 480 })).calib =
        (({}, { screen_w := 480 }) : Calib × AdvancedParams).1 ∧
      (uinputd_reload ⟨{}, {}, {}⟩ ({}, { screen_w := 480 })).adv =
        sanitize_adv (({}, { screen_w := 480 }) : Calib × AdvancedParams).2) :=
  C14_reload_only_while_up
    ⟨{}, {}, (uinputd_run {} {} {} [⟨2000, 2000, 200⟩, ⟨2000, 2000, 200⟩]).1⟩
    ⟨some ({}, { screen_w := 480 }), ⟨2000, 2000, 200⟩⟩
    [⟨some ({}, { screen_w := 480 }), ⟨2000, 2000, 200⟩⟩, ⟨none, ⟨2010, 2000, 200⟩⟩]
    ⟨some ({}, { screen_w := 480 }), ⟨2000, 2000, 0⟩⟩ ⟨{}, {}, {}⟩ ({}, { screen_w := 480 })
    (by decide!) (by decide!)

/-- A configuration change across an iteration implies the iteration began Up. -/
theorem uinputd_config_change_begins_up (l : DLoop) (inp : LoopInput)
    (h : (uinputd_iteration l inp).1.calib ≠ l.calib ∨ (uinputd_iteration l inp).1.adv ≠ l.adv) :
    l.st.touch_down = false := by
  cases hd : l.st.touch_down
  · rfl
  · obtain ⟨e1, e2⟩ := uinputd_iteration_down l inp hd
    rcases h with h | h
    · exact absurd e1 h
    · exact absurd e2 h

/-! ### Configuration loading -/

/-- In the daemon's `load_config` a line whose value converts neither with
`strtol` nor with `strtof` changes nothing. -/
theorem uinputd_load_line_malformed (strtof : List Char → Option ℚ)
    (st : Calib × AdvancedParams) (line : String)
    (hi : parse_int (line_val line) = none) (hf : strtof (line_val line) = none) :
    uinputd_load_line strtof st line = st := by
  unfold uinputd_load_line config_assign
  simp only [hi, hf, Option.isSome_none, Bool.false_eq_true, and_false, if_false]
  split_ifs <;> rfl

/-- Evaluation for C18.  `strtol` converts nothing in `abc`.  Daemon: the
configuration `screen_w=abc` leaves `screen_w` at its default 800 (and
`max_x=abc` leaves `max_x` at 4095).  `advanced_gui`: the same line overwrites
`screen_w` with `atoi("abc") = 0`, which the final guard turns into 1; and
`max_x=abc` overwrites `max_x` with 0, which the final guard turns into
`min_x + 1 = 1`. -/
theorem C18_gui_malformed_value_overwrites :
    parse_int "abc".toList = none ∧
    (uinputd_load_config (fun _ => none) (some ["screen_w=abc"])).2.screen_w = 800 ∧
    (uinputd_load_config (fun _ => none) (some ["max_x=abc"])).1.max_x = 4095 ∧
    ({} : Config).screen_w = 800 ∧
    (gui_load_config (some ["screen_w=abc"]) {}).screen_w = 1 ∧
    ({} : Config).max_x = 4095 ∧
    (gui_load_config (some ["max_x=abc"]) {}).max_x = 1 := by
  decide

theorem noise_filter_iir_zero (adv : AdvancedParams) (f : FilterState) (sx sy : Int)
    (h0 : adv.iir_alpha = 0) :
    noise_filter adv f sx sy =
      { have_filtered := true,
        filt_x := axis_med adv f.have_filtered f.filt_x f.hist_x sx,
        filt_y := axis_med adv f.have_filtered f.filt_y f.hist_y sy,
        hist_x := axis_hist adv f.have_filtered f.filt_x f.hist_x sx,
        hist_y := axis_hist adv f.have_filtered f.filt_y f.hist_y sy } := by
  rw [noise_filter_eq]
  have h : ¬ adv.iir_alpha > 0 := by rw [h0]; exact lt_irrefl 0
  simp only [axis_out, if_neg h]

theorem noise_filter_identity (adv : AdvancedParams) (f : FilterState) (sx sy : Int)
    (h0 : adv.iir_alpha = 0) (hm : adv.median_window = 0) (hd : adv.max_delta_px = 0) :
    noise_filter adv f sx sy =
      { have_filtered := true, filt_x := sx, filt_y := sy, hist_x := f.hist_x,
        hist_y := f.hist_y } := by
  rw [noise_filter_iir_zero adv f sx sy h0]
  simp [axis_med, axis_hist, axis_in, hm, hd]

/-- C21 (passthrough with `iir_alpha = 0`).  With `iir_alpha = 0`:
(1) the filter stages store, on each axis, the value produced by the clamp and
median stages (`axis_med`), with no blending, and set `have_filtered`; the
histories are those of the median stage;
(2) with `median_window = 0` and `max_delta_px = 0` in addition, the stored value
is the mapped input itself;
(3) on a daemon iteration that ends Down (sample read successfully) the
positions written are the stored `filt_x` / `filt_y`, `have_filtered` is set, and
under the conditions of (2) they are the mapped position of the sample;
(4) on a calibrator iteration that ends Down the stored filter state is the one
of (1) for the mapped position, `SX` / `SY` are the stored values clipped to the
screen, and under the conditions of (2) the stored values are the mapped
position of the sample. -/
theorem C21_iir_zero_passthrough (c : Calib) (adv : AdvancedParams) (f : FilterState)
    (sx sy : Int) (s : DState) (a : Sample) (cs : CState) (x : CSample)
    (h0 : adv.iir_alpha = 0) :
    ((noise_filter adv f sx sy).filt_x = axis_med adv f.have_filtered f.filt_x f.hist_x sx ∧
      (noise_filter adv f sx sy).filt_y = axis_med adv f.have_filtered f.filt_y f.hist_y sy ∧
      (noise_filter adv f sx sy).have_filtered = true ∧
      (noise_filter adv f sx sy).hist_x = axis_hist adv f.have_filtered f.filt_x f.hist_x sx ∧
      (noise_filter adv f sx sy).hist_y = axis_hist adv f.have_filtered f.filt_y f.hist_y sy) ∧
    (adv.median_window = 0 → adv.max_delta_px = 0 →
      (noise_filter adv f sx sy).filt_x = sx ∧ (noise_filter adv f sx sy).filt_y = sy ∧
      (noise_filter adv f sx sy).hist_x = f.hist_x ∧
      (noise_filter adv f sx sy).hist_y = f.hist_y) ∧
    (¬ (a.raw_x < 0 ∨ a.raw_y < 0) → (uinputd_tick c adv s a).1.touch_down = true →
      (uinputd_tick c adv s a).1.filter.have_filtered = true ∧
      position_events (uinputd_tick c adv s a).2 =
        [UEvent.abs_mt_position_x (uinputd_tick c adv s a).1.filter.filt_x,
          UEvent.abs_mt_position_y (uinputd_tick c adv s a).1.filter.filt_y,
          UEvent.abs_x (uinputd_tick c adv s a).1.filter.filt_x,
          UEvent.abs_y (uinputd_tick c adv s a).1.filter.filt_y] ∧
      (adv.median_window = 0 → adv.max_delta_px = 0 →
        (uinputd_tick c adv s a).1.filter.filt_x = (uinputd_map c adv a.raw_x a.raw_y).1 ∧
        (uinputd_tick c adv s a).1.filter.filt_y = (uinputd_map c adv a.raw_x a.raw_y).2)) ∧
    ((calibrator_tick c adv cs x).1.touch_down = true →
      (calibrator_tick c adv cs x).1.filter =
        noise_filter adv cs.filter (calibrator_map c adv x.raw_x x.raw_y).1
          (calibrator_map c adv x.raw_x x.raw_y).2 ∧
      (calibrator_tick c adv cs x).2.out_x =
        clamp_val (calibrator_tick c adv cs x).1.filter.filt_x 0 (adv.screen_w - 1) ∧
      (calibrator_tick c adv cs x).2.out_y =
        clamp_val (calibrator_tick c adv cs x).1.filter.filt_y 0 (adv.screen_h - 1) ∧
      (adv.median_window = 0 → adv.max_delta_px = 0 →
        (calibrator_tick c adv cs x).1.filter.filt_x = (calibrator_map c adv x.raw_x x.raw_y).1 ∧
        (calibrator_tick c adv cs x).1.filter.filt_y =
          (calibrator_map c adv x.raw_x x.raw_y).2)) := by
  refine ⟨?_, ?_, ?_, ?_⟩
  · rw [noise_filter_iir_zero adv f sx sy h0]
    exact ⟨rfl, rfl, rfl, rfl, rfl⟩
  · intro hm hd
    rw [noise_filter_identity adv f sx sy h0 hm hd]
    exact ⟨rfl, rfl, rfl, rfl⟩
  · intro hv hdown
    have hcases := uinputd_tick_down_cases c adv s a hdown
    have hf : ∃ g, (uinputd_tick c adv s a).1.filter =
        noise_filter adv g (uinputd_map c adv a.raw_x a.raw_y).1
          (uinputd_map c adv a.raw_x a.raw_y).2 := by
      rcases hcases with h | h | h
      · exact absurd h.1 hv
      · exact ⟨_, h.2⟩
      · exact ⟨_, h.2⟩
    obtain ⟨g, hg⟩ := hf
    refine ⟨?_, uinputd_tick_positions c adv s a hv hdown, ?_⟩
    · rw [hg, noise_filter_eq]
    · intro hm hd
      rw [hg, noise_filter_identity adv g _ _ h0 hm hd]
      exact ⟨rfl, rfl⟩
  · intro hdown
    have hg := (calibrator_tick_filter c adv cs x).1 hdown
    refine ⟨hg, (calibrator_tick_out c adv cs x).1, (calibrator_tick_out c adv cs x).2, ?_⟩
    intro hm hd
    rw [hg, noise_filter_identity adv cs.filter _ _ h0 hm hd]
    exact ⟨rfl, rfl⟩

/-- Witness of C21: `iir_alpha = 0`, `median_window = 0`, `max_delta_px = 0`; the
stored values after a step from `(100, 100)` to `(390, 233)` are `(390, 233)`. -/
theorem C21_iir_zero_passthrough_witness :
    (noise_filter { iir_alpha := 0, median_window := 0 }
        { have_filtered := true, filt_x := 100, filt_y := 100 } 390 233).filt_x = 390 ∧
    (noise_filter { iir_alpha := 0, median_window := 0 }
        { have_filtered := true, filt_x := 100, filt_y := 100 } 390 233).filt_y = 233 ∧
    (noise_filter { iir_alpha := 0, median_window := 0 }
        { have_filtered := true, filt_x := 100, filt_y := 100 } 390 233).hist_x = [] ∧
    (noise_filter { iir_alpha := 0, median_window := 0 }
        { have_filtered := true, filt_x := 100, filt_y := 100 } 390 233).hist_y = [] :=
  (C21_iir_zero_passthrough {} { iir_alpha := 0, median_window := 0 }
    { have_filtered := true, filt_x := 100, filt_y := 100 } 390 233 {} ⟨2000, 2000, 200⟩ {}
    ⟨2000, 2000, 200, 0⟩ rfl).2.1 rfl rfl

theorem push_window_drop (w : Nat) (mw : Int) (hw : mw.toNat = w) (l : List Int) (v : Int) :
    push_window mw (l.drop (l.length - w)) v = (l ++ [v]).drop (l.length + 1 - w) := by
  unfold push_window
  rw [hw]
  have h1 : l.drop (l.length - w) ++ [v] = (l ++ [v]).drop (l.length - w) := by
    rw [List.drop_append_of_le_length (Nat.sub_le _ _)]
  rw [h1, List.drop_drop, List.length_drop, List.length_append, List.length_singleton]
  congr 1
  omega

theorem noise_filter_run_hist (adv : AdvancedParams)
    (hm : adv.median_window = 3 ∨ adv.median_window = 5) (ps : List (Int × Int)) :
    ∀ (f : FilterState) (px py : List Int),
      f.hist_x = px.drop (px.length - adv.median_window.toNat) →
      f.hist_y = py.drop (py.length - adv.median_window.toNat) →
      (noise_filter_run adv f ps).hist_x =
        (px ++ (pushed_values adv f ps).map Prod.fst).drop
          (px.length + ps.length - adv.median_window.toNat) ∧
      (noise_filter_run adv f ps).hist_y =
        (py ++ (pushed_values adv f ps).map Prod.snd).drop
          (py.length + ps.length - adv.median_window.toNat) := by
  induction ps with
  | nil =>
    intro f px py hx hy
    simpa [noise_filter_run, pushed_values] using And.intro hx hy
  | cons p rest ih =>
    intro f px py hx hy
    have hstep := noise_filter_eq adv f p.1 p.2
    have hx1 : (noise_filter adv f p.1 p.2).hist_x =
        (px ++ [axis_in adv f.have_filtered f.filt_x p.1]).drop
          ((px ++ [axis_in adv f.have_filtered f.filt_x p.1]).length
            - adv.median_window.toNat) := by
      rw [hstep]
      simp only [axis_hist, hm, decide_True, if_true, hx]
      rw [push_window_drop _ adv.median_window rfl, List.length_append, List.length_singleton]
    have hy1 : (noise_filter adv f p.1 p.2).hist_y =
        (py ++ [axis_in adv f.have_filtered f.filt_y p.2]).drop
          ((py ++ [axis_in adv f.have_filtered f.filt_y p.2]).length
            - adv.median_window.toNat) := by
      rw [hstep]
      simp only [axis_hist, hm, decide_True, if_true, hy]
      rw [push_window_drop _ adv.median_window rfl, List.length_append, List.length_singleton]
    obtain ⟨r1, r2⟩ := ih (noise_filter adv f p.1 p.2) _ _ hx1 hy1
    simp only [noise_filter_run, pushed_values, List.map_cons, List.length_cons]
    rw [r1, r2]
    simp only [List.append_assoc, List.singleton_append, List.length_append,
      List.length_singleton]
    constructor <;> congr 1 <;> omega

theorem noise_filter_run_no_median (adv : AdvancedParams)
    (hm : ¬ (adv.median_window = 3 ∨ adv.median_window = 5)) (ps : List (Int × Int)) :
    ∀ f : FilterState, (noise_filter_run adv f ps).hist_x = f.hist_x ∧
      (noise_filter_run adv f ps).hist_y = f.hist_y := by
  induction ps with
  | nil => intro f; exact ⟨rfl, rfl⟩
  | cons p rest ih =>
    intro f
    obtain ⟨r1, r2⟩ := ih (noise_filter adv f p.1 p.2)
    simp only [noise_filter_run]
    rw [r1, r2, noise_filter_eq]
    simp [axis_hist, hm]

theorem pushed_values_length (adv : AdvancedParams) (ps : List (Int × Int)) :
    ∀ f : FilterState, (pushed_values adv f ps).length = ps.length := by
  induction ps with
  | nil => intro f; rfl
  | cons p rest ih => intro f; simp [pushed_values, ih]

/-- C22 (history window).  Filter stages run over the mapped positions `ps` of a
contact, from a state whose histories are empty (the state after every reset).
For `median_window = w ∈ {3, 5}`, after the `k = ps.length` pushes `hist_x` is
the list of the last `min(k, w)` values pushed (the values after the clamp step),
in arrival order; likewise `hist_y`; both have length `min(k, w) ≤ w`.  With
`median_window = 0` both histories stay empty. -/
theorem C22_history_window (adv : AdvancedParams) (f : FilterState) (ps : List (Int × Int))
    (hx : f.hist_x = []) (hy : f.hist_y = []) :
    ((adv.median_window = 3 ∨ adv.median_window = 5) →
      (noise_filter_run adv f ps).hist_x =
        ((pushed_values adv f ps).map Prod.fst).drop (ps.length - adv.median_window.toNat) ∧
      (noise_filter_run adv f ps).hist_y =
        ((pushed_values adv f ps).map Prod.snd).drop (ps.length - adv.median_window.toNat) ∧
      (noise_filter_run adv f ps).hist_x.length = (noise_filter_run adv f ps).hist_y.length ∧
      (noise_filter_run adv f ps).hist_x.length = min ps.length adv.median_window.toNat ∧
      (noise_filter_run adv f ps).hist_x.length ≤ adv.median_window.toNat) ∧
    (adv.median_window = 0 →
      (noise_filter_run adv f ps).hist_x = [] ∧ (noise_filter_run adv f ps).hist_y = []) := by
  constructor
  · intro hm
    obtain ⟨r1, r2⟩ := noise_filter_run_hist adv hm ps f [] [] (by simp [hx]) (by simp [hy])
    simp only [List.nil_append, List.length_nil, Nat.zero_add] at r1 r2
    have hl := pushed_values_length adv ps f
    refine ⟨r1, r2, ?_, ?_, ?_⟩
    · rw [r1, r2]
      simp [hl]
    · rw [r1]
      simp only [List.length_drop, List.length_map, hl]
      omega
    · rw [r1]
      simp only [List.length_drop, List.length_map, hl]
      omega
  · intro hm
    have hne : ¬ (adv.median_window = 3 ∨ adv.median_window = 5) := by
      rw [hm]; decide
    obtain ⟨r1, r2⟩ := noise_filter_run_no_median adv hne ps f
    exact ⟨r1.trans hx, r2.trans hy⟩

/-- Witness of C22: window 3, five positions pushed from the cleared filter; the
histories hold the last three. -/
theorem C22_history_window_witness :
    (noise_filter_run {} {} [(10, 1), (20, 2), (30, 3), (40, 4), (50, 5)]).hist_x =
      [30, 40, 50] ∧
    (noise_filter_run {} {} [(10, 1), (20, 2), (30, 3), (40, 4), (50, 5)]).hist_y =
      [3, 4, 5] ∧
    ((pushed_values {} {} [(10, 1), (20, 2), (30, 3), (40, 4), (50, 5)]).map Prod.fst).drop
      ([(10, 1), (20, 2), (30, 3), (40, 4), (50, 5)].length -
        ({} : AdvancedParams).median_window.toNat) = [30, 40, 50] ∧
    ((noise_filter_run {} {} [(10, 1), (20, 2), (30, 3), (40, 4), (50, 5)]).hist_x =
        ((pushed_values {} {} [(10, 1), (20, 2), (30, 3), (40, 4), (50, 5)]).map Prod.fst).drop
          ([(10, 1), (20, 2), (30, 3), (40, 4), (50, 5)].length -
            ({} : AdvancedParams).median_window.toNat) ∧
      (noise_filter_run {} {} [(10, 1), (20, 2), (30, 3), (40, 4), (50, 5)]).hist_y =
        ((pushed_values {} {} [(10, 1), (20, 2), (30, 3), (40, 4), (50, 5)]).map Prod.snd).drop
          ([(10, 1), (20, 2), (30, 3), (40, 4), (50, 5)].length -
            ({} : AdvancedParams).median_window.toNat) ∧
      (noise_filter_run {} {} [(10, 1), (20, 2), (30, 3), (40, 4), (50, 5)]).hist_x.length =
        (noise_filter_run {} {} [(10, 1), (20, 2), (30, 3), (40, 4), (50, 5)]).hist_y.length ∧
      (noise_filter_run {} {} [(10, 1), (20, 2), (30, 3), (40, 4), (50, 5)]).hist_x.length =
        min [(10, 1), (20, 2), (30, 3), (40, 4), (50, 5)].length
          ({} : AdvancedParams).median_window.toNat ∧
      (noise_filter_run {} {} [(10, 1), (20, 2), (30, 3), (40, 4), (50, 5)]).hist_x.length ≤
        ({} : AdvancedParams).median_window.toNat) :=
  ⟨by decide!, by decide!, by decide!,
    (C22_history_window {} {} [(10, 1), (20, 2), (30, 3), (40, 4), (50, 5)] rfl rfl).1
      (Or.inl rfl)⟩

/-! ### The calibrator while Up -/

/-- An iteration of the calibrator that begins and ends Up with
`have_filtered = false` (the state every release leaves) prints the mapped
position of its own sample, clipped to the screen. -/
theorem calibrator_tick_up_out (c : Calib) (adv : AdvancedParams) (s : CState) (x : CSample)
    (hup : s.touch_down = false) (hf : s.filter.have_filtered = false)
    (h : (calibrator_tick c adv s x).1.touch_down = false) :
    (calibrator_tick c adv s x).2.out_x =
      clamp_val (calibrator_map c adv x.raw_x x.raw_y).1 0 (adv.screen_w - 1) ∧
    (calibrator_tick c adv s x).2.out_y =
      clamp_val (calibrator_map c adv x.raw_x x.raw_y).2 0 (adv.screen_h - 1) ∧
    (calibrator_tick c adv s x).1.filter.have_filtered = false := by
  obtain ⟨o1, o2⟩ := calibrator_tick_out c adv s x
  rcases (calibrator_tick_filter c adv s x).2 h with hc | hc
  · rw [o1, o2, hc.2]
    simp [hf]
  · rw [hup] at hc
    exact absurd hc.1 (by decide)

/-- Evaluation for C23.  Default configuration and calibration.  A contact at raw
`(2000, 2000)` (two samples at pressure 200) is filtered to `(391, 234)`; the
sample at pressure 0 ends it; the two following samples, read while Up at raw
`(3000, 1000)` and `(1000, 3000)`, are printed as `SX`/`SY` = `(586, 117)` and
`(195, 352)`, their own mapped positions, not `(391, 234)`. -/
theorem C23_up_position_follows_samples :
    (calibrator_run {} {} {}
        [⟨2000, 2000, 200, 0⟩, ⟨2000, 2000, 200, 100000000⟩, ⟨2000, 2000, 0, 400000000⟩,
          ⟨3000, 1000, 0, 500000000⟩, ⟨1000, 3000, 0, 600000000⟩]).2.map
      (fun o => (o.out_x, o.out_y, o.down)) =
      [(391, 234, true), (391, 234, true), (391, 234, false), (586, 117, false),
        (195, 352, false)] ∧
    calibrator_map {} {} 3000 1000 = (586, 117) ∧
    calibrator_map {} {} 1000 3000 = (195, 352) := by
  decide!

/-! ### The raw pointer of `advanced_gui` -/

theorem calibrator_map_eq_stage (c : Calib) (adv : AdvancedParams) (raw_x raw_y : Int) :
    calibrator_map c adv raw_x raw_y =
      (scale_deadzone (calibrator_rescale_stage c adv raw_x raw_y).1 adv.scale_x adv.offset_x
          adv.screen_w adv.deadzone_left adv.deadzone_right,
       scale_deadzone (calibrator_rescale_stage c adv raw_x raw_y).2 adv.scale_y adv.offset_y
          adv.screen_h adv.deadzone_top adv.deadzone_bottom) := rfl

/-- Evaluation for C24.  Default ranges `[0, 4095]` and 800×480 screen, no swap, no
inversion.  Raw `(3, 5)`: the exact quotients are `3·800/4095 ≈ 0.586` and
`5·480/4095 ≈ 0.586`; `scale_raw_to_screen` truncates them to `(0, 0)`, the
calibrator's stage rounds them to `(1, 1)`. -/
theorem C24_gui_truncates_calibrator_rounds :
    scale_raw_to_screen 3 5 {} 0 0 0 = (0, 0) ∧
    calibrator_rescale_stage {} {} 3 5 = (1, 1) ∧
    scale_raw_to_screen 3 5 {} 0 0 0 ≠ calibrator_rescale_stage {} {} 3 5 := by
  decide!

/-! ### Idle cursor mode -/

/-- C25 (idle-cursor mode names).  For each mode `m`,
`parse_idle_cursor_mode (idle_cursor_mode_name m) = m`; and every argument other
than the strings `show`, `raw`, `freeze`, `last`, `hide`, `off` (the null pointer
and the empty string included) parses to `FreezeLast`. -/
theorem C25_idle_cursor_mode_roundtrip (m : IdleCursorMode) (s : Option String)
    (hs : s ∉ [some "show", some "raw", some "freeze", some "last", some "hide", some "off"]) :
    parse_idle_cursor_mode (some (idle_cursor_mode_name m)) = m ∧
    parse_idle_cursor_mode s = IdleCursorMode.FreezeLast ∧
    parse_idle_cursor_mode none = IdleCursorMode.FreezeLast ∧
    parse_idle_cursor_mode (some "") = IdleCursorMode.FreezeLast := by
  refine ⟨?_, ?_, rfl, by decide⟩
  · cases m <;> decide
  · cases s with
    | none => rfl
    | some t =>
      simp only [List.mem_cons, Option.some.injEq, List.mem_singleton, List.mem_nil_iff,
        or_false, not_or] at hs
      obtain ⟨h1, h2, h3, h4, h5, h6⟩ := hs
      simp only [parse_idle_cursor_mode, h1, h2, h5, h6, or_self, if_false]
      split_ifs <;> rfl

/-- Witness of C25: mode `Hide`, argument `"frozen"`. -/
theorem C25_idle_cursor_mode_roundtrip_witness :
    parse_idle_cursor_mode (some (idle_cursor_mode_name IdleCursorMode.Hide)) =
      IdleCursorMode.Hide ∧
    parse_idle_cursor_mode (some "frozen") = IdleCursorMode.FreezeLast ∧
    parse_idle_cursor_mode none = IdleCursorMode.FreezeLast ∧
    parse_idle_cursor_mode (some "") = IdleCursorMode.FreezeLast :=
  C25_idle_cursor_mode_roundtrip IdleCursorMode.Hide (some "frozen") (by decide)

/-! ### Tracking ids -/

/-- Evaluation for C26.  Default configuration, initial state, two contacts:
samples at pressure 200, 200, 0, 0, 200, 200.  The first contact is reported on
the second iteration with `ABS_MT_TRACKING_ID 1`, `BTN_TOUCH 1` and
`BTN_TOOL_FINGER 1`.  The second contact is reported on the sixth iteration
with positions and pressure only: no `ABS_MT_TRACKING_ID`, no `BTN_TOUCH`, no
`BTN_TOOL_FINGER`; `last_down` is still `true` from the first contact and
`tracking_id` is still 2. -/
theorem C26_second_contact_without_tracking_id :
    (uinputd_run {} {} {}
        [⟨2000, 2000, 200⟩, ⟨2000, 2000, 200⟩, ⟨2000, 2000, 0⟩, ⟨2000, 2000, 0⟩,
          ⟨1000, 1000, 200⟩, ⟨1000, 1000, 200⟩]).2
      = [[],
         [UEvent.abs_mt_slot 0, UEvent.abs_mt_tracking_id 1, UEvent.abs_mt_position_x 390,
          UEvent.abs_mt_position_y 233, UEvent.abs_mt_pressure 200, UEvent.abs_x 390,
          UEvent.abs_y 233, UEvent.btn_touch 1, UEvent.btn_tool_finger 1, UEvent.syn_report],
         [UEvent.abs_mt_slot 0, UEvent.abs_mt_position_x 390, UEvent.abs_mt_position_y 233,
          UEvent.abs_mt_pressure 0, UEvent.abs_x 390, UEvent.abs_y 233, UEvent.syn_report],
         [],
         [],
         [UEvent.abs_mt_slot 0, UEvent.abs_mt_position_x 195, UEvent.abs_mt_position_y 116,
          UEvent.abs_mt_pressure 200, UEvent.abs_x 195, UEvent.abs_y 116,
          UEvent.syn_report]] ∧
    (uinputd_run {} {} {}
        [⟨2000, 2000, 200⟩, ⟨2000, 2000, 200⟩, ⟨2000, 2000, 0⟩,
          ⟨2000, 2000, 0⟩]).1.touch_down = false ∧
    (uinputd_run {} {} {}
        [⟨2000, 2000, 200⟩, ⟨2000, 2000, 200⟩, ⟨2000, 2000, 0⟩,
          ⟨2000, 2000, 0⟩]).1.last_down = true ∧
    (uinputd_run {} {} {}
        [⟨2000, 2000, 200⟩, ⟨2000, 2000, 200⟩, ⟨2000, 2000, 0⟩, ⟨2000, 2000, 0⟩,
          ⟨1000, 1000, 200⟩, ⟨1000, 1000, 200⟩]).1.tracking_id = 2 := by
  decide!

/-! ### Emitted positions and the advertised maxima -/

/-- Counterexample to C27 as stated.  The daemon starts with the default
800×480 screen (advertised maxima 799 and 479).  While Up, a reload installs
`screen_w = 1024`; a contact at raw `(4095, 2000)` is then reported with
`ABS_MT_POSITION_X = ABS_X = 1023 > 799`. -/
theorem C27_counterexample :
    uinput_absmax (sanitize_adv {}).screen_w = 799 ∧
    uinputd_loop_events ⟨{}, sanitize_adv {}, {}⟩
        [⟨some ({}, { screen_w := 1024 }), ⟨4095, 2000, 200⟩⟩, ⟨none, ⟨4095, 2000, 200⟩⟩] =
      [[],
       [UEvent.abs_mt_slot 0, UEvent.abs_mt_tracking_id 1, UEvent.abs_mt_position_x 1023,
        UEvent.abs_mt_position_y 233, UEvent.abs_mt_pressure 200, UEvent.abs_x 1023,
        UEvent.abs_y 233, UEvent.btn_touch 1, UEvent.btn_tool_finger 1, UEvent.syn_report]] ∧
    ¬ (∀ evs ∈ uinputd_loop_events ⟨{}, sanitize_adv {}, {}⟩
          [⟨some ({}, { screen_w := 1024 }), ⟨4095, 2000, 200⟩⟩, ⟨none, ⟨4095, 2000, 200⟩⟩],
        ∀ e ∈ evs, position_within_absmax (uinput_absmax (sanitize_adv {}).screen_w)
          (uinput_absmax (sanitize_adv {}).screen_h) e) := by
  have h1 : uinput_absmax (sanitize_adv {}).screen_w = 799 := by decide!
  have h2 : uinputd_loop_events ⟨{}, sanitize_adv {}, {}⟩
        [⟨some ({}, { screen_w := 1024 }), ⟨4095, 2000, 200⟩⟩, ⟨none, ⟨4095, 2000, 200⟩⟩] =
      [[],
       [UEvent.abs_mt_slot 0, UEvent.abs_mt_tracking_id 1, UEvent.abs_mt_position_x 1023,
        UEvent.abs_mt_position_y 233, UEvent.abs_mt_pressure 200, UEvent.abs_x 1023,
        UEvent.abs_y 233, UEvent.btn_touch 1, UEvent.btn_tool_finger 1, UEvent.syn_report]] := by
    decide!
  refine ⟨h1, h2, ?_⟩
  intro h
  rw [h2, h1] at h
  have h3 := h _ (List.mem_cons_of_mem _ (List.mem_singleton.mpr rfl))
    (UEvent.abs_x 1023) (by decide)
  have h4 : (1023 : Int) ≤ 799 := h3
  omega

theorem position_on_screen_within (adv : AdvancedParams) (w h : Int) (e : UEvent)
    (hw : adv.screen_w ≤ w) (hh : adv.screen_h ≤ h) (he : position_on_screen adv e) :
    position_within_absmax (uinput_absmax w) (uinput_absmax h) e := by
  have hx : adv.screen_w - 1 ≤ uinput_absmax w :=
    le_trans (by omega) (le_max_right 0 (w - 1))
  have hy : adv.screen_h - 1 ≤ uinput_absmax h :=
    le_trans (by omega) (le_max_right 0 (h - 1))
  cases e <;> simp only [position_within_absmax, position_on_screen] at he ⊢ <;>
    first | trivial | exact le_trans he.2 hx | exact le_trans he.2 hy

theorem uinputd_loop_events_within (w h : Int) (inps : List LoopInput) :
    ∀ l : DLoop, reloads_within w h inps →
      1 ≤ l.adv.screen_w → 1 ≤ l.adv.screen_h → l.adv.iir_alpha ≤ 1 →
      l.adv.screen_w ≤ w → l.adv.screen_h ≤ h →
      (l.st.touch_down = true → RangeInv l.adv l.st.filter) →
      ∀ evs ∈ uinputd_loop_events l inps, ∀ e ∈ evs,
        position_within_absmax (uinput_absmax w) (uinput_absmax h) e := by
  induction inps with
  | nil => intro l _ _ _ _ _ _ _ evs hev; simp [uinputd_loop_events] at hev
  | cons inp rest ih =>
    intro l hre hw hh ha hlw hlh hinv evs hev
    have hrest : reloads_within w h rest := fun i hi => hre i (List.mem_cons_of_mem _ hi)
    have hl1 : ∃ l1 : DLoop, uinputd_after_reload l inp = l1 ∧
        1 ≤ l1.adv.screen_w ∧ 1 ≤ l1.adv.screen_h ∧ l1.adv.iir_alpha ≤ 1 ∧
        l1.adv.screen_w ≤ w ∧ l1.adv.screen_h ≤ h ∧
        (l1.st.touch_down = true → RangeInv l1.adv l1.st.filter) := by
      refine ⟨_, rfl, ?_⟩
      cases hd : l.st.touch_down with
      | true =>
        rw [uinputd_after_reload_down l inp hd]
        exact ⟨hw, hh, ha, hlw, hlh, hinv⟩
      | false =>
        cases hr : inp.reload with
        | none =>
          have e : uinputd_after_reload l inp = l := by
            simp [uinputd_after_reload, hd, hr]
          rw [e]
          exact ⟨hw, hh, ha, hlw, hlh, hinv⟩
        | some loaded =>
          have e : uinputd_after_reload l inp = uinputd_reload l loaded := by
            simp [uinputd_after_reload, hd, hr]
          rw [e]
          obtain ⟨s1, s2, s3⟩ := sanitize_adv_screen_alpha loaded.2
          obtain ⟨b1, b2⟩ := hre inp (List.mem_cons_self _ _) loaded hr
          refine ⟨s1, s2, s3, b1, b2, ?_⟩
          intro hdown
          simp only [uinputd_reload, hd] at hdown
          exact absurd hdown (by decide)
    obtain ⟨l1, e1, i1, i2, i3, i4, i5, i6⟩ := hl1
    have hit : uinputd_iteration l inp =
        ({ l1 with st := (uinputd_tick l1.calib l1.adv l1.st inp.smp).1 },
          (uinputd_tick l1.calib l1.adv l1.st inp.smp).2) := by
      simp only [uinputd_iteration, e1]
    simp only [uinputd_loop_events, List.mem_cons] at hev
    rcases hev with hev | hev
    · intro e he
      rw [hev, hit] at he
      exact position_on_screen_within l1.adv w h e i4 i5
        (uinputd_tick_events_on_screen l1.calib l1.adv l1.st inp.smp i1 i2 i3 i6 e he)
    · rw [hit] at hev
      exact ih { l1 with st := (uinputd_tick l1.calib l1.adv l1.st inp.smp).1 } hrest i1 i2 i3
        i4 i5 (uinputd_tick_range l1.calib l1.adv l1.st inp.smp i1 i2 i3 i6) evs hev

/-- C27 (advertised maxima), amended.  The daemon starts Up with the sanitised
configuration `sanitize_adv a0` and creates the uinput device from its
`screen_w`, `screen_h`.  For every run in which each reloaded configuration has,
after `sanitize_adv`, `screen_w` and `screen_h` not larger than the initial ones
(in particular every run without a reload), every `ABS_X` /
`ABS_MT_POSITION_X` value written is `≤` the advertised `absmax` of the X axis
and every `ABS_Y` / `ABS_MT_POSITION_Y` value `≤` that of the Y axis. -/
theorem C27_positions_within_absmax (c0 : Calib) (a0 : AdvancedParams) (s0 : DState)
    (inps : List LoopInput) (hup : s0.touch_down = false)
    (hre : reloads_within (sanitize_adv a0).screen_w (sanitize_adv a0).screen_h inps) :
    ∀ evs ∈ uinputd_loop_events ⟨c0, sanitize_adv a0, s0⟩ inps, ∀ e ∈ evs,
      position_within_absmax (uinput_absmax (sanitize_adv a0).screen_w)
        (uinput_absmax (sanitize_adv a0).screen_h) e := by
  obtain ⟨s1, s2, s3⟩ := sanitize_adv_screen_alpha a0
  exact uinputd_loop_events_within _ _ inps ⟨c0, sanitize_adv a0, s0⟩ hre s1 s2 s3
    (le_refl _) (le_refl _) (fun hd => absurd (hup ▸ hd) (by decide))

/-- Witness of the amended C27: start at 800×480, a reload to 640×480 while Up,
then a contact at the raw corner. -/
theorem C27_positions_within_absmax_witness :
    ({} : DState).touch_down = false ∧
    (∀ evs ∈ uinputd_loop_events ⟨{}, sanitize_adv {}, {}⟩
        [⟨some ({}, { screen_w := 640 }), ⟨4095, 4095, 200⟩⟩, ⟨none, ⟨4095, 4095, 200⟩⟩],
      ∀ e ∈ evs, position_within_absmax (uinput_absmax (sanitize_adv {}).screen_w)
        (uinput_absmax (sanitize_adv {}).screen_h) e) :=
  ⟨rfl, C27_positions_within_absmax {} {} {}
    [⟨some ({}, { screen_w := 640 }), ⟨4095, 4095, 200⟩⟩, ⟨none, ⟨4095, 4095, 200⟩⟩] rfl
    (by
      intro inp hinp loaded hl
      simp only [List.mem_cons, List.mem_singleton, List.mem_nil_iff, or_false] at hinp
      rcases hinp with h | h
      · rw [h] at hl
        cases hl
        decide!
      · rw [h] at hl
        cases hl)⟩

/-! ### A lifted finger ends the contact -/

/-- Counterexample to C28 as stated.  `press_threshold = 120`,
`release_threshold = -1` is left unchanged by `sanitize_adv` (it only lowers a
release threshold above the press threshold).  The state is Down after two
samples at pressure 200; two further samples at pressure 0 leave it Down,
because `0 <= -1` is false. -/
theorem C28_counterexample :
    (sanitize_adv { release_threshold := -1 }).release_threshold = -1 ∧
    (0 : Int) < (sanitize_adv { release_threshold := -1 }).press_threshold ∧
    (uinputd_run {} (sanitize_adv { release_threshold := -1 }) {}
        [⟨2000, 2000, 200⟩, ⟨2000, 2000, 200⟩]).1.touch_down = true ∧
    pressure_of (0 : Int) = 0 ∧
    (uinputd_run {} (sanitize_adv { release_threshold := -1 }) {}
        [⟨2000, 2000, 200⟩, ⟨2000, 2000, 200⟩, ⟨2000, 2000, 0⟩,
          ⟨2000, 2000, 0⟩]).1.touch_down = true := by
  decide!

/-- C28 (a lifted finger ends the contact), amended.  For every configuration
with `press_threshold > 0` and `release_threshold ≥ 0` (sanitised or not): if
the daemon's state is Down (with `release_streak ≥ 0`, as in every run) and the
next two iterations read their samples successfully with pressure 0, the state
is Up after the second of them. -/
theorem C28_lifted_finger_releases (c : Calib) (adv : AdvancedParams) (s : DState)
    (a b : Sample) (hthr : 0 < adv.press_threshold) (hrel : 0 ≤ adv.release_threshold)
    (hdown : s.touch_down = true) (hstreak : 0 ≤ s.release_streak)
    (ha : 0 ≤ a.raw_x ∧ 0 ≤ a.raw_y) (hb : 0 ≤ b.raw_x ∧ 0 ≤ b.raw_y)
    (hpa : pressure_of a.z1 = 0) (hpb : pressure_of b.z1 = 0) :
    (uinputd_tick c adv (uinputd_tick c adv s a).1 b).1.touch_down = false := by
  obtain ⟨a1, a2⟩ := uinputd_tick_down c adv s a hthr hdown ha
  rw [hpa] at a1 a2
  cases h1 : (uinputd_tick c adv s a).1.touch_down with
  | false =>
    obtain ⟨b1, _⟩ := uinputd_tick_up c adv (uinputd_tick c adv s a).1 b hthr h1 hb
    rw [hpb] at b1
    cases h2 : (uinputd_tick c adv (uinputd_tick c adv s a).1 b).1.touch_down with
    | false => rfl
    | true =>
      have := (b1.mp h2).1
      omega
  | true =>
    obtain ⟨b1, _⟩ := uinputd_tick_down c adv (uinputd_tick c adv s a).1 b hthr h1 hb
    rw [hpb] at b1
    have hns : ¬ 1 ≤ s.release_streak := by
      intro h
      have := a1.mpr ⟨hrel, h⟩
      rw [h1] at this
      exact Bool.noConfusion this
    rw [if_pos hrel, if_neg hns] at a2
    exact b1.mpr ⟨hrel, by omega⟩

/-- Witness of the amended C28 on the default configuration (`press_threshold =
120`, `release_threshold = 80`): a contact established by two samples at
pressure 200 is ended by two samples at pressure 0. -/
theorem C28_lifted_finger_releases_witness :
    (uinputd_tick {} {}
      (uinputd_tick {} {} (uinputd_run {} {} {} [⟨2000, 2000, 200⟩, ⟨2000, 2000, 200⟩]).1
        ⟨2000, 2000, 0⟩).1 ⟨2010, 1990, -1⟩).1.touch_down = false :=
  C28_lifted_finger_releases {} {}
    (uinputd_run {} {} {} [⟨2000, 2000, 200⟩, ⟨2000, 2000, 200⟩]).1 ⟨2000, 2000, 0⟩
    ⟨2010, 1990, -1⟩ (by decide) (by decide) (by decide!) (by decide!)
    ⟨by decide, by decide⟩ ⟨by decide, by decide⟩ (by decide) (by decide)

/-! ### The median -/

theorem countP_lt_add_count_le (c : Int) (v : List Int) :
    v.countP (fun y => decide (y < c)) + v.count c ≤ v.length := by
  induction v with
  | nil => simp
  | cons a t ih =>
    by_cases h1 : a < c
    · have h2 : ¬ a = c := by omega
      simp [List.countP_cons, List.count_cons, h1, h2]
      omega
    · by_cases h2 : a = c
      · simp [List.countP_cons, List.count_cons, h1, h2]
        subst h2
        omega
      · simp [List.countP_cons, List.count_cons, h1, h2]
        omega

theorem count_le_countP_le (c : Int) (v : List Int) :
    v.count c ≤ v.countP (fun y => decide (y ≤ c)) := by
  induction v with
  | nil => simp
  | cons a t ih =>
    by_cases h2 : a = c
    · subst h2
      simp [List.countP_cons, List.count_cons]
      exact ih
    · by_cases h1 : a ≤ c
      · simp [List.countP_cons, List.count_cons, h1, h2]
        omega
      · simp [List.countP_cons, List.count_cons, h1, h2]
        exact ih

theorem median_of_mem (v : List Int) (hne : v ≠ []) : median_of v ∈ v := by
  have hlen : 0 < v.length := List.length_pos.mpr hne
  have hk : v.length / 2 < (v.insertionSort (· ≤ ·)).length := by
    rw [List.length_insertionSort]
    omega
  have he : v.isEmpty = false := by
    cases v with
    | nil => exact absurd rfl hne
    | cons a t => rfl
  unfold median_of
  rw [he]
  simp only [Bool.false_eq_true, if_false]
  rw [List.getD_eq_getElem _ _ hk]
  exact (List.perm_insertionSort (· ≤ ·) v).subset (List.getElem_mem hk)

/-- C29 (median_of).  For every non-empty window `v` of `n` integers:
(1) if strictly more than `n/2` entries equal `c`, `median_of v = c`;
(2) `median_of` of the empty window is `0`;
(3) `median_of v` is the element at index `n/2` (integer division) of the
ascending sort of `v`: of a sorted permutation of `v`;
(4) `median_of v` is a member of `v`. -/
theorem C29_median_of (v : List Int) (c : Int) (hne : v ≠ []) :
    (v.length / 2 < v.count c → median_of v = c) ∧
    median_of [] = 0 ∧
    (∃ s : List Int, s.Sorted (· ≤ ·) ∧ s.Perm v ∧ s[v.length / 2]? = some (median_of v)) ∧
    median_of v ∈ v := by
  refine ⟨?_, rfl, ?_, median_of_mem v hne⟩
  · intro hmaj
    apply le_antisymm
    · rw [median_of_le_iff v hne c]
      exact lt_of_lt_of_le hmaj (count_le_countP_le c v)
    · rw [le_median_of_iff v hne c]
      have := countP_lt_add_count_le c v
      omega
  · have hlen : 0 < v.length := List.length_pos.mpr hne
    have hk : v.length / 2 < (v.insertionSort (· ≤ ·)).length := by
      rw [List.length_insertionSort]
      omega
    have he : v.isEmpty = false := by
      cases v with
      | nil => exact absurd rfl hne
      | cons a t => rfl
    refine ⟨v.insertionSort (· ≤ ·), List.sorted_insertionSort (· ≤ ·) v,
      List.perm_insertionSort (· ≤ ·) v, ?_⟩
    unfold median_of
    rw [he]
    simp only [Bool.false_eq_true, if_false]
    rw [List.getD_eq_getElem _ _ hk, List.getElem?_eq_getElem hk]

/-- Witness of C29: a full window of 5 with two spikes. -/
theorem C29_median_of_witness :
    median_of [7, 900, 7, -300, 7] = 7 ∧
    median_of [7, 900, 7, -300, 7] ∈ [7, 900, 7, -300, 7] :=
  ⟨(C29_median_of [7, 900, 7, -300, 7] 7 (by decide)).1 (by decide),
    (C29_median_of [7, 900, 7, -300, 7] 7 (by decide)).2.2.2⟩

/-! ### Monotonicity of the daemon's mapping -/

end XPT2046
